import Mathlib

/-!
# RC2014 emulators: memory fabric, SIO, interrupt delivery, UART, CTC, VIA, ACIA and clock

A shallow embedding of `rc2014-6502.c` (namespace `RC2014`) and `kz80.c`
(namespace `KZ80`).

Conventions.
* `uint8_t` / `uint16_t` / `unsigned int` values are natural numbers; a
  parameter of such a type is reduced modulo `2^8` / `2^16` on entry and
  arithmetic that can leave the range is reduced explicitly.
* A statically sized global array (`ramrom`, `eeprom`, `ram`) is a map from
  index to byte together with its declared length; every access goes through
  `CArray.load` / `CArray.store`, which answer `none` when the index is past
  the end of the array.  The register files inside `struct z80_sio_chan` are
  maps updated with `upd`.
* Statics that nothing assigns (`iopage`, `has_im2`, `sio2_input` of `kz80.c`)
  are constants; the other statics are fields of the state that is passed
  along.
* Calls that leave the program (host terminal, CPU core) are recorded in the
  state as logs or taken as inputs of the function that makes them.
* Trace output (`fprintf(stderr, ...)`) is not part of the state, and neither is the
  diagnostic line `next_char` prints with `printf` when `read` delivers no byte: the
  logs `tty_out` hold only the bytes the guest transmits.
* Each device of `rc2014-6502.c` is given the part of the statics its functions
  touch (`UartSys`, `CtcSys`, `ViaSys`, `AciaSys`, `Rtc`, `SioPair`); the interrupt
  mask `live_irq` is a field of each device that raises interrupts.
-/

namespace CArray

/-- The element `a[i]` of an array declared with `size` elements. -/
def load (size : Nat) (a : Nat → Nat) (i : Nat) : Option Nat :=
  if i < size then some (a i) else none

/-- The array after `a[i] = v`, for an array declared with `size` elements. -/
def store (size : Nat) (a : Nat → Nat) (i v : Nat) : Option (Nat → Nat) :=
  if i < size then some (fun j => if j = i then v else a j) else none

end CArray

/-! ## `rc2014-6502.c`: the banked memory fabric -/

namespace RC2014

/-- Declared length of `ramrom`: `static uint8_t ramrom[1024 * 1024]`. -/
def RAMROM_SIZE : Nat := 1024 * 1024

/-- The constant `static uint8_t iopage = 0xC0`; nothing assigns it. -/
def iopage : Nat := 0xC0

/-- Which devices the command line populated (the flags tested by the port decoder). -/
structure Config where
  acia : Bool
  acia_narrow : Bool
  sio2 : Bool
  ide : Bool
  wiznet : Bool
  rtc : Bool
  have_ctc : Bool
  uart_16550a : Bool

/-- The memory fabric: `ramrom`, `bankreg[4]`, `bankenable`, `addrinvert`. -/
structure Fabric where
  ramrom : Nat → Nat
  bankreg : Nat → Nat
  bankenable : Nat
  addrinvert : Nat

/-- The index `(bankreg[bank] << 14) + xaddr`, computed in `unsigned int`. -/
def bank_index (reg xaddr : Nat) : Nat :=
  ((reg <<< 14) % 2 ^ 32 + xaddr) % 2 ^ 32

/-- The effect of `mmio_write_6502` on the fabric.  The device branches ahead of the
bank registers in the `else if` chain act on device state only and leave the fabric
as it is; the narrow-ACIA test in front of the chain is a separate `if`. -/
def mmio_write_6502 (cfg : Config) (s : Fabric) (addr0 val0 : Nat) : Fabric :=
  let addr := addr0 % 256
  let val := val0 % 256
  if (0x80 ≤ addr ∧ addr ≤ 0xBF) ∧ cfg.acia = true ∧ cfg.acia_narrow = false then s
  else if (0x80 ≤ addr ∧ addr ≤ 0x83) ∧ cfg.sio2 = true then s
  else if (0x10 ≤ addr ∧ addr ≤ 0x17) ∧ cfg.ide = true then s
  else if 0x28 ≤ addr ∧ addr ≤ 0x2C ∧ cfg.wiznet = true then s
  else if 0x60 ≤ addr ∧ addr ≤ 0x6F then s
  else if 0x78 ≤ addr ∧ addr ≤ 0x7B then
    { s with bankreg := fun j => if j = addr &&& 3 then val &&& 0x3F else s.bankreg j }
  else if 0x7C ≤ addr ∧ addr ≤ 0x7F then
    { s with bankenable := val &&& 1 }
  else s

/-- The function `do_6502_read`. -/
def do_6502_read (s : Fabric) (addr0 : Nat) : Option Nat :=
  let addr := addr0 % 65536
  let xaddr := (addr ^^^ s.addrinvert) % 65536
  if s.bankenable ≠ 0 then
    let bank := (xaddr &&& 0xC000) >>> 14
    CArray.load RAMROM_SIZE s.ramrom (bank_index (s.bankreg bank) (xaddr &&& 0x3FFF))
  else
    CArray.load RAMROM_SIZE s.ramrom (xaddr &&& 0x3FFF)

/-- What a call of `read6502` does: either it hands the access to the port decoder
`mmio_read_6502` (leaving the sniffer alone), or it returns the byte `r` read from
memory, leaves the opcode sniffer in `rstate` and may have called `reti_event`. -/
inductive Read6502 where
  | mmio (port : Nat)
  | mem (r : Nat) (rstate : Nat) (reti : Bool)
  deriving DecidableEq

/-- The function `read6502`, with the static `rstate` and the flag `fake_m1` as
arguments. -/
def read6502 (s : Fabric) (fake_m1 : Bool) (rstate : Nat) (addr0 : Nat) : Option Read6502 :=
  let addr := addr0 % 65536
  if addr >>> 8 = iopage then some (Read6502.mmio (addr % 256))
  else
    match do_6502_read s addr with
    | none => none
    | some r =>
      if fake_m1 = true ∧ (r = 0xDD ∨ r = 0xFD ∨ r = 0xCB) then some (Read6502.mem r 2 false)
      else if fake_m1 = true ∧ (r = 0xED ∧ rstate = 0) then some (Read6502.mem r 1 false)
      else if rstate = 1 ∧ r = 0x4D then some (Read6502.mem r 0 true)
      else some (Read6502.mem r 0 false)

/-- The function `write6502`, as far as the fabric is concerned. -/
def write6502 (cfg : Config) (s : Fabric) (addr0 val0 : Nat) : Option Fabric :=
  let addr := addr0 % 65536
  let val := val0 % 256
  let xaddr := (addr ^^^ s.addrinvert) % 65536
  if addr >>> 8 = iopage then some (mmio_write_6502 cfg s addr val)
  else if s.bankenable ≠ 0 then
    let bank := (xaddr &&& 0xC000) >>> 14
    if 32 ≤ s.bankreg bank then
      match CArray.store RAMROM_SIZE s.ramrom
          (bank_index (s.bankreg bank) (xaddr &&& 0x3FFF)) val with
      | none => none
      | some m => some { s with ramrom := m }
    else some s
  else some s

/-- The bank selected by an address: `((addr ^ addrinvert) & 0xC000) >> 14`. -/
def bank_of (s : Fabric) (addr : Nat) : Nat :=
  ((((addr % 65536) ^^^ s.addrinvert) % 65536) &&& 0xC000) >>> 14

/-- The offset of an address inside its 16 KiB window: `(addr ^ addrinvert) & 0x3FFF`. -/
def offset_of (s : Fabric) (addr : Nat) : Nat :=
  ((((addr % 65536) ^^^ s.addrinvert) % 65536)) &&& 0x3FFF

/-- The byte `read6502(addr)` returns right after `write6502(addr, v)`. -/
def write_then_read (cfg : Config) (s : Fabric) (fake_m1 : Bool) (rstate : Nat)
    (addr v : Nat) : Option Nat :=
  match write6502 cfg s addr v with
  | none => none
  | some s1 =>
    match read6502 s1 fake_m1 rstate addr with
    | some (Read6502.mem r _ _) => some r
    | _ => none

/-- A board with only the 16550A fitted (the default when no UART is selected). -/
def cfg_default : Config :=
  { acia := false, acia_narrow := false, sio2 := false, ide := false,
    wiznet := false, rtc := false, have_ctc := false, uart_16550a := true }

/-- A fabric whose backing store is all zero, with banking on and every bank register
equal to `reg`. -/
def fabric_zero (reg : Nat) : Fabric :=
  { ramrom := fun _ => 0, bankreg := fun _ => reg, bankenable := 1, addrinvert := 0 }

end RC2014

/-! ## `kz80.c`: memory, SIO/2 and interrupt delivery -/

namespace KZ80

/-- Declared length of `eeprom`: `static uint8_t eeprom[8192]`. -/
def EEPROM_SIZE : Nat := 8192

/-- Declared length of `ram`: `static uint8_t ram[65535]`. -/
def RAM_SIZE : Nat := 65535

/-- The static `has_im2`: zero-initialised, and nothing assigns it. -/
def has_im2 : Nat := 0

/-- The static `sio2_input = 1`; nothing assigns it. -/
def sio2_input : Nat := 1

/-- The live source `IRQ_SIOA`. -/
def IRQ_SIOA : Nat := 1

/-- The live source `IRQ_SIOB`. -/
def IRQ_SIOB : Nat := 2

/-- The interrupt bit `INT_TX`. -/
def INT_TX : Nat := 1

/-- The interrupt bit `INT_RX`. -/
def INT_RX : Nat := 2

/-- The interrupt bit `INT_ERR`. -/
def INT_ERR : Nat := 4

/-- The array `a` after `a[i] = v`, for the register files inside `struct z80_sio_chan`
(`wr[8]`, `rr[3]`, `data[3]`).  Their indices are literals, `wr[0] & 7`, or `dptr`,
which stays at most 2 (`dptr_le_two_of_run`). -/
def upd (a : Nat → Nat) (i v : Nat) : Nat → Nat :=
  fun j => if j = i then v else a j

/-- The record `struct z80_sio_chan`. -/
structure z80_sio_chan where
  wr : Nat → Nat
  rr : Nat → Nat
  data : Nat → Nat
  dptr : Nat
  irq : Nat
  rxint : Nat
  txint : Nat
  intbits : Nat
  pending : Nat
  vector : Nat

/-- A channel pointer: `sio` is channel A, `sio + 1` is channel B. -/
inductive Chan where
  | A
  | B
  deriving DecidableEq

/-- The static state of `kz80.c`, with the calls it makes to the CPU core's interrupt
entry (`Z80INT`) and the bytes it writes to file descriptor 1 kept as logs, oldest
first. -/
structure Machine where
  eeprom : Nat → Nat
  ram : Nat → Nat
  rstate : Nat
  int_recalc : Nat
  live_irq : Nat
  sioA : z80_sio_chan
  sioB : z80_sio_chan
  z80int : List Nat
  tty_out : List Nat

/-- The channel record behind a channel pointer. -/
def Machine.chan (s : Machine) : Chan → z80_sio_chan
  | Chan.A => s.sioA
  | Chan.B => s.sioB

/-- Assignments through a channel pointer: `chan->field = ...`. -/
def Machine.modChan (s : Machine) (c : Chan) (f : z80_sio_chan → z80_sio_chan) : Machine :=
  match c with
  | Chan.A => { s with sioA := f s.sioA }
  | Chan.B => { s with sioB := f s.sioB }

/-- The call `Z80INT(&cpu_z80, vector)`, recorded in the log. -/
def Z80INT (s : Machine) (vector : Nat) : Machine :=
  { s with z80int := s.z80int ++ [vector] }

/-- The call `write(1, &val, 1)`, recorded in the log. -/
def tty_write (s : Machine) (val : Nat) : Machine :=
  { s with tty_out := s.tty_out ++ [val] }

/-- What `select` reported inside `check_chario`. -/
inductive Select where
  | eintr
  | failed
  | ok (stdin_ready : Bool)
  deriving DecidableEq

/-- The function `check_chario`; `none` is the `exit(1)` after a failed `select`.
Only the read set is handed to `select`, so the write set still holds descriptor 1
when it is tested and bit 1 of the result is always set. -/
def check_chario : Select → Option Nat
  | Select.eintr => some 0
  | Select.failed => none
  | Select.ok stdin_ready => some ((if stdin_ready = true then 1 else 0) ||| 2)

/-- The function `next_char`, given what `read(0, &c, 1)` delivered (`none`: no byte).
Its result is only ever passed to a `uint8_t` parameter, so it is kept as that byte.
When `read` delivers no byte the code also prints the line
`(tty read without ready byte)` with `printf` before it returns `0xFF`; like the trace
output that line is not recorded: the logs `tty_out` hold the bytes the guest
transmits (`write(1, &val, 1)`, `putchar(val)`) and nothing else. -/
def next_char : Option Nat → Nat
  | none => 0xFF
  | some c => if c % 256 = 0x0A then 0x0D else c % 256

/-- The function `recalc_interrupts`. -/
def recalc_interrupts (s : Machine) : Machine :=
  { s with int_recalc := 1 }

/-- The function `sio2_clear_int`. -/
def sio2_clear_int (s : Machine) (c : Chan) (m0 : Nat) : Machine :=
  let m := m0 % 256
  let s1 := s.modChan c (fun ch => { ch with
    intbits := ch.intbits &&& (0xFF ^^^ m),
    pending := ch.pending &&& (0xFF ^^^ m) })
  let s2 :=
    if (s1.sioA.intbits ||| s1.sioB.intbits) = 0 then
      (s1.modChan Chan.A (fun ch => { ch with rr := upd ch.rr 1 (ch.rr 1 &&& 0xFD) })).modChan c
        (fun ch => { ch with irq := 0 })
    else s1
  recalc_interrupts s2

/-- The function `sio2_raise_int`. -/
def sio2_raise_int (s : Machine) (c : Chan) (m0 : Nat) : Machine :=
  let m := m0 % 256
  let new := ((s.chan c).intbits ^^^ m) &&& m
  let s1 := s.modChan c (fun ch => { ch with intbits := ch.intbits ||| m })
  if new ≠ 0 then
    if s1.sioA.irq = 0 then
      recalc_interrupts
        ((s1.modChan c (fun ch => { ch with irq := 1 })).modChan Chan.A
          (fun ch => { ch with rr := upd ch.rr 1 (ch.rr 1 ||| 0x02) }))
    else s1
  else s1

/-- The function `sio2_reti`: whichever channel it is called for, it clears the IRQ
flag of `sio[0]`. -/
def sio2_reti (s : Machine) (_c : Chan) : Machine :=
  recalc_interrupts (s.modChan Chan.A (fun ch => { ch with irq := 0 }))

/-- The vector `sio2_check_im2` computes for channel `c`. -/
def sio2_vector (s : Machine) (c : Chan) : Nat :=
  let vector := s.sioB.wr 2
  if s.sioB.wr 1 &&& 0x04 ≠ 0 then
    let v1 := vector &&& 0xF1
    let v2 := if c = Chan.A then v1 ||| (1 <<< 3) else v1
    if (s.chan c).intbits &&& INT_RX ≠ 0 then v2 ||| 4
    else if (s.chan c).intbits &&& INT_ERR ≠ 0 then v2 ||| 2
    else v2
  else vector

/-- The function `sio2_check_im2`: the `int` it returns and the state it leaves. -/
def sio2_check_im2 (s : Machine) (c : Chan) : Nat × Machine :=
  if (s.chan c).irq ≠ 0 then
    let s1 := s.modChan c (fun ch => { ch with vector := sio2_vector s c })
    let s2 := { s1 with live_irq := if c = Chan.A then IRQ_SIOA else IRQ_SIOB }
    (1, Z80INT s2 (s2.chan c).vector)
  else (0, s)

/-- The function `sio2_queue`. -/
def sio2_queue (s : Machine) (c : Chan) (c0 : Nat) : Machine :=
  let byte := c0 % 256
  if (s.chan c).wr 3 &&& 1 = 0 then s
  else if (s.chan c).dptr = 2 then
    sio2_raise_int
      (s.modChan c (fun ch => { ch with
        data := upd ch.data 2 byte,
        rr := upd ch.rr 1 (ch.rr 1 ||| 0x20) }))
      c INT_ERR
  else
    let s1 := s.modChan c (fun ch => { ch with
      data := upd ch.data ch.dptr byte,
      dptr := (ch.dptr + 1) % 256,
      rr := upd ch.rr 0 (ch.rr 0 ||| 1) })
    let mode := (s1.chan c).wr 1 &&& 0x18
    if mode = 0x00 then s1
    else if mode = 0x08 then
      if (s1.chan c).dptr = 1 then sio2_raise_int s1 c INT_RX else s1
    else if mode = 0x10 ∨ mode = 0x18 then sio2_raise_int s1 c INT_RX
    else s1

/-- The function `sio2_channel_timer`, given what the host reports during the call:
the outcome of `select` and of the one-byte `read`.  `none`: `check_chario` exited. -/
def sio2_channel_timer (s : Machine) (c : Chan) (ab : Nat) (sel : Select) (rd : Option Nat) :
    Option Machine :=
  if ab % 256 = 0 then
    match check_chario sel with
    | none => none
    | some cc =>
      let s1 :=
        if sio2_input ≠ 0 then
          if cc &&& 1 ≠ 0 then sio2_queue s c (next_char rd) else s
        else s
      if cc &&& 2 ≠ 0 then
        if (s1.chan c).rr 0 &&& 0x04 = 0 then
          let s2 := s1.modChan c (fun ch => { ch with rr := upd ch.rr 0 (ch.rr 0 ||| 0x04) })
          if (s2.chan c).wr 1 &&& 0x02 ≠ 0 then some (sio2_raise_int s2 c INT_TX) else some s2
        else some s1
      else some s1
  else
    if (s.chan c).rr 0 &&& 0x04 = 0 then
      let s2 := s.modChan c (fun ch => { ch with rr := upd ch.rr 0 (ch.rr 0 ||| 0x04) })
      if (s2.chan c).wr 1 &&& 0x02 ≠ 0 then some (sio2_raise_int s2 c INT_TX) else some s2
    else some s

/-- The function `sio2_timer`: one timer tick of the SIO pair. -/
def sio2_timer (s : Machine) (sel : Select) (rd : Option Nat) : Option Machine :=
  match sio2_channel_timer s Chan.A 0 sel rd with
  | none => none
  | some s1 => sio2_channel_timer s1 Chan.B 1 sel rd

/-- The function `sio2_channel_reset`. -/
def sio2_channel_reset (s : Machine) (c : Chan) : Machine :=
  sio2_clear_int
    (s.modChan c (fun ch => { ch with rr := upd (upd (upd ch.rr 0 0x2C) 1 0x01) 2 0 }))
    c (INT_RX ||| INT_TX ||| INT_ERR)

/-- The function `sio_reset`. -/
def sio_reset (s : Machine) : Machine :=
  sio2_channel_reset (sio2_channel_reset s Chan.A) Chan.B

/-- The channel an SIO port address selects: `(addr & 2) ? sio + 1 : sio`. -/
def chan_of (addr : Nat) : Chan :=
  if addr &&& 2 ≠ 0 then Chan.B else Chan.A

/-- The control branch of `sio2_read` (`!(addr & 1)`): the byte returned and the state
left.  In the `switch`, case 2 falls through to case 3 for channel A, and registers
4..7 leave the `switch` for the final `return 0xFF`. -/
def sio2_read_control (s : Machine) (c : Chan) : Nat × Machine :=
  let r := (s.chan c).wr 0 &&& 7
  let s1 := s.modChan c (fun ch => { ch with
    wr := upd ch.wr 0 (ch.wr 0 &&& 0xF8),
    rr := upd ch.rr 0 (ch.rr 0 &&& 0xFD) })
  let s2 :=
    if c = Chan.A ∧ (s1.sioA.intbits ||| s1.sioB.intbits) ≠ 0 then
      s1.modChan c (fun ch => { ch with rr := upd ch.rr 0 (ch.rr 0 ||| 2) })
    else s1
  if r = 0 ∨ r = 1 then ((s2.chan c).rr r, s2)
  else if r = 2 ∧ c ≠ Chan.A then ((s2.chan c).rr 2, s2)
  else (0xFF, s2)

/-- The data branch of `sio2_read`: the byte returned and the state left. -/
def sio2_read_data (s : Machine) (c : Chan) : Nat × Machine :=
  let byte := (s.chan c).data 0
  let s1 := s.modChan c (fun ch => { ch with
    data := upd (upd ch.data 0 (ch.data 1)) 1 (ch.data 2),
    dptr := if ch.dptr ≠ 0 then ch.dptr - 1 else ch.dptr })
  let s2 :=
    if (s1.chan c).dptr = 0 then
      s1.modChan c (fun ch => { ch with rr := upd ch.rr 0 (ch.rr 0 &&& 0xFE) })
    else s1
  let s3 := sio2_clear_int s2 c INT_RX
  let s4 := s3.modChan c (fun ch => { ch with
    rr := upd (upd ch.rr 0 (ch.rr 0 &&& 0x3F)) 1 (ch.rr 1 &&& 0x3F) })
  let s5 :=
    if (s4.chan c).dptr ≠ 0 ∧ (s4.chan c).wr 1 &&& 0x10 ≠ 0 then sio2_raise_int s4 c INT_RX
    else s4
  (byte, s5)

/-- The function `sio2_read`: the byte it returns and the state it leaves. -/
def sio2_read (s : Machine) (addr0 : Nat) : Nat × Machine :=
  let addr := addr0 % 65536
  if addr &&& 1 = 0 then sio2_read_control s (chan_of addr)
  else sio2_read_data s (chan_of addr)

/-- The `switch (val & 070)` of `sio2_write`: the WR0 command `val` on channel `c`,
run after `wr[0]` has been stored. -/
def sio2_wr0_command (s : Machine) (c : Chan) (val : Nat) : Machine :=
  let cmd := val &&& 0o70
  if cmd = 0o00 then s
  else if cmd = 0o10 then s
  else if cmd = 0o20 then
    (sio2_clear_int s c INT_ERR).modChan c (fun ch => { ch with rr := upd ch.rr 1 (ch.rr 1 &&& 0xCF) })
  else if cmd = 0o30 then sio2_channel_reset s c
  else if cmd = 0o40 then s.modChan c (fun ch => { ch with rxint := 1 })
  else if cmd = 0o50 then sio2_clear_int (s.modChan c (fun ch => { ch with txint := 0 })) c INT_TX
  else if cmd = 0o60 then s.modChan c (fun ch => { ch with rr := upd ch.rr 1 (ch.rr 1 &&& 0x8F) })
  else if cmd = 0o70 then
    if c = Chan.A then
      sio2_clear_int
        (sio2_clear_int
          (s.modChan Chan.A (fun ch => { ch with irq := 0, rr := upd ch.rr 1 (ch.rr 1 &&& 0xFD) }))
          Chan.A (INT_RX ||| INT_TX ||| INT_ERR))
        Chan.B (INT_RX ||| INT_TX ||| INT_ERR)
    else s
  else s

/-- The control branch of `sio2_write`: a WR0 command when the register pointer is 0,
otherwise a store into the register the pointer selects. -/
def sio2_write_control (s : Machine) (c : Chan) (val : Nat) : Machine :=
  let r := (s.chan c).wr 0 &&& 7
  if r = 0 then
    sio2_wr0_command (s.modChan c (fun ch => { ch with wr := upd ch.wr 0 val })) c val
  else
    s.modChan c (fun ch => { ch with
      wr := upd (upd ch.wr r val) 0 ((upd ch.wr r val) 0 &&& 0xF8),
      rr := if c ≠ Chan.A ∧ r = 2 then upd ch.rr 2 val else ch.rr })

/-- The data branch of `sio2_write`; the byte goes to file descriptor 1. -/
def sio2_write_data (s : Machine) (c : Chan) (val : Nat) : Machine :=
  tty_write
    (sio2_clear_int
      (s.modChan c (fun ch => { ch with rr := upd ch.rr 0 (ch.rr 0 &&& 0xFB), txint := 1 }))
      c INT_TX)
    val

/-- The function `sio2_write`. -/
def sio2_write (s : Machine) (addr0 val0 : Nat) : Machine :=
  let addr := addr0 % 65536
  let val := val0 % 256
  if addr &&& 1 = 0 then sio2_write_control s (chan_of addr) val
  else sio2_write_data s (chan_of addr) val

/-- The function `io_read`. -/
def io_read (s : Machine) (addr0 : Nat) : Nat × Machine :=
  let addr := (addr0 % 65536) &&& 0xFF
  if 0x80 ≤ addr ∧ addr ≤ 0x83 then sio2_read s (addr &&& 3)
  else (0xFF, s)

/-- The function `io_write`. -/
def io_write (s : Machine) (addr0 val0 : Nat) : Machine :=
  let addr := (addr0 % 65536) &&& 0xFF
  if 0x80 ≤ addr ∧ addr ≤ 0x83 then sio2_write s (addr &&& 3) (val0 % 256)
  else s

/-- The function `poll_irq_event`: channel B is asked only when channel A had nothing
to deliver.  The test of `live_irq` is commented out in the source. -/
def poll_irq_event (s : Machine) : Machine :=
  let r := sio2_check_im2 s Chan.A
  if r.1 = 0 then (sio2_check_im2 r.2 Chan.B).2 else r.2

/-- The function `reti_event`. -/
def reti_event (s : Machine) : Machine :=
  let s1 :=
    if has_im2 ≠ 0 then
      if s.live_irq = IRQ_SIOA then sio2_reti s Chan.A
      else if s.live_irq = IRQ_SIOB then sio2_reti s Chan.B
      else s
    else sio2_reti (sio2_reti s Chan.A) Chan.B
  poll_irq_event { s1 with live_irq := 0 }

/-- The function `mem_read`, given the CPU's `M1` flag during the call: the byte
returned and the state left.  `none`: the access is outside the array it indexes. -/
def mem_read (s : Machine) (m1 : Bool) (addr0 : Nat) : Option (Nat × Machine) :=
  let addr := addr0 % 65536
  match (if addr < 8192 then CArray.load EEPROM_SIZE s.eeprom addr
         else CArray.load RAM_SIZE s.ram addr) with
  | none => none
  | some r =>
    if m1 = true ∧ (r = 0xDD ∨ r = 0xFD ∨ r = 0xCB) then some (r, { s with rstate := 2 })
    else if m1 = true ∧ (r = 0xED ∧ s.rstate = 0) then some (r, { s with rstate := 1 })
    else
      let s1 := if r = 0x4D ∧ s.rstate = 1 then reti_event s else s
      some (r, { s1 with rstate := 0 })

/-- The function `mem_write`.  `none`: the access is outside the array it indexes. -/
def mem_write (s : Machine) (addr0 val0 : Nat) : Option Machine :=
  let addr := addr0 % 65536
  let val := val0 % 256
  if addr < 8192 then some s
  else
    match CArray.store RAM_SIZE s.ram addr val with
    | none => none
    | some m => some { s with ram := m }

/-- The end of one pass of the main loop, after the batch of CPU slices and timer
ticks: the recalculation guarded by `int_recalc`, given the CPU's `IFF1` and `IFF2`. -/
def main_poll (s : Machine) (iff1 iff2 : Nat) : Machine :=
  if s.int_recalc ≠ 0 then
    let s1 := if s.live_irq = 0 ∨ has_im2 = 0 then poll_irq_event s else s
    if (iff1 ||| iff2) = 0 then { s1 with int_recalc := 0 } else s1
  else s

/-- The transmit half of `sio2_channel_timer`, the block its two branches share: when
RR0 bit 2 is clear, set it and raise the TX interrupt if WR1 bit 1 asks for it.  Used
to state lemmas about the timer. -/
def tx_refill (s : Machine) (c : Chan) : Machine :=
  if (s.chan c).rr 0 &&& 0x04 = 0 then
    let s2 := s.modChan c (fun ch => { ch with rr := upd ch.rr 0 (ch.rr 0 ||| 0x04) })
    if (s2.chan c).wr 1 &&& 0x02 ≠ 0 then sio2_raise_int s2 c INT_TX else s2
  else s

/-- A zeroed channel record. -/
def chan_zero : z80_sio_chan :=
  { wr := fun _ => 0, rr := fun _ => 0, data := fun _ => 0, dptr := 0, irq := 0,
    rxint := 0, txint := 0, intbits := 0, pending := 0, vector := 0 }

/-- The statics as the C runtime starts them, all zero, with the ROM image read into
`eeprom`. -/
def zeroed (rom : Nat → Nat) : Machine :=
  { eeprom := rom, ram := fun _ => 0, rstate := 0, int_recalc := 0, live_irq := 0,
    sioA := chan_zero, sioB := chan_zero, z80int := [], tty_out := [] }

/-- Power-on: `main` runs `sio_reset()` on the zeroed statics. -/
def power_on (rom : Nat → Nat) : Machine :=
  sio_reset (zeroed rom)

/-- The operations that act on the SIO pair. -/
inductive SioOp where
  | read (addr : Nat)
  | write (addr val : Nat)
  | queue (c : Chan) (byte : Nat)
  | timer (sel : Select) (rd : Option Nat)

/-- One SIO operation; `none` when the emulator exits inside it. -/
def sio_step (s : Machine) : SioOp → Option Machine
  | SioOp.read addr => some (sio2_read s addr).2
  | SioOp.write addr val => some (sio2_write s addr val)
  | SioOp.queue c byte => some (sio2_queue s c byte)
  | SioOp.timer sel rd => sio2_timer s sel rd

/-- Run a sequence of SIO operations. -/
def sio_run (s : Machine) : List SioOp → Option Machine
  | [] => some s
  | op :: ops =>
    match sio_step s op with
    | none => none
    | some s1 => sio_run s1 ops

/-- The state a run ends in (the start state when the emulator exits on the way). -/
def sio_run_state (s : Machine) (ops : List SioOp) : Machine :=
  (sio_run s ops).getD s

/-! ### Receive-overrun history along a run -/

/-- Whether an enqueue on channel `c1` in state `s` is a receive overrun: the channel
is receive-enabled and its FIFO is full. -/
def queue_overruns (s : Machine) (c1 : Chan) : Bool :=
  decide ((s.chan c1).wr 3 &&& 1 ≠ 0 ∧ (s.chan c1).dptr = 2)

/-- Whether operation `op`, run in state `s`, is a receive overrun on channel `c`.  A
timer tick enqueues on channel A when `select` reports stdin ready. -/
def is_overrun (s : Machine) (c : Chan) : SioOp → Bool
  | SioOp.queue c1 _ => decide (c1 = c) && queue_overruns s c1
  | SioOp.timer (Select.ok true) _ => decide (Chan.A = c) && queue_overruns s Chan.A
  | _ => false

/-- Whether operation `op`, run in state `s`, is WR0 command `k` on channel `c`: a
control write to that channel while its register pointer is 0, with `k` in bits 3..5. -/
def is_command (s : Machine) (c : Chan) (k : Nat) : SioOp → Bool
  | SioOp.write addr val =>
    decide (chan_of (addr % 65536) = c ∧ (addr % 65536) &&& 1 = 0 ∧
      (s.chan c).wr 0 &&& 7 = 0 ∧ (val % 256) &&& 0o70 = k <<< 3)
  | _ => false

/-- The overrun history of channel `c` after `op`: set by an overrun, cleared by a WR0
command listed in `clears`, otherwise as before. -/
def next_flag (clears : List Nat) (c : Chan) (s : Machine) (flag : Bool) (op : SioOp) : Bool :=
  if is_overrun s c op = true then true
  else if clears.any (fun k => is_command s c k op) = true then false
  else flag

/-- Whether, along a run from `s`, a receive overrun has occurred on channel `c` since
the most recent WR0 command listed in `clears`; `flag` is the history before the run. -/
def overrun_pending (clears : List Nat) (c : Chan) : Machine → Bool → List SioOp → Bool
  | _, flag, [] => flag
  | s, flag, op :: ops =>
    match sio_step s op with
    | none => flag
    | some s1 => overrun_pending clears c s1 (next_flag clears c s flag op) ops

/-- What an overrunning enqueue does to a channel record: `data[2]` becomes `b`,
`data[0]`, `data[1]` and `dptr` are unchanged, RR1 bit 5 is set and `INT_ERR` is
latched. -/
def overrun_effect (before after : z80_sio_chan) (b : Nat) : Prop :=
  after.data 2 = b ∧ after.data 0 = before.data 0 ∧ after.data 1 = before.data 1 ∧
    after.dptr = before.dptr ∧ after.rr 1 &&& 0x20 ≠ 0 ∧ after.intbits &&& INT_ERR ≠ 0

instance (before after : z80_sio_chan) (b : Nat) :
    Decidable (overrun_effect before after b) := by
  unfold overrun_effect
  infer_instance

/-- RR0 bit 0 set implies a non-empty FIFO, for one channel. -/
def rx_bit_sound (ch : z80_sio_chan) : Prop :=
  ch.rr 0 &&& 1 ≠ 0 → 0 < ch.dptr

/-! ### Scenario states -/

/-- An all-zero ROM image. -/
def rom0 : Nat → Nat := fun _ => 0

/-- Power-on, then WR3 of channel A set to 1 (receive enable). -/
def st_rx_enabled : Machine :=
  sio2_write (sio2_write (power_on rom0) 0 3) 0 1

/-- Then WR1 of channel A set to 0x10 (interrupt on every received character). -/
def st_rx_int : Machine :=
  sio2_write (sio2_write st_rx_enabled 0 1) 0 0x10

/-- Then byte 0x41 received on channel A: its IRQ flag is up and `int_recalc` is set. -/
def st_irq_pending : Machine :=
  sio2_queue st_rx_int Chan.A 0x41

/-- Then the main-loop poll with CPU interrupts enabled: the interrupt is handed to
`Z80INT` and SIO-A is recorded as live. -/
def st_live : Machine :=
  main_poll st_irq_pending 1 1

/-- Receive enabled on channel A and two bytes received: `dptr` is 2, which
`sio2_queue` treats as a full FIFO. -/
def st_fifo_full : Machine :=
  sio2_queue (sio2_queue st_rx_enabled Chan.A 0x31) Chan.A 0x32

/-- Enable receive on channel A, receive three bytes (the third overruns), then issue
WR0 command 2 (reset external/status interrupts). -/
def ops_overrun_then_cmd2 : List SioOp :=
  [SioOp.write 0 3, SioOp.write 0 1, SioOp.queue Chan.A 1, SioOp.queue Chan.A 2,
   SioOp.queue Chan.A 3, SioOp.write 0 0x10]

/-- Enable receive on channel A, select interrupt on every received character (WR1 =
0x10), then receive one byte. -/
def ops_receive_with_int : List SioOp :=
  [SioOp.write 0 3, SioOp.write 0 1, SioOp.write 0 1, SioOp.write 0 0x10,
   SioOp.queue Chan.A 0x41]

/-- Enable receive on channel A, receive one byte, then issue WR0 command 3 (channel
reset). -/
def ops_receive_then_reset : List SioOp :=
  [SioOp.write 0 3, SioOp.write 0 1, SioOp.queue Chan.A 0x41, SioOp.write 0 0x18]

/-- The vector rule in the words of the text, with the mask applied to the programmed
byte `V` left open as `keep`: `0xF8` clears the low three bits, `0xF1` clears bits 1 to
3.  `wr1` is the WR1 byte tested for bit 2, `c` the interrupting channel and `intbits`
its latched interrupt bits. -/
def vector_as_worded (keep V wr1 : Nat) (c : Chan) (intbits : Nat) : Nat :=
  if wr1 &&& 0x04 = 0 then V
  else
    ((V &&& keep) ||| (if c = Chan.A then 8 else 0)) |||
      (if intbits &&& INT_RX ≠ 0 then 4 else if intbits &&& INT_ERR ≠ 0 then 2 else 0)

/-- Program WR2 of channel B with vector `0xFF` and WR1 of channel B with `0x04`
(status affects vector); on channel A enable receive and set WR1 to `0x14` (interrupt
on every received character, bit 2 set as well); then receive one byte on channel A. -/
def ops_vector_ff : List SioOp :=
  [SioOp.write 2 2, SioOp.write 2 0xFF, SioOp.write 2 1, SioOp.write 2 0x04,
   SioOp.write 0 3, SioOp.write 0 1, SioOp.write 0 1, SioOp.write 0 0x14,
   SioOp.queue Chan.A 0x41]

/-- The state that run leaves: channel A's IRQ flag is up with the RX bit latched. -/
def st_vector_ff : Machine :=
  sio_run_state (power_on rom0) ops_vector_ff

end KZ80

/-! ## `rc2014-6502.c`: the receive path of the SIO/2 -/

namespace RC2014

/-- The SIO pair of `rc2014-6502.c`, `static struct z80_sio_chan sio[2]`; the record is
declared there exactly as in `kz80.c`. -/
structure SioPair where
  sioA : KZ80.z80_sio_chan
  sioB : KZ80.z80_sio_chan

/-- The channel record behind a channel pointer. -/
def SioPair.chan (s : SioPair) : KZ80.Chan → KZ80.z80_sio_chan
  | KZ80.Chan.A => s.sioA
  | KZ80.Chan.B => s.sioB

/-- Assignments through a channel pointer: `chan->field = ...`. -/
def SioPair.modChan (s : SioPair) (c : KZ80.Chan)
    (f : KZ80.z80_sio_chan → KZ80.z80_sio_chan) : SioPair :=
  match c with
  | KZ80.Chan.A => { s with sioA := f s.sioA }
  | KZ80.Chan.B => { s with sioB := f s.sioB }

/-- The function `sio2_raise_int` of `rc2014-6502.c`, which also prepares the status
part of the vector (`vector = 0` before the status bits are merged in). -/
def sio2_raise_int (s : SioPair) (c : KZ80.Chan) (m0 : Nat) : SioPair :=
  let m := m0 % 256
  let new := ((s.chan c).intbits ^^^ m) &&& m
  let s1 := s.modChan c (fun ch => { ch with intbits := ch.intbits ||| m })
  if new ≠ 0 then
    if s1.sioA.irq = 0 then
      let s2 := (s1.modChan c (fun ch => { ch with irq := 1 })).modChan KZ80.Chan.A
        (fun ch => { ch with rr := KZ80.upd ch.rr 1 (ch.rr 1 ||| 0x02) })
      let vector :=
        if s2.sioB.wr 1 &&& 0x04 ≠ 0 then
          let v1 := 0 &&& 0xF1
          let v2 := if c = KZ80.Chan.A then v1 ||| (1 <<< 3) else v1
          if (s2.chan c).intbits &&& KZ80.INT_RX ≠ 0 then v2 ||| 4
          else if (s2.chan c).intbits &&& KZ80.INT_ERR ≠ 0 then v2 ||| 2
          else v2
        else 0
      s2.modChan c (fun ch => { ch with vector := vector })
    else s1
  else s1

/-- The function `sio2_queue` of `rc2014-6502.c`. -/
def sio2_queue (s : SioPair) (c : KZ80.Chan) (c0 : Nat) : SioPair :=
  let byte := c0 % 256
  if (s.chan c).wr 3 &&& 1 = 0 then s
  else if (s.chan c).dptr = 2 then
    sio2_raise_int
      (s.modChan c (fun ch => { ch with
        data := KZ80.upd ch.data 2 byte,
        rr := KZ80.upd ch.rr 1 (ch.rr 1 ||| 0x20) }))
      c KZ80.INT_ERR
  else
    let s1 := s.modChan c (fun ch => { ch with
      data := KZ80.upd ch.data ch.dptr byte,
      dptr := (ch.dptr + 1) % 256,
      rr := KZ80.upd ch.rr 0 (ch.rr 0 ||| 1) })
    let mode := (s1.chan c).wr 1 &&& 0x18
    if mode = 0x00 then s1
    else if mode = 0x08 then
      if (s1.chan c).dptr = 1 then sio2_raise_int s1 c KZ80.INT_RX else s1
    else if mode = 0x10 ∨ mode = 0x18 then sio2_raise_int s1 c KZ80.INT_RX
    else s1

/-- The SIO pair of a machine of `kz80.c`, used to build example states. -/
def pair_of (s : KZ80.Machine) : SioPair :=
  { sioA := s.sioA, sioB := s.sioB }

end RC2014

/-! ## `rc2014-6502.c`: the 16550A UART -/

namespace RC2014

/-- Interrupt source number of the CTC in `live_irq`. -/
def IRQ_CTC : Nat := 3
/-- Interrupt source number of the 16550A in `live_irq`. -/
def IRQ_16550A : Nat := 5

/-- The function `int_set`, as a function of the mask `live_irq`. -/
def int_set (live_irq src : Nat) : Nat :=
  live_irq ||| (1 <<< src)

/-- The function `int_clear`, as a function of the mask `live_irq` (a `uint8_t`). -/
def int_clear (live_irq src : Nat) : Nat :=
  live_irq &&& (0xFF ^^^ (1 <<< src))

/-- Pending-cause bit: received data available. -/
def RXDA : Nat := 1
/-- Pending-cause bit: transmitter empty. -/
def TEMT : Nat := 2
/-- Pending-cause bit: modem status. -/
def MODEM : Nat := 8

/-- The record `struct uart16x50`; every field is a `uint8_t`. -/
structure uart16x50 where
  ier : Nat
  iir : Nat
  fcr : Nat
  lcr : Nat
  mcr : Nat
  lsr : Nat
  msr : Nat
  scratch : Nat
  ls : Nat
  ms : Nat
  dlab : Nat
  irq : Nat
  irqline : Nat

/-- What the UART functions read and write: the static `uart` (the only instance, so
`uptr == &uart` always holds), the interrupt mask `live_irq`, and the bytes handed to
`putchar`, oldest first. -/
structure UartSys where
  uart : uart16x50
  live_irq : Nat
  tty_out : List Nat

/-- Assignments through the pointer: `uptr->field = ...`. -/
def UartSys.mod (s : UartSys) (f : uart16x50 → uart16x50) : UartSys :=
  { s with uart := f s.uart }

/-- The function `uart_init`. -/
def uart_init (s : UartSys) : UartSys :=
  s.mod (fun u => { u with dlab := 0 })

/-- The end of `uart_recalc_iir`, reached when one of the three causes is pending and
`iir` has been set: raise the line unless `irqline` says it is up already. -/
def uart_raise_line (s : UartSys) : UartSys :=
  if s.uart.irqline ≠ 0 then s
  else
    { (s.mod (fun u => { u with irqline := u.irq })) with
      live_irq := int_set s.live_irq IRQ_16550A }

/-- The function `uart_recalc_iir`. -/
def uart_recalc_iir (s : UartSys) : UartSys :=
  if s.uart.irq &&& RXDA ≠ 0 then uart_raise_line (s.mod (fun u => { u with iir := 0x04 }))
  else if s.uart.irq &&& TEMT ≠ 0 then uart_raise_line (s.mod (fun u => { u with iir := 0x02 }))
  else if s.uart.irq &&& MODEM ≠ 0 then uart_raise_line (s.mod (fun u => { u with iir := 0x00 }))
  else
    { (s.mod (fun u => { u with iir := 0x01, irqline := 0 })) with
      live_irq := int_clear s.live_irq IRQ_16550A }

/-- The function `uart_interrupt`; `n` is a `uint8_t`. -/
def uart_interrupt (s : UartSys) (n0 : Nat) : UartSys :=
  let n := n0 % 256
  if s.uart.irq &&& n ≠ 0 then s
  else if s.uart.ier &&& n = 0 then s
  else uart_recalc_iir (s.mod (fun u => { u with irq := u.irq ||| n }))

/-- The function `uart_clear_interrupt`; `n` is a `uint8_t`. -/
def uart_clear_interrupt (s : UartSys) (n0 : Nat) : UartSys :=
  let n := n0 % 256
  if s.uart.irq &&& n = 0 then s
  else uart_recalc_iir (s.mod (fun u => { u with irq := u.irq &&& (0xFF ^^^ n) }))

/-- The function `uart_event`, given what `select` reports; `none` is the `exit(1)`
inside `check_chario`, which is written in this file exactly as in `kz80.c`. -/
def uart_event (s : UartSys) (sel : KZ80.Select) : Option UartSys :=
  match KZ80.check_chario sel with
  | none => none
  | some r0 =>
    let r := r0 % 256
    let old := s.uart.lsr
    let s1 := if r &&& 1 ≠ 0 then s.mod (fun u => { u with lsr := u.lsr ||| 0x01 }) else s
    let s2 := if r &&& 2 ≠ 0 then s1.mod (fun u => { u with lsr := u.lsr ||| 0x60 }) else s1
    let dhigh := (old ^^^ s2.uart.lsr) &&& s2.uart.lsr
    let s3 := if dhigh &&& 1 ≠ 0 then uart_interrupt s2 RXDA else s2
    some (if dhigh &&& 0x2 ≠ 0 then uart_interrupt s3 TEMT else s3)

/-- The function `uart_write`; `show_settings` only prints a trace line. -/
def uart_write (s : UartSys) (addr0 val0 : Nat) : UartSys :=
  let addr := addr0 % 256
  let val := val0 % 256
  if addr = 0 then
    if s.uart.dlab = 0 then
      uart_interrupt (uart_clear_interrupt { s with tty_out := s.tty_out ++ [val] } TEMT) TEMT
    else s.mod (fun u => { u with ls := val })
  else if addr = 1 then
    if s.uart.dlab ≠ 0 then s.mod (fun u => { u with ms := val })
    else s.mod (fun u => { u with ier := val })
  else if addr = 2 then s.mod (fun u => { u with fcr := val &&& 0x9F })
  else if addr = 3 then s.mod (fun u => { u with lcr := val, dlab := val &&& 0x80 })
  else if addr = 4 then s.mod (fun u => { u with mcr := val &&& 0x3F })
  else if addr = 7 then s.mod (fun u => { u with scratch := val })
  else s

/-- The function `uart_read`: the byte returned and the state left.  The two host
inputs are what `select` reports (used at offset 5) and what `read(0, &c, 1)` delivers
(used at offset 0); `none` is the `exit(1)` inside `check_chario`. -/
def uart_read (s : UartSys) (addr0 : Nat) (sel : KZ80.Select) (rd : Option Nat) :
    Option (Nat × UartSys) :=
  let addr := addr0 % 256
  if addr = 0 then
    if s.uart.dlab = 0 then some (KZ80.next_char rd, uart_clear_interrupt s RXDA)
    else some (0xFF, s)
  else if addr = 1 then some (s.uart.ier, s)
  else if addr = 2 then some (s.uart.iir, s)
  else if addr = 3 then some (s.uart.lcr, s)
  else if addr = 4 then some (s.uart.mcr, s)
  else if addr = 5 then
    match KZ80.check_chario sel with
    | none => none
    | some r0 =>
      let r := r0 % 256
      let l1 := if r &&& 1 ≠ 0 then 0 ||| 0x01 else 0
      let l2 := if r &&& 2 ≠ 0 then l1 ||| 0x60 else l1
      some (l2, s.mod (fun u => { u with lsr := l2 &&& 0xF0 }))
  else if addr = 6 then
    some (s.uart.msr,
      uart_clear_interrupt (s.mod (fun u => { u with msr := u.msr &&& 0xF0 })) MODEM)
  else if addr = 7 then some (s.uart.scratch, s)
  else some (0xFF, s)

/-- A zeroed `struct uart16x50`. -/
def uart_zero : uart16x50 :=
  { ier := 0, iir := 0, fcr := 0, lcr := 0, mcr := 0, lsr := 0, msr := 0, scratch := 0,
    ls := 0, ms := 0, dlab := 0, irq := 0, irqline := 0 }

/-- Power-on of the UART: `main` runs `uart_init(&uart)` on the zeroed statics. -/
def uart_power_on : UartSys :=
  uart_init { uart := uart_zero, live_irq := 0, tty_out := [] }

/-- The operations that act on the UART: a guest write, a guest read, and the event
tick of the main loop. -/
inductive UartOp where
  | write (addr val : Nat)
  | read (addr : Nat) (sel : KZ80.Select) (rd : Option Nat)
  | event (sel : KZ80.Select)

/-- One UART operation; `none` when the emulator exits inside it. -/
def uart_step (s : UartSys) : UartOp → Option UartSys
  | UartOp.write addr val => some (uart_write s addr val)
  | UartOp.read addr sel rd => (uart_read s addr sel rd).map Prod.snd
  | UartOp.event sel => uart_event s sel

/-- Run a sequence of UART operations. -/
def uart_run (s : UartSys) : List UartOp → Option UartSys
  | [] => some s
  | op :: ops =>
    match uart_step s op with
    | none => none
    | some s1 => uart_run s1 ops

/-- The state a run ends in (the start state when the emulator exits on the way). -/
def uart_run_state (s : UartSys) (ops : List UartOp) : UartSys :=
  (uart_run s ops).getD s

/-- What every run from power-on keeps true of the UART: only RXDA and TEMT are ever
pending, a nonempty pending set is mirrored by `iir`, the 16550A bit of `live_irq` is
up exactly when a cause is pending, and `irqline` is only set while that bit is up. -/
def uart_inv (s : UartSys) : Prop :=
  s.uart.irq < 4 ∧
  (s.uart.irq ≠ 0 →
    s.uart.iir = if s.uart.irq &&& RXDA ≠ 0 then 0x04
      else if s.uart.irq &&& TEMT ≠ 0 then 0x02 else 0x00) ∧
  (s.uart.irq ≠ 0 ↔ s.live_irq &&& (1 <<< IRQ_16550A) ≠ 0) ∧
  (s.uart.irqline ≠ 0 → s.live_irq &&& (1 <<< IRQ_16550A) ≠ 0)

/-- Enable both UART interrupt causes (IER = 3), then one event tick with a byte waiting
on standard input. -/
def ops_uart_rx : List UartOp :=
  [UartOp.write 1 3, UartOp.event (KZ80.Select.ok true)]

/-- The state that run leaves: RXDA is pending and `iir` is 0x04. -/
def st_uart_rx : UartSys :=
  uart_run_state uart_power_on ops_uart_rx

end RC2014

/-! ## `rc2014-6502.c`: the Z80 CTC -/

namespace RC2014

/-- Control bit: the channel may interrupt. -/
def CTC_IRQ : Nat := 0x80
/-- Control bit: counter mode (pulses) rather than timer mode (clocks). -/
def CTC_COUNTER : Nat := 0x40
/-- Control bit: rising edge. -/
def CTC_RISING : Nat := 0x10
/-- Control bit: pulse trigger. -/
def CTC_PULSE : Nat := 0x08
/-- Control bit: the next write is the time constant. -/
def CTC_TCONST : Nat := 0x04
/-- Control bit: reset. -/
def CTC_RESET : Nat := 0x02
/-- Control bit: the byte is a control word. -/
def CTC_CONTROL : Nat := 0x01

/-- The record `struct z80_ctc`; `count` and `reload` are `uint16_t`, the rest `uint8_t`. -/
structure z80_ctc where
  count : Nat
  reload : Nat
  vector : Nat
  ctrl : Nat
  irq : Nat

/-- The test `CTC_STOPPED(c)`. -/
def CTC_STOPPED (c : z80_ctc) : Prop :=
  c.ctrl &&& (CTC_TCONST ||| CTC_RESET) = (CTC_TCONST ||| CTC_RESET)

instance (c : z80_ctc) : Decidable (CTC_STOPPED c) := by
  unfold CTC_STOPPED
  infer_instance

/-- What the CTC functions read and write: the array `ctc[4]` (indexed by `addr & 3`, a
loop index below 4, or the literal 3), `ctc_irqmask` and the interrupt mask `live_irq`.
Two logs are kept beside them for counting: `irq_log` takes the channel each time
`ctc_interrupt` is entered with `CTC_IRQ` set in the channel's control byte, and
`pulse_log` takes the channel of each call of `ctc_pulse`, oldest first. -/
structure CtcSys where
  ctc : Nat → z80_ctc
  ctc_irqmask : Nat
  live_irq : Nat
  irq_log : List Nat
  pulse_log : List Nat

/-- Assignments through the channel pointer: `c->field = ...` with `c = ctc + i`. -/
def CtcSys.mod (s : CtcSys) (i : Nat) (f : z80_ctc → z80_ctc) : CtcSys :=
  { s with ctc := fun j => if j = i then f (s.ctc j) else s.ctc j }

/-- The function `ctc_reset` on channel `i`. -/
def ctc_reset (s : CtcSys) (i : Nat) : CtcSys :=
  s.mod i (fun c => { c with vector := 0, ctrl := CTC_RESET })

/-- The function `ctc_init`. -/
def ctc_init (s : CtcSys) : CtcSys :=
  let s4 := ctc_reset (ctc_reset (ctc_reset (ctc_reset s 0) 1) 2) 3
  { s4 with live_irq := int_clear s4.live_irq IRQ_CTC }

/-- The function `ctc_interrupt` on channel `i`. -/
def ctc_interrupt (s : CtcSys) (i : Nat) : CtcSys :=
  if (s.ctc i).ctrl &&& CTC_IRQ ≠ 0 then
    let s1 := { s with irq_log := s.irq_log ++ [i] }
    if s1.ctc_irqmask &&& (1 <<< i) = 0 then
      { s1 with ctc_irqmask := s1.ctc_irqmask ||| (1 <<< i) }
    else s1
  else s

/-- The body of `ctc_receive_pulse(i)`, with what its call `ctc_pulse(i)` does passed
in as `pulse`. -/
def ctc_receive_pulse_body (pulse : CtcSys → Nat → CtcSys) (s : CtcSys) (i : Nat) :
    CtcSys :=
  if (s.ctc i).ctrl &&& CTC_COUNTER ≠ 0 then
    if CTC_STOPPED (s.ctc i) then s
    else
      let s1 :=
        if (s.ctc i).count ≥ 0x0100 then s.mod i (fun c => { c with count := c.count - 0x100 })
        else s
      if (s1.ctc i).count &&& 0xFF00 = 0 then
        (pulse (ctc_interrupt s1 i) i).mod i
          (fun c => { c with count := (c.reload <<< 8) % 65536 })
      else s1
  else if (s.ctc i).ctrl &&& CTC_PULSE ≠ 0 then
    s.mod i (fun c => { c with ctrl := c.ctrl &&& (0xFF ^^^ CTC_PULSE) })
  else s

/-- The function `ctc_pulse(i)` for a channel other than 2: nothing is chained to it,
the call is only logged. -/
def ctc_pulse_unchained (s : CtcSys) (i : Nat) : CtcSys :=
  { s with pulse_log := s.pulse_log ++ [i] }

/-- The function `ctc_pulse`: channel 2 is chained into channel 3.  The two functions
call each other in C; the call `ctc_receive_pulse(3)` made here meets `ctc_pulse(3)`,
which chains nowhere, so the recursion is two calls deep and is written out. -/
def ctc_pulse (s : CtcSys) (i : Nat) : CtcSys :=
  if i = 2 then ctc_receive_pulse_body ctc_pulse_unchained (ctc_pulse_unchained s i) 3
  else ctc_pulse_unchained s i

/-- The function `ctc_receive_pulse`. -/
def ctc_receive_pulse (s : CtcSys) (i : Nat) : CtcSys :=
  ctc_receive_pulse_body ctc_pulse s i

/-- The value `(c->reload - 1) << 8` stored into the `uint16_t` field `count` (for
`reload` 0 the shifted -1 is taken in two's complement). -/
def ctc_count_of_reload (reload : Nat) : Nat :=
  ((reload + 65535) * 256) % 65536

/-- The function `ctc_write`.  The statement `c->ctrl &= ~CTC_TCONST|CTC_RESET` parses
as `c->ctrl &= (~CTC_TCONST) | CTC_RESET`. -/
def ctc_write (s : CtcSys) (channel0 val0 : Nat) : CtcSys :=
  let channel := channel0 % 256
  let val := val0 % 256
  if (s.ctc channel).ctrl &&& CTC_TCONST ≠ 0 then
    let s1 := s.mod channel (fun c => { c with reload := val })
    let s2 :=
      if CTC_STOPPED (s1.ctc channel) then
        s1.mod channel (fun c => { c with count := ctc_count_of_reload c.reload })
      else s1
    s2.mod channel (fun c => { c with ctrl := c.ctrl &&& ((0xFF ^^^ CTC_TCONST) ||| CTC_RESET) })
  else if val &&& CTC_CONTROL ≠ 0 then
    let s1 := s.mod channel (fun c => { c with ctrl := val })
    let s2 :=
      if (s1.ctc channel).ctrl &&& (CTC_TCONST ||| CTC_RESET) = CTC_RESET then
        s1.mod channel (fun c => { c with count := ctc_count_of_reload c.reload })
      else s1
    if (s2.ctc channel).ctrl &&& CTC_IRQ = 0 ∧ s2.ctc_irqmask &&& (1 <<< channel) ≠ 0 then
      let s3 := { s2 with ctc_irqmask := s2.ctc_irqmask &&& (0xFF ^^^ (1 <<< channel)) }
      if s3.ctc_irqmask = 0 then { s3 with live_irq := int_clear s3.live_irq IRQ_CTC } else s3
    else s2
  else s.mod channel (fun c => { c with vector := val })

/-- A zeroed `struct z80_ctc`. -/
def ctc_zero : z80_ctc :=
  { count := 0, reload := 0, vector := 0, ctrl := 0, irq := 0 }

/-- Power-on of the CTC: `main` runs `ctc_init()` on the zeroed statics. -/
def ctc_power_on : CtcSys :=
  ctc_init { ctc := fun _ => ctc_zero, ctc_irqmask := 0, live_irq := 0, irq_log := [],
             pulse_log := [] }

/-- Programming a channel: a control word, then the time constant it announces. -/
def ctc_program (s : CtcSys) (i cw tc : Nat) : CtcSys :=
  ctc_write (ctc_write s i cw) i tc

/-- The state after `n` successive calls `ctc_receive_pulse(i)`. -/
def ctc_pulses (s : CtcSys) (i : Nat) : Nat → CtcSys
  | 0 => s
  | n + 1 => ctc_receive_pulse (ctc_pulses s i n) i

end RC2014

/-! ## `rc2014-6502.c`: the CTC interrupt poll and timer tick -/

namespace RC2014

/-- The function `ctc_check_im2`: the value returned, the value of its local `vector`
when it returns 1 (the local only reaches the trace line), and the state left. -/
def ctc_check_im2 (s : CtcSys) : Nat × Option Nat × CtcSys :=
  if s.ctc_irqmask ≠ 0 then
    match (List.range 4).find? (fun i => s.ctc_irqmask &&& (1 <<< i) ≠ 0) with
    | some i =>
      (1, some ((((s.ctc 0).vector &&& 0xF8) + 2 * i) % 256),
        { s with live_irq := int_set s.live_irq IRQ_CTC })
    | none => (0, none, s)
  else (0, none, s)

/-- Power-on, then channel 0 given control word `0x07` (reset, time constant follows). -/
def st_ctc_reset_tconst : CtcSys :=
  ctc_write ctc_power_on 0 0x07

/-- Power-on, then channels 1 and 3 fired once in counter mode with interrupts enabled
and time constant 1, and vector byte `0x56` written to channel 0 and `0xA8` to channel
3. -/
def st_ctc_pending : CtcSys :=
  ctc_write
    (ctc_write
      (ctc_receive_pulse (ctc_receive_pulse (ctc_program (ctc_program ctc_power_on 1 0xC5 1)
        3 0xC5 1) 3) 1) 0 0x56)
    3 0xA8

end RC2014

/-! ## `rc2014-6502.c`: the 6522 VIA -/

namespace RC2014

/-- Interrupt source number of the VIA in `live_irq`. -/
def IRQ_VIA : Nat := 6

/-- The record `struct via6522`; `t1`, `t1l` and `t2` are `uint16_t`, the other fields
`uint8_t`. -/
structure via6522 where
  irq : Nat
  acr : Nat
  ifr : Nat
  ier : Nat
  pcr : Nat
  sr : Nat
  ora : Nat
  orb : Nat
  ira : Nat
  irb : Nat
  ddra : Nat
  ddrb : Nat
  t1 : Nat
  t1l : Nat
  t2 : Nat
  t2l : Nat
  ca : Nat
  cb : Nat

/-- What the VIA functions read and write: the static `via` and the interrupt mask
`live_irq`. -/
structure ViaSys where
  via : via6522
  live_irq : Nat

/-- Assignments to the static: `via.field = ...`. -/
def ViaSys.mod (s : ViaSys) (f : via6522 → via6522) : ViaSys :=
  { s with via := f s.via }

/-- The function `via_recalc_irq`. -/
def via_recalc_irq (s : ViaSys) : ViaSys :=
  let irq := (s.via.ier &&& s.via.ifr) &&& 0x7F
  let s1 :=
    if irq ≠ 0 then s.mod (fun v => { v with ifr := v.ifr ||| 0x80 })
    else s.mod (fun v => { v with ifr := v.ifr &&& 0x7F })
  let s2 := s1.mod (fun v => { v with irq := irq })
  if s2.via.irq ≠ 0 then { s2 with live_irq := int_set s2.live_irq IRQ_VIA }
  else { s2 with live_irq := int_clear s2.live_irq IRQ_VIA }

/-- The function `via_recalc_all`; `via_recalc_outputs` and `via_recalc_inputs` are
empty. -/
def via_recalc_all (s : ViaSys) : ViaSys :=
  via_recalc_irq s

/-- The timer 1 half of `via_tick`; `clocks` is an `int`. -/
def via_tick_t1 (s : ViaSys) (clocks : Int) : ViaSys :=
  if s.via.t1 ≠ 0 then
    if clocks ≥ (s.via.t1 : Int) then
      let s1 := via_recalc_irq (s.mod (fun v => { v with ifr := v.ifr ||| 0x40 }))
      if s1.via.acr &&& 0x40 ≠ 0 then s1.mod (fun v => { v with t1 := (v.t1l + 1) % 65536 })
      else s1.mod (fun v => { v with t1 := 0 })
    else s.mod (fun v => { v with t1 := (((v.t1 : Int) - clocks) % 65536).toNat })
  else s

/-- The timer 2 half of `via_tick`; the subtraction at its end is not in an `else`. -/
def via_tick_t2 (s : ViaSys) (clocks : Int) : ViaSys :=
  if s.via.t2 ≠ 0 ∧ s.via.acr &&& 0x20 = 0 then
    let s1 :=
      if clocks ≥ (s.via.t2 : Int) then
        (via_recalc_irq (s.mod (fun v => { v with ifr := v.ifr ||| 0x20 }))).mod
          (fun v => { v with t2 := 0 })
      else s
    s1.mod (fun v => { v with t2 := (((v.t2 : Int) - clocks) % 65536).toNat })
  else s

/-- The function `via_tick`. -/
def via_tick (s : ViaSys) (clocks : Int) : ViaSys :=
  via_tick_t2 (via_tick_t1 s clocks) clocks

/-- The function `via_read`: the byte returned and the state left; the handshake
functions are empty. -/
def via_read (s : ViaSys) (addr0 : Nat) : Nat × ViaSys :=
  let addr := addr0 % 256
  if addr = 0 then
    (((s.via.irb &&& (0xFF ^^^ s.via.ddrb)) ||| (s.via.orb &&& s.via.ddrb)), s)
  else if addr = 1 then
    (((s.via.ira &&& (0xFF ^^^ s.via.ddra)) ||| (s.via.ora &&& s.via.ddra)), s)
  else if addr = 2 then (s.via.ddrb, s)
  else if addr = 3 then (s.via.ddra, s)
  else if addr = 4 then
    let s1 := via_recalc_irq (s.mod (fun v => { v with ifr := v.ifr &&& (0xFF ^^^ 0x40) }))
    (s1.via.t1 % 256, s1)
  else if addr = 5 then ((s.via.t1 >>> 8) % 256, s)
  else if addr = 6 then (s.via.t1l % 256, s)
  else if addr = 7 then ((s.via.t1l >>> 8) % 256, s)
  else if addr = 8 then
    let s1 := via_recalc_irq (s.mod (fun v => { v with ifr := v.ifr &&& (0xFF ^^^ 0x20) }))
    (s1.via.t2 % 256, s1)
  else if addr = 9 then ((s.via.t2 >>> 8) % 256, s)
  else if addr = 10 then (s.via.sr, s)
  else if addr = 11 then (s.via.acr, s)
  else if addr = 12 then (s.via.pcr, s)
  else if addr = 13 then (s.via.ifr, s)
  else if addr = 14 then (s.via.ier, s)
  else (s.via.ira, s)

/-- The function `via_write`. -/
def via_write (s : ViaSys) (addr0 val0 : Nat) : ViaSys :=
  let addr := addr0 % 256
  let val := val0 % 256
  if addr = 0 then s.mod (fun v => { v with orb := val })
  else if addr = 1 then s.mod (fun v => { v with ora := val })
  else if addr = 2 then via_recalc_all (s.mod (fun v => { v with ddrb := val }))
  else if addr = 3 then via_recalc_all (s.mod (fun v => { v with ddra := val }))
  else if addr = 4 ∨ addr = 6 then
    s.mod (fun v => { v with t1l := (v.t1l &&& 0xFF00) ||| val })
  else if addr = 5 then
    via_recalc_irq (s.mod (fun v => { v with
      t1l := (v.t1l &&& 0xFF) ||| (val <<< 8),
      t1 := (v.t1l &&& 0xFF) ||| (val <<< 8),
      ifr := v.ifr &&& (0xFF ^^^ 0x40) }))
  else if addr = 7 then
    s.mod (fun v => { v with t1l := (v.t1l &&& 0xFF) ||| (val <<< 8) })
  else if addr = 8 then s.mod (fun v => { v with t2l := val })
  else if addr = 9 then
    via_recalc_irq (s.mod (fun v => { v with
      t2 := (val <<< 8) ||| v.t2l,
      ifr := v.ifr &&& (0xFF ^^^ 0x20) }))
  else if addr = 10 then s.mod (fun v => { v with sr := val })
  else if addr = 11 then s.mod (fun v => { v with acr := val })
  else if addr = 12 then s.mod (fun v => { v with pcr := val })
  else if addr = 13 then
    let s1 := s.mod (fun v => { v with ifr := v.ifr &&& (0xFF ^^^ val) })
    let s2 :=
      if s1.via.ifr &&& 0x7F ≠ 0 then s1.mod (fun v => { v with ifr := v.ifr ||| 0x80 })
      else s1
    via_recalc_irq s2
  else if addr = 14 then
    let s1 :=
      if val &&& 0x80 ≠ 0 then s.mod (fun v => { v with ier := v.ier ||| val })
      else s.mod (fun v => { v with ier := v.ier &&& (0xFF ^^^ val) })
    via_recalc_irq (s1.mod (fun v => { v with ier := v.ier &&& 0x7F }))
  else if addr = 15 then s.mod (fun v => { v with ora := val })
  else s

/-- A zeroed `struct via6522`. -/
def via_zero : via6522 :=
  { irq := 0, acr := 0, ifr := 0, ier := 0, pcr := 0, sr := 0, ora := 0, orb := 0, ira := 0,
    irb := 0, ddra := 0, ddrb := 0, t1 := 0, t1l := 0, t2 := 0, t2l := 0, ca := 0, cb := 0 }

/-- Power-on of the VIA: the zeroed statics (nothing initialises the VIA). -/
def via_power_on : ViaSys :=
  { via := via_zero, live_irq := 0 }

/-- The operations that act on the VIA: a guest read, a guest write, and the tick of
the main loop. -/
inductive ViaOp where
  | read (addr : Nat)
  | write (addr val : Nat)
  | tick (clocks : Int)

/-- One VIA operation. -/
def via_step (s : ViaSys) : ViaOp → ViaSys
  | ViaOp.read addr => (via_read s addr).2
  | ViaOp.write addr val => via_write s addr val
  | ViaOp.tick clocks => via_tick s clocks

/-- Run a sequence of VIA operations. -/
def via_run (s : ViaSys) : List ViaOp → ViaSys
  | [] => s
  | op :: ops => via_run (via_step s op) ops

/-- What every run keeps true of the VIA: IFR bit 7 and the VIA bit of `live_irq` are up
exactly when an enabled interrupt is flagged. -/
def via_inv (s : ViaSys) : Prop :=
  (s.via.ifr &&& 0x80 ≠ 0 ↔ (s.via.ifr &&& s.via.ier) &&& 0x7F ≠ 0) ∧
  (s.live_irq &&& (1 <<< IRQ_VIA) ≠ 0 ↔ (s.via.ifr &&& s.via.ier) &&& 0x7F ≠ 0)

/-- Enable the timer 1 interrupt (IER = `0xC0`), start timer 1 at 16 (registers 4 and
5), then a tick of 200 clocks. -/
def ops_via_t1 : List ViaOp :=
  [ViaOp.write 14 0xC0, ViaOp.write 4 0x10, ViaOp.write 5 0x00, ViaOp.tick 200]

/-- The state that run leaves: the timer 1 flag is up with IFR bit 7. -/
def st_via_t1 : ViaSys :=
  via_run via_power_on ops_via_t1

end RC2014

/-! ## `rc2014-6502.c`: the real time clock -/

namespace RC2014

/-- The fields of `struct tm` that `rtcregread` looks at.  `localtime` of the current
time delivers them non-negative (`tm_year` counts from 1900). -/
structure Tm where
  tm_sec : Nat
  tm_min : Nat
  tm_hour : Nat
  tm_mday : Nat
  tm_mon : Nat
  tm_wday : Nat
  tm_year : Nat

/-- The statics of the clock.  `rtcr` is a `uint16_t`, `rtcram` the array `rtcram[32]`
(every index the code uses is masked with `0x1F`), `rtc_tm` the pointer to the latched
time, null (`none`) until CE has been raised once; the other statics are `uint8_t`. -/
structure Rtc where
  rtcw : Nat
  rtcst : Nat
  rtcr : Nat
  rtccnt : Nat
  rtcstate : Nat
  rtcreg : Nat
  rtcram : Nat → Nat
  rtcwp : Nat
  rtc24 : Nat
  rtcbp : Nat
  rtcbc : Nat
  rtc_tm : Option Tm

/-- The function `rtc_read`. -/
def rtc_read (s : Rtc) : Nat :=
  if s.rtcst &&& 0x30 ≠ 0 then (if s.rtcr &&& 0x01 ≠ 0 then 1 else 0) else 0xFF

/-- The two-digit BCD byte `(v % 10) + ((v / 10) << 4)`, stored in a `uint8_t`. -/
def bcd (v : Nat) : Nat :=
  ((v % 10) + ((v / 10) <<< 4)) % 256

/-- The function `rtcregread`, for the latched time `tm`; `reg` is a `uint8_t`. -/
def rtcregread_tm (s : Rtc) (tm : Tm) (reg0 : Nat) : Nat :=
  let reg := reg0 % 256
  if reg = 0 then bcd tm.tm_sec
  else if reg = 1 then bcd tm.tm_min
  else if reg = 2 then
    let v0 := tm.tm_hour % 256
    let v := if s.rtc24 = 0 then (v0 % 12 + 1) % 256 else v0
    let val := bcd v
    if s.rtc24 = 0 then
      (if tm.tm_hour > 11 then val ||| 0x20 else val) ||| 0x80
    else val
  else if reg = 3 then bcd tm.tm_mday
  else if reg = 4 then bcd (tm.tm_mon + 1)
  else if reg = 5 then (tm.tm_wday + 1) % 256
  else if reg = 6 then bcd ((tm.tm_year % 100) % 256)
  else if reg = 7 then (if s.rtcwp ≠ 0 then 0x80 else 0x00)
  else if reg = 8 then 0
  else 0xFF

/-- The function `rtcregread`; `none` when a time register is read while `rtc_tm` is
still the null pointer. -/
def rtcregread (s : Rtc) (reg0 : Nat) : Option Nat :=
  let reg := reg0 % 256
  if reg ≤ 6 then
    match s.rtc_tm with
    | none => none
    | some tm => some (rtcregread_tm s tm reg)
  else some (rtcregread_tm s { tm_sec := 0, tm_min := 0, tm_hour := 0, tm_mday := 0,
                               tm_mon := 0, tm_wday := 0, tm_year := 0 } reg)

/-- The block at the head of `rtcop`: the data byte of a write request. -/
def rtcop_data (s : Rtc) : Rtc :=
  if s.rtcstate = 2 then
    let s1 :=
      if s.rtcwp = 0 then
        if s.rtcreg ≠ 0x3F ∧ s.rtcreg &&& 0x20 ≠ 0 then
          { s with rtcram := KZ80.upd s.rtcram (s.rtcreg &&& 0x1F) s.rtcw }
        else if s.rtcreg = 2 then { s with rtc24 := s.rtcw &&& 0x80 }
        else if s.rtcreg = 7 then { s with rtcwp := s.rtcw &&& 0x80 }
        else s
      else s
    { s1 with rtcstate := 0 }
  else s

/-- The function `rtcop`. -/
def rtcop (s0 : Rtc) : Option Rtc :=
  let s := rtcop_data s0
  if s.rtcw &&& 0x80 = 0 then some { s with rtcstate := 0, rtcr := 0x1FF }
  else if s.rtcw = 0xBF then
    match rtcregread { s with rtcstate := 3, rtcbp := 0, rtcbc := 0 } 0 with
    | none => none
    | some v =>
      some { s with rtcstate := 3, rtcbp := 1, rtcbc := 0, rtcr := (v <<< 1) % 65536 }
  else if s.rtcw &&& 0x01 = 0 then
    some { s with rtcstate := 2, rtcreg := (s.rtcw >>> 1) &&& 0x3F, rtcr := 0x1FF }
  else if s.rtcw &&& 0x40 ≠ 0 then
    if s.rtcw ≠ 0xFE then
      some { s with rtcstate := 1, rtcr := (s.rtcram ((s.rtcw >>> 1) &&& 0x1F) <<< 1) % 65536 }
    else some { s with rtcstate := 1 }
  else
    match rtcregread { s with rtcstate := 1 } ((s.rtcw >>> 1) &&& 0x1F) with
    | none => none
    | some v => some { s with rtcstate := 1, rtcr := (v <<< 1) % 65536 }

/-- The clock part of `rtc_write`, entered when the clock bit has changed. -/
def rtc_write_clock (s : Rtc) (val : Nat) : Option Rtc :=
  if val &&& 0x40 = 0 then
    let s1 := { s with rtcr := s.rtcr >>> 1, rtcbc := (s.rtcbc + 1) % 256 }
    if s1.rtcbc = 8 ∧ s1.rtcbp ≠ 0 then
      match rtcregread s1 s1.rtcbp with
      | none => none
      | some v =>
        some { s1 with rtcr := (v <<< 1) % 65536, rtcbp := (s1.rtcbp + 1) % 256, rtcbc := 0 }
    else some s1
  else
    let w1 := s.rtcw >>> 1
    let w2 := if val &&& 0x30 = 0x10 then w1 ||| (val &&& 0x80) else w1 ||| 0xFF
    let s1 := { s with rtcw := w2, rtccnt := (s.rtccnt + 1) % 256 }
    if s1.rtccnt = 8 ∧ val &&& 0x20 = 0 then rtcop s1 else some s1

/-- The function `rtc_write`, given the host time `now` that `localtime` delivers when
CE is raised; `none` is the null-pointer read inside `rtcregread`. -/
def rtc_write (s : Rtc) (val0 : Nat) (now : Tm) : Option Rtc :=
  let val := val0 % 256
  let changed := val ^^^ s.rtcst
  match (if changed &&& 0x40 ≠ 0 then rtc_write_clock s val else some s) with
  | none => none
  | some s1 =>
    let s2 :=
      if changed &&& 0x10 ≠ 0 then
        if s1.rtcst &&& 0x10 ≠ 0 then
          { s1 with rtccnt := 0, rtcr := 0, rtcw := 0, rtcstate := 0 }
        else { s1 with rtc_tm := some now }
      else s1
    some { s2 with rtcst := val }

/-- Power-on of the clock: the statics as they are initialised. -/
def rtc_power_on : Rtc :=
  { rtcw := 0, rtcst := 0, rtcr := 0, rtccnt := 0, rtcstate := 0, rtcreg := 0,
    rtcram := fun _ => 0, rtcwp := 0x80, rtc24 := 1, rtcbp := 0, rtcbc := 0, rtc_tm := none }

/-- One clock pulse in write direction with CE held: the clock goes high with data bit
`b` on the line, then low with the line released. -/
def rtc_send_bit (s : Rtc) (b : Nat) (now : Tm) : Option Rtc :=
  match rtc_write s (0x50 ||| (b <<< 7)) now with
  | none => none
  | some s1 => rtc_write s1 0x10 now

/-- A byte clocked in least significant bit first: bit `k` of `byte` for `k = i`,
`i + 1`, ..., `i + n - 1`. -/
def rtc_send_bits (s : Rtc) (byte : Nat) (now : Tm) : Nat → Nat → Option Rtc
  | _, 0 => some s
  | i, n + 1 =>
    match rtc_send_bit s ((byte >>> i) &&& 1) now with
    | none => none
    | some s1 => rtc_send_bits s1 byte now (i + 1) n

/-- One bit clocked out in read direction with CE held: `rtc_read` is sampled, then the
clock goes high and low.  The sampled bit and the state left. -/
def rtc_recv_bit (s : Rtc) (now : Tm) : Option (Nat × Rtc) :=
  match rtc_write s 0x70 now with
  | none => none
  | some s1 =>
    match rtc_write s1 0x30 now with
    | none => none
    | some s2 => some (rtc_read s, s2)

/-- Bits clocked out least significant first and assembled into a number: the sample
number `i` lands in bit `i`. -/
def rtc_recv_bits (s : Rtc) (now : Tm) : Nat → Nat → Option (Nat × Rtc)
  | _, 0 => some (0, s)
  | i, n + 1 =>
    match rtc_recv_bit s now with
    | none => none
    | some (b, s1) =>
      match rtc_recv_bits s1 now (i + 1) n with
      | none => none
      | some (rest, s2) => some (((b &&& 1) <<< i) ||| rest, s2)

/-- The number assembled from `n` samples of a shift register holding `r`: sample
number `i` is bit 0 of the register, which then moves one place to the right. -/
def sample_bits (r : Nat) : Nat → Nat → Nat
  | _, 0 => 0
  | i, n + 1 =>
    (((if r &&& 0x01 ≠ 0 then 1 else 0) &&& 1) <<< i) ||| sample_bits (r >>> 1) (i + 1) n

/-- The byte register `rtcw` after `n` bits of `byte`, from bit `i` on, have entered it
from the top. -/
def shift_in (w byte : Nat) : Nat → Nat → Nat
  | _, 0 => w
  | i, n + 1 => shift_in ((w >>> 1) ||| (((byte >>> i) &&& 1) <<< 7)) byte (i + 1) n

/-- The scenario of a register read from the statics `s`: CE is raised (latching
`now`), the command byte `cmd` is clocked in, the direction is turned to read, and 8
bits are clocked out.  The byte assembled. -/
def rtc_read_from (s : Rtc) (cmd : Nat) (now : Tm) : Option Nat :=
  match rtc_write s 0x10 now with
  | none => none
  | some s1 =>
    match rtc_send_bits s1 cmd now 0 8 with
    | none => none
    | some s2 =>
      match rtc_write s2 0x30 now with
      | none => none
      | some s3 => (rtc_recv_bits s3 now 0 8).map Prod.fst

/-- The scenario of a register read, from power-on. -/
def rtc_read_register (cmd : Nat) (now : Tm) : Option Nat :=
  rtc_read_from rtc_power_on cmd now

/-- A latched time of 12:34:42 on the 5th of June of year 124, a Wednesday. -/
def tm_example : Tm :=
  { tm_sec := 42, tm_min := 34, tm_hour := 12, tm_mday := 5, tm_mon := 5, tm_wday := 3,
    tm_year := 124 }

/-- The statics when `rtcop` is entered after CE has been raised at power-on and the
byte `0x01`, whose bit 7 is clear, has been clocked in. -/
def st_rtc_bad_command : Rtc :=
  { rtc_power_on with rtcw := 0x01, rtcst := 0x10, rtccnt := 8, rtcbc := 7,
                      rtc_tm := some tm_example }

end RC2014

/-! ## `kz80.c`: the opcode sniffer of `mem_read` over a sequence of reads -/

namespace KZ80

/-- The part of `mem_read` that follows the fetch of the byte `r`: the opcode sniffer.
Besides the byte returned and the state left, whether the call reached `reti_event()`. -/
def mem_read_sniff (s : Machine) (m1 : Bool) (r : Nat) : Nat × Bool × Machine :=
  if m1 = true ∧ (r = 0xDD ∨ r = 0xFD ∨ r = 0xCB) then (r, false, { s with rstate := 2 })
  else if m1 = true ∧ (r = 0xED ∧ s.rstate = 0) then (r, false, { s with rstate := 1 })
  else if r = 0x4D ∧ s.rstate = 1 then (r, true, { reti_event s with rstate := 0 })
  else (r, false, { s with rstate := 0 })

/-- The function `mem_read` once more, returning besides the byte and the state left
whether the call reached `reti_event()`.  The array `ram` is declared with 65535
elements, so the read of address `0xFFFF` is `ram[65535]`, one past its end: the call
goes on with the byte found there as with any other, and `past` is that byte, an input
of the model (C does not say which byte it is).  Every other address is inside its
array and `past` is not looked at. -/
def mem_read_traced (s : Machine) (m1 : Bool) (addr0 past : Nat) : Nat × Bool × Machine :=
  let addr := addr0 % 65536
  match (if addr < 8192 then CArray.load EEPROM_SIZE s.eeprom addr
         else CArray.load RAM_SIZE s.ram addr) with
  | none => mem_read_sniff s m1 (past % 256)
  | some r => mem_read_sniff s m1 r

/-- A sequence of calls of `mem_read`, each given as the CPU's `M1` flag, the address and
the byte an access past the end of `ram` would deliver: for every call the byte returned
and whether `reti_event()` was called, and the state left at the end. -/
def mem_reads : Machine → List (Bool × Nat × Nat) → List (Nat × Bool) × Machine
  | s, [] => ([], s)
  | s, (m1, addr, past) :: rest =>
    (((mem_read_traced s m1 addr past).1, (mem_read_traced s m1 addr past).2.1)
        :: (mem_reads (mem_read_traced s m1 addr past).2.2 rest).1,
      (mem_reads (mem_read_traced s m1 addr past).2.2 rest).2)

/-- The sniffer as the specification words it: clean, armed by an `ED` fetched in the
clean state, or inside a `DD` / `FD` / `CB` sequence. -/
inductive Sniffer where
  | clean
  | saw_ed
  | in_sequence
  deriving DecidableEq

/-- One read as the specification words it: the RETI event fires exactly when the byte
is `0x4D` and the read before was an M1 fetch of `0xED` taken in the clean state; an M1
fetch of `0xDD`, `0xFD` or `0xCB` starts a sequence, an M1 fetch of `0xED` in the clean
state arms the sniffer, every other byte returns it to the clean state. -/
def sniffer_spec_step (q : Sniffer) (m1 : Bool) (r : Nat) : Bool × Sniffer :=
  (decide (r = 0x4D ∧ q = Sniffer.saw_ed),
   if m1 = true ∧ (r = 0xDD ∨ r = 0xFD ∨ r = 0xCB) then Sniffer.in_sequence
   else if m1 = true ∧ r = 0xED ∧ q = Sniffer.clean then Sniffer.saw_ed
   else Sniffer.clean)

/-- The reads on which the specification fires the RETI event, for a sequence of reads
given as M1 flag and byte read. -/
def sniffer_spec_fires : Sniffer → List (Bool × Nat) → List Bool
  | _, [] => []
  | q, (m1, r) :: rest =>
    (sniffer_spec_step q m1 r).1 :: sniffer_spec_fires (sniffer_spec_step q m1 r).2 rest

/-- The specification's state that a value of the static `rstate` stands for. -/
def sniffer_of (rstate : Nat) : Sniffer :=
  if rstate = 0 then Sniffer.clean
  else if rstate = 1 then Sniffer.saw_ed
  else Sniffer.in_sequence

/-- A ROM image that starts with the bytes `DD ED 4D ED 4D`. -/
def rom_reti : Nat → Nat :=
  fun a => if a = 0 then 0xDD else if a = 1 then 0xED else if a = 2 then 0x4D
    else if a = 3 then 0xED else if a = 4 then 0x4D else 0

end KZ80

/-! ## `rc2014-6502.c`: the timer tick of the SIO/2 -/

namespace RC2014

/-- The function `sio2_clear_int` of `rc2014-6502.c`. -/
def sio2_clear_int (s : SioPair) (c : KZ80.Chan) (m0 : Nat) : SioPair :=
  let m := m0 % 256
  let s1 := s.modChan c (fun ch => { ch with
    intbits := ch.intbits &&& (0xFF ^^^ m),
    pending := ch.pending &&& (0xFF ^^^ m) })
  if (s1.sioA.intbits ||| s1.sioB.intbits) = 0 then
    (s1.modChan KZ80.Chan.A
      (fun ch => { ch with rr := KZ80.upd ch.rr 1 (ch.rr 1 &&& 0xFD) })).modChan c
      (fun ch => { ch with irq := 0 })
  else s1

/-- The function `sio2_channel_reset` of `rc2014-6502.c`. -/
def sio2_channel_reset (s : SioPair) (c : KZ80.Chan) : SioPair :=
  sio2_clear_int
    (s.modChan c (fun ch => { ch with
      rr := KZ80.upd (KZ80.upd (KZ80.upd ch.rr 0 0x2C) 1 0x01) 2 0 }))
    c (KZ80.INT_RX ||| KZ80.INT_TX ||| KZ80.INT_ERR)

/-- The function `sio_reset` of `rc2014-6502.c`. -/
def sio_reset (s : SioPair) : SioPair :=
  sio2_channel_reset (sio2_channel_reset s KZ80.Chan.A) KZ80.Chan.B

/-- The data branch of `sio2_write` of `rc2014-6502.c` (`addr & 1` set), as far as the
SIO pair is concerned; the byte itself goes to the host's standard output. -/
def sio2_write_data (s : SioPair) (c : KZ80.Chan) : SioPair :=
  sio2_clear_int
    (s.modChan c (fun ch => { ch with
      rr := KZ80.upd ch.rr 0 (ch.rr 0 &&& 0xFB), txint := 1 }))
    c KZ80.INT_TX

/-- The function `sio2_channel_timer` of `rc2014-6502.c`.  `sio2_input` is the static set
by the command line, `c` the value `check_chario()` returns (bit 0: input waiting, bit 1:
standard output writable) and `nc` the byte `next_char()` returns; the host is asked only
in the branch of channel A. -/
def sio2_channel_timer (sio2_input : Bool) (c nc : Nat) (s : SioPair) (chan : KZ80.Chan)
    (ab : Nat) : SioPair :=
  if ab = 0 then
    let s1 := if sio2_input = true ∧ c &&& 1 ≠ 0 then sio2_queue s chan nc else s
    if c &&& 2 ≠ 0 then
      if (s1.chan chan).rr 0 &&& 0x04 = 0 then
        let s2 := s1.modChan chan (fun ch => { ch with rr := KZ80.upd ch.rr 0 (ch.rr 0 ||| 0x04) })
        if (s2.chan chan).wr 1 &&& 0x02 ≠ 0 then sio2_raise_int s2 chan KZ80.INT_TX else s2
      else s1
    else s1
  else
    if (s.chan chan).rr 1 &&& 0x04 = 0 then
      let s2 := s.modChan chan (fun ch => { ch with rr := KZ80.upd ch.rr 1 (ch.rr 1 ||| 0x04) })
      if (s2.chan chan).wr 1 &&& 0x02 ≠ 0 then sio2_raise_int s2 chan KZ80.INT_TX else s2
    else s

/-- The function `sio2_timer` of `rc2014-6502.c`. -/
def sio2_timer (sio2_input : Bool) (c nc : Nat) (s : SioPair) : SioPair :=
  sio2_channel_timer sio2_input c nc
    (sio2_channel_timer sio2_input c nc s KZ80.Chan.A 0) KZ80.Chan.B 1

/-- The SIO pair as the C runtime starts it, all zero. -/
def pair_zero : SioPair :=
  { sioA := KZ80.chan_zero, sioB := KZ80.chan_zero }

/-- The SIO pair after `sio_reset()`. -/
def pair_power_on : SioPair :=
  sio_reset pair_zero

/-- The SIO pair after power-on and one data byte written to channel B. -/
def st_pair_b_sent : SioPair :=
  sio2_write_data pair_power_on KZ80.Chan.B

end RC2014

/-! ## `rc2014-6502.c`: the 6850 ACIA -/

namespace RC2014

/-- Interrupt source number of the ACIA in `live_irq`. -/
def IRQ_ACIA : Nat := 4

/-- What the ACIA functions read and write: the statics `acia_status`, `acia_config`,
`acia_char`, `acia_input` (set by the command line) and `acia_inint`, the interrupt mask
`live_irq`, and the bytes written to file descriptor 1, oldest first. -/
structure AciaSys where
  acia_status : Nat
  acia_config : Nat
  acia_char : Nat
  acia_input : Nat
  acia_inint : Nat
  live_irq : Nat
  tty_out : List Nat

/-- The function `acia_irq_compute`: two `if` statements in sequence, the second one
testing the latch the first one may just have set. -/
def acia_irq_compute (s : AciaSys) : AciaSys :=
  let s1 :=
    if s.acia_inint = 0 ∧ s.acia_config ≠ 0 ∧ s.acia_status &&& 0x80 ≠ 0 then
      { s with acia_inint := 1, live_irq := int_set s.live_irq IRQ_ACIA }
    else s
  if s1.acia_inint ≠ 0 then
    { s1 with live_irq := int_clear s1.live_irq IRQ_ACIA, acia_inint := 0 }
  else s1

/-- The function `acia_receive`, given what `read(0, &c, 1)` delivers. -/
def acia_receive (s : AciaSys) (rd : Option Nat) : AciaSys :=
  let old_status := s.acia_status
  let st1 := old_status &&& 0x02
  let st2 := if old_status &&& 1 ≠ 0 then st1 ||| 0x20 else st1
  { s with acia_char := KZ80.next_char rd, acia_status := st2 ||| 0x81 }

/-- The function `acia_transmit`. -/
def acia_transmit (s : AciaSys) : AciaSys :=
  if s.acia_status &&& 2 = 0 then { s with acia_status := s.acia_status ||| 0x82 } else s

/-- The function `acia_timer`, given what `select` reports and what `read` delivers;
`none` is the `exit(1)` inside `check_chario`. -/
def acia_timer (s : AciaSys) (sel : KZ80.Select) (rd : Option Nat) : Option AciaSys :=
  match KZ80.check_chario sel with
  | none => none
  | some st =>
    let s1 := if st &&& 1 ≠ 0 ∧ s.acia_input ≠ 0 then acia_receive s rd else s
    let s2 := if st &&& 2 ≠ 0 then acia_transmit s1 else s1
    some (if st ≠ 0 then acia_irq_compute s2 else s2)

/-- The function `acia_write`; `addr` is a `uint16_t`, `val` a `uint8_t`. -/
def acia_write (s : AciaSys) (addr0 val0 : Nat) : AciaSys :=
  let addr := addr0 % 65536
  let val := val0 % 256
  if addr = 0 then
    let s1 := { s with acia_config := val }
    let s2 := if s1.acia_config &&& 3 = 3 then { s1 with acia_status := 2 } else s1
    acia_irq_compute s2
  else if addr = 1 then
    { s with tty_out := s.tty_out ++ [val], acia_status := s.acia_status &&& 0x7D }
  else s

/-- Power-on of the ACIA with console input routed to it: the statics as they are
initialised (`acia_status = 2`). -/
def acia_power_on : AciaSys :=
  { acia_status := 2, acia_config := 0, acia_char := 0, acia_input := 1, acia_inint := 0,
    live_irq := 0, tty_out := [] }

/-- Power-on, the control register set to `0x95` (interrupts enabled), one byte sent. -/
def st_acia_sent : AciaSys :=
  acia_write (acia_write acia_power_on 0 0x95) 1 0x41

/-- The statics when `acia_irq_compute` is entered in the timer tick that follows
`st_acia_sent` with standard output writable: `acia_transmit` has set status `0x82`. -/
def st_acia_tx_done : AciaSys :=
  acia_transmit st_acia_sent

end RC2014

/-! ## `rc2014-6502.c`: further scenarios of the UART, the VIA, the clock, the fabric and
the CTC -/

namespace RC2014

/-- Power-on of the UART, then the transmitter-empty interrupt enabled in IER. -/
def st_uart_tx_enabled : UartSys :=
  uart_write uart_power_on 1 0x02

/-- The static `tstate_steps`, a `uint16_t`: the clocks of one slice of the main loop,
the argument of its calls `ctc_tick(tstate_steps)` and `via_tick(tstate_steps)`. -/
def tstate_steps : Nat := 200

/-- Timer 2 of the VIA started at 100 in interval mode (registers 8 and 9). -/
def st_via_t2 : ViaSys :=
  via_run via_power_on [ViaOp.write 8 100, ViaOp.write 9 0]

/-- Timer 1 of the VIA in continuous mode (ACR = `0x40`) started at 16 (registers 4
and 5), then its latch set to `0xFFFF` (registers 6 and 7, which leave the counter). -/
def st_via_t1_top : ViaSys :=
  via_run via_power_on [ViaOp.write 11 0x40, ViaOp.write 4 0x10, ViaOp.write 5 0x00,
    ViaOp.write 6 0xFF, ViaOp.write 7 0xFF]

/-- Timer 1 of the VIA in continuous mode with latch and counter 16. -/
def st_via_t1_cont : ViaSys :=
  via_run via_power_on [ViaOp.write 11 0x40, ViaOp.write 4 0x10, ViaOp.write 5 0x00]

/-- A sequence of calls `rtc_write(val)`, the host time being `now` throughout. -/
def rtc_writes (now : Tm) : Rtc → List Nat → Option Rtc
  | s, [] => some s
  | s, val :: rest =>
    match rtc_write s val now with
    | none => none
    | some s1 => rtc_writes now s1 rest

/-- The scenario of a register write from the statics `s`: CE is raised, the command
byte `cmd` is clocked in, then the data byte `v`, all in write direction. -/
def rtc_write_from (s : Rtc) (cmd v : Nat) (now : Tm) : Option Rtc :=
  match rtc_write s 0x10 now with
  | none => none
  | some s1 =>
    match rtc_send_bits s1 cmd now 0 8 with
    | none => none
    | some s2 => rtc_send_bits s2 v now 0 8

/-- The statics when `rtcop` is entered in state 2 with the data byte `v` in `rtcw`,
for a write request to NVRAM location 0, write protect clear. -/
def st_rtc_data (v : Nat) : Rtc :=
  { rtc_power_on with rtcwp := 0, rtcw := v, rtcst := 0x10, rtccnt := 8, rtcstate := 2,
                      rtcreg := 0x20, rtcr := 0xFF, rtcbc := 8, rtc_tm := some tm_example }

/-- A sequence of calls `write6502(addr, val)`; `none` when one of them indexes `ramrom`
past its end. -/
def write6502_run (cfg : Config) : Fabric → List (Nat × Nat) → Option Fabric
  | s, [] => some s
  | s, (addr, val) :: rest =>
    match write6502 cfg s addr val with
    | none => none
    | some s1 => write6502_run cfg s1 rest

/-- The fabric at power-on: the ROM image in `ramrom`, the bank registers zero, banking
off, and the address-inversion mask the command line selected. -/
def fabric_power_on (rom : Nat → Nat) (addrinvert : Nat) : Fabric :=
  { ramrom := rom, bankreg := fun _ => 0, bankenable := 0, addrinvert := addrinvert }

/-- Channel 1 of the CTC programmed from power-on in counter mode with interrupts
enabled (control word `0xC7`, which also sets RESET) and time constant 0. -/
def st_ctc_counter_zero : CtcSys :=
  ctc_program ctc_power_on 1 0xC7 0

end RC2014

/-! ## Theorems: memory fabric of `rc2014-6502.c` -/

namespace RC2014

theorem and_3fff_lt (x : Nat) : x &&& 0x3FFF < 16384 := by
  have h : x &&& 0x3FFF ≤ 0x3FFF := Nat.and_le_right
  omega

theorem bank_index_eq (reg x : Nat) (hreg : reg ≤ 63) (hx : x < 16384) :
    bank_index reg x = reg * 16384 + x := by
  unfold bank_index
  rw [Nat.shiftLeft_eq]
  omega

theorem bank_index_lt (s : Fabric) (addr : Nat) (hreg : s.bankreg (bank_of s addr) ≤ 63) :
    bank_index (s.bankreg (bank_of s addr)) (offset_of s addr) < RAMROM_SIZE := by
  have h3 := and_3fff_lt (((addr % 65536) ^^^ s.addrinvert) % 65536)
  unfold offset_of
  rw [bank_index_eq _ _ hreg h3]
  unfold RAMROM_SIZE
  omega

/-- With banking on, a write to a non-I/O address followed by a read of it yields the
written byte when the selected bank is in the RAM half and the stored byte otherwise. -/
theorem write_then_read_value (cfg : Config) (s : Fabric) (fake_m1 : Bool)
    (rstate addr v : Nat) (hio : (addr % 65536) >>> 8 ≠ iopage) (hen : s.bankenable ≠ 0)
    (hv : v < 256) (hreg : s.bankreg (bank_of s addr) ≤ 63) :
    write_then_read cfg s fake_m1 rstate addr v =
      some (if 32 ≤ s.bankreg (bank_of s addr) then v
            else s.ramrom (bank_index (s.bankreg (bank_of s addr)) (offset_of s addr))) := by
  have hidx := bank_index_lt s addr hreg
  unfold bank_of at hreg hidx ⊢
  unfold offset_of at hidx ⊢
  by_cases hb : 32 ≤ s.bankreg (((((addr % 65536) ^^^ s.addrinvert) % 65536) &&& 0xC000) >>> 14)
  · simp only [write_then_read, write6502, read6502, do_6502_read, CArray.store, CArray.load,
      hio, hen, hb, hidx, Nat.mod_mod, if_true, if_false, ne_eq, not_false_eq_true,
      Nat.mod_eq_of_lt hv]
    split_ifs <;> simp
  · simp only [write_then_read, write6502, read6502, do_6502_read, CArray.store, CArray.load,
      hio, hen, hb, hidx, Nat.mod_mod, if_true, if_false, ne_eq, not_false_eq_true]
    split_ifs <;> simp

/-- C1, as stated, fails: with bank register 0 (ROM half) selected and the ROM byte at
address 0 equal to 0, writing 0 and reading back returns the written byte although the
selected bank register is below 32. -/
theorem c1_readback_in_rom_half :
    write_then_read cfg_default (fabric_zero 0) false 0 0 0 = some 0 ∧
      ¬ (32 ≤ (fabric_zero 0).bankreg (bank_of (fabric_zero 0) 0)) := by
  decide

/-- C1 (amended): in the 6502 profile with banking enabled, for every address outside
the I/O page, every byte `v` and bank registers holding 0..63, `write6502(addr, v)`
followed by `read6502(addr)` returns `v` when the selected bank register is at least 32
and the byte already stored at the resolved location otherwise; so it returns `v` if and
only if the selected bank register is at least 32 or that stored byte already equals `v`. -/
theorem c1_write_then_read_banked (cfg : Config) (s : Fabric) (fake_m1 : Bool)
    (rstate addr v : Nat) (haddr : addr < 65536) (hio : addr >>> 8 ≠ iopage)
    (hen : s.bankenable ≠ 0) (hv : v < 256) (hreg : s.bankreg (bank_of s addr) ≤ 63) :
    write_then_read cfg s fake_m1 rstate addr v =
        some (if 32 ≤ s.bankreg (bank_of s addr) then v
              else s.ramrom (bank_index (s.bankreg (bank_of s addr)) (offset_of s addr))) ∧
      (write_then_read cfg s fake_m1 rstate addr v = some v ↔
        (32 ≤ s.bankreg (bank_of s addr) ∨
          s.ramrom (bank_index (s.bankreg (bank_of s addr)) (offset_of s addr)) = v)) := by
  have hio1 : (addr % 65536) >>> 8 ≠ iopage := by rwa [Nat.mod_eq_of_lt haddr]
  have h := write_then_read_value cfg s fake_m1 rstate addr v hio1 hen hv hreg
  refine ⟨h, ?_⟩
  rw [h]
  by_cases hb : 32 ≤ s.bankreg (bank_of s addr)
  · simp [hb]
  · simp [hb]

/-- C1 at a concrete input: bank register 33, address `0x1234`, byte 7. -/
theorem c1_write_then_read_banked_witness :
    (0x1234 < 65536 ∧ 0x1234 >>> 8 ≠ iopage ∧ (fabric_zero 33).bankenable ≠ 0 ∧ 7 < 256 ∧
      (fabric_zero 33).bankreg (bank_of (fabric_zero 33) 0x1234) ≤ 63) ∧
    (write_then_read cfg_default (fabric_zero 33) true 0 0x1234 7 =
        some (if 32 ≤ (fabric_zero 33).bankreg (bank_of (fabric_zero 33) 0x1234) then 7
              else (fabric_zero 33).ramrom
                (bank_index ((fabric_zero 33).bankreg (bank_of (fabric_zero 33) 0x1234))
                  (offset_of (fabric_zero 33) 0x1234))) ∧
      (write_then_read cfg_default (fabric_zero 33) true 0 0x1234 7 = some 7 ↔
        (32 ≤ (fabric_zero 33).bankreg (bank_of (fabric_zero 33) 0x1234) ∨
          (fabric_zero 33).ramrom
            (bank_index ((fabric_zero 33).bankreg (bank_of (fabric_zero 33) 0x1234))
              (offset_of (fabric_zero 33) 0x1234)) = 7))) :=
  ⟨by decide,
   c1_write_then_read_banked cfg_default (fabric_zero 33) true 0 0x1234 7
     (by decide) (by decide) (by decide) (by decide) (by decide)⟩

theorem bank_of_lt (s : Fabric) (addr : Nat) : bank_of s addr < 4 := by
  unfold bank_of
  have h : (((addr % 65536) ^^^ s.addrinvert) % 65536) &&& 0xC000 ≤ 0xC000 := Nat.and_le_right
  rw [Nat.shiftRight_eq_div_pow]
  omega

/-- C2: in the 6502 profile, for every address outside the I/O page, every value, every
bank-enable state and the four bank registers holding 0..63, `write6502` succeeds and
leaves every byte of the lower 512 KiB of the backing store unchanged; with banking
disabled it leaves the whole backing store unchanged. -/
theorem c2_write_keeps_rom_half (cfg : Config) (s : Fabric) (addr v : Nat)
    (haddr : addr < 65536) (hio : addr >>> 8 ≠ iopage)
    (hreg : ∀ b, b < 4 → s.bankreg b ≤ 63) :
    ∃ s1, write6502 cfg s addr v = some s1 ∧
      (∀ i, i < 524288 → s1.ramrom i = s.ramrom i) ∧
      (s.bankenable = 0 → s1.ramrom = s.ramrom) := by
  have hsel := hreg _ (bank_of_lt s addr)
  have hidx := bank_index_lt s addr hsel
  have h3 := and_3fff_lt (((addr % 65536) ^^^ s.addrinvert) % 65536)
  have hbi := bank_index_eq (s.bankreg (bank_of s addr)) (offset_of s addr) hsel h3
  unfold bank_of at hidx hbi
  unfold offset_of at hidx hbi
  rw [Nat.mod_eq_of_lt haddr] at hidx hbi
  generalize hreg_eq : s.bankreg ((((addr ^^^ s.addrinvert) % 65536) &&& 0xC000) >>> 14) = reg
    at hidx hbi
  generalize hoff_eq : ((addr ^^^ s.addrinvert) % 65536) &&& 0x3FFF = off at hidx hbi
  by_cases hen : s.bankenable = 0
  · refine ⟨s, ?_, fun _ _ => rfl, fun _ => rfl⟩
    simp [write6502, Nat.mod_eq_of_lt haddr, hio, hen]
  · by_cases hb : 32 ≤ reg
    · refine ⟨{ s with ramrom := fun j => if j = bank_index reg off then v % 256 else s.ramrom j },
        ?_, ?_, ?_⟩
      · simp [write6502, CArray.store, Nat.mod_eq_of_lt haddr, hio, hen, hb, hidx, hreg_eq,
          hoff_eq]
      · intro i hi
        have hne : i ≠ bank_index reg off := by
          rw [hbi]; omega
        simp [hne]
      · intro h0; exact absurd h0 hen
    · refine ⟨s, ?_, fun _ _ => rfl, fun _ => rfl⟩
      simp [write6502, Nat.mod_eq_of_lt haddr, hio, hen, hb, hreg_eq]

/-- C2 at a concrete input: bank register 40, address `0x8000`, byte 9. -/
theorem c2_write_keeps_rom_half_witness :
    (0x8000 < 65536 ∧ 0x8000 >>> 8 ≠ iopage ∧ ∀ b, b < 4 → (fabric_zero 40).bankreg b ≤ 63) ∧
    ∃ s1, write6502 cfg_default (fabric_zero 40) 0x8000 9 = some s1 ∧
      (∀ i, i < 524288 → s1.ramrom i = (fabric_zero 40).ramrom i) ∧
      ((fabric_zero 40).bankenable = 0 → s1.ramrom = (fabric_zero 40).ramrom) :=
  ⟨⟨by decide, by decide, fun _ _ => (by decide : (40 : Nat) ≤ 63)⟩,
   c2_write_keeps_rom_half cfg_default (fabric_zero 40) 0x8000 9 (by decide) (by decide)
     (fun _ _ => (by decide : (40 : Nat) ≤ 63))⟩

end RC2014

/-! ## Theorems: memory of `kz80.c` -/

namespace KZ80

/-- C3: in the Z80 profile, for every address below 8192 and every value, `mem_write`
returns normally and changes no byte of the EEPROM array and no byte of the RAM array
(it leaves the whole machine state as it was). -/
theorem c3_rom_write_changes_nothing (s : Machine) (addr v : Nat) (h : addr < 8192) :
    ∃ s1, mem_write s addr v = some s1 ∧ s1.eeprom = s.eeprom ∧ s1.ram = s.ram ∧ s1 = s := by
  have h1 : addr % 65536 < 8192 := by omega
  exact ⟨s, by simp [mem_write, h1], rfl, rfl, rfl⟩

/-- C3 at a concrete input: a write of `0x55` to address 100 after power-on. -/
theorem c3_rom_write_changes_nothing_witness :
    (100 : Nat) < 8192 ∧
    ∃ s1, mem_write (power_on (fun _ => 0)) 100 0x55 = some s1 ∧
      s1.eeprom = (power_on (fun _ => 0)).eeprom ∧ s1.ram = (power_on (fun _ => 0)).ram ∧
      s1 = power_on (fun _ => 0) :=
  ⟨by decide, c3_rom_write_changes_nothing (power_on (fun _ => 0)) 100 0x55 (by decide)⟩

/-- Below the top address the RAM round trip holds: for `8192 ≤ a < 65535` a write of
`v` followed by a read returns `v`. -/
theorem ram_write_then_read (s : Machine) (m1 : Bool) (a v : Nat) (hlo : 8192 ≤ a)
    (hhi : a < 65535) (hv : v < 256) :
    ∃ s1 s2, mem_write s a v = some s1 ∧ mem_read s1 m1 a = some (v, s2) := by
  have ha : a % 65536 = a := Nat.mod_eq_of_lt (by omega)
  have hlo1 : ¬ a < 8192 := by omega
  refine ⟨{ s with ram := fun j => if j = a then v else s.ram j }, ?_⟩
  simp only [mem_write, mem_read, CArray.store, CArray.load, RAM_SIZE, ha, hlo1, hhi,
    Nat.mod_eq_of_lt hv, if_true, if_false]
  split_ifs <;> simp

/-- C4 (the code at the failing input): address 65535 indexes `ram[65535]`, one past
the last element of `static uint8_t ram[65535]`, both in `mem_write` and in `mem_read`. -/
theorem c4_top_address_past_ram_end :
    ¬ (65535 < RAM_SIZE) ∧
      (∀ (s : Machine) (v : Nat), mem_write s 65535 v = none) ∧
      (∀ (s : Machine) (m1 : Bool), mem_read s m1 65535 = none) := by
  refine ⟨by decide, ?_, ?_⟩
  · intro s v
    simp [mem_write, CArray.store, RAM_SIZE]
  · intro s m1
    simp [mem_read, CArray.load, RAM_SIZE]

end KZ80

/-! ## Theorems: SIO/2 and interrupt delivery of `kz80.c` -/

namespace KZ80

/-! ### Bit arithmetic on register bytes -/

theorem or_eq_zero_iff (x y : Nat) : x ||| y = 0 ↔ x = 0 ∧ y = 0 := by
  constructor
  · intro h
    have hx : ∀ i, x.testBit i = false := fun i => by
      have := congrArg (fun n => Nat.testBit n i) h
      simp only [Nat.testBit_or, Nat.zero_testBit, Bool.or_eq_false_iff] at this
      exact this.1
    have hy : ∀ i, y.testBit i = false := fun i => by
      have := congrArg (fun n => Nat.testBit n i) h
      simp only [Nat.testBit_or, Nat.zero_testBit, Bool.or_eq_false_iff] at this
      exact this.2
    exact ⟨Nat.eq_of_testBit_eq (by simpa using hx), Nat.eq_of_testBit_eq (by simpa using hy)⟩
  · rintro ⟨rfl, rfl⟩
    rfl

/-- Setting the bits of a nonzero mask makes the masked value nonzero. -/
theorem or_and_self_ne_zero (x m : Nat) (hm : m ≠ 0) : (x ||| m) &&& m ≠ 0 := by
  rw [Nat.and_distrib_right, Nat.and_self]
  intro h
  exact hm ((or_eq_zero_iff _ _).mp h).2

/-- Masking with `a` and then with `b` is masking with `a &&& b`. -/
theorem and_and_lit (x a b c : Nat) (h : a &&& b = c) : (x &&& a) &&& b = x &&& c := by
  rw [Nat.and_assoc, h]

/-- Setting bits `a` does not change the bits `b` when the two masks are disjoint. -/
theorem or_and_disjoint (x a b : Nat) (h : a &&& b = 0) : (x ||| a) &&& b = x &&& b := by
  rw [Nat.and_distrib_right, h, Nat.or_zero]

/-! The overrun bit of RR1 (mask `0x20`) under the masks the code applies. -/

theorem b5_or_02 (x : Nat) : (x ||| 2) &&& 32 = x &&& 32 := or_and_disjoint x 2 32 (by decide)

theorem b5_and_FD (x : Nat) : (x &&& 253) &&& 32 = x &&& 32 := and_and_lit x 253 32 32 (by decide)

theorem b5_and_3F (x : Nat) : (x &&& 63) &&& 32 = x &&& 32 := and_and_lit x 63 32 32 (by decide)

theorem b5_and_CF (x : Nat) : (x &&& 207) &&& 32 = 0 := by
  rw [and_and_lit x 207 32 0 (by decide), Nat.and_zero]

theorem b5_and_8F (x : Nat) : (x &&& 143) &&& 32 = 0 := by
  rw [and_and_lit x 143 32 0 (by decide), Nat.and_zero]

theorem b5_or_20 (x : Nat) : ((x ||| 32) &&& 32 = 0) ↔ False :=
  iff_false_intro (or_and_self_ne_zero x 32 (by decide))

theorem b5_one : (1 &&& 32 : Nat) = 0 := by decide

/-! ### Projections of the state updates -/

@[simp]
theorem chan_A (s : Machine) : s.chan Chan.A = s.sioA := rfl

@[simp]
theorem chan_B (s : Machine) : s.chan Chan.B = s.sioB := rfl

@[simp]
theorem modChan_A_sioA (s : Machine) (f : z80_sio_chan → z80_sio_chan) :
    (s.modChan Chan.A f).sioA = f s.sioA := rfl

@[simp]
theorem modChan_A_sioB (s : Machine) (f : z80_sio_chan → z80_sio_chan) :
    (s.modChan Chan.A f).sioB = s.sioB := rfl

@[simp]
theorem modChan_B_sioA (s : Machine) (f : z80_sio_chan → z80_sio_chan) :
    (s.modChan Chan.B f).sioA = s.sioA := rfl

@[simp]
theorem modChan_B_sioB (s : Machine) (f : z80_sio_chan → z80_sio_chan) :
    (s.modChan Chan.B f).sioB = f s.sioB := rfl

@[simp]
theorem modChan_chan (s : Machine) (c : Chan) (f : z80_sio_chan → z80_sio_chan) :
    (s.modChan c f).chan c = f (s.chan c) := by
  cases c <;> rfl

@[simp]
theorem modChan_z80int (s : Machine) (c : Chan) (f : z80_sio_chan → z80_sio_chan) :
    (s.modChan c f).z80int = s.z80int := by
  cases c <;> rfl

@[simp]
theorem modChan_live_irq (s : Machine) (c : Chan) (f : z80_sio_chan → z80_sio_chan) :
    (s.modChan c f).live_irq = s.live_irq := by
  cases c <;> rfl

@[simp]
theorem modChan_int_recalc (s : Machine) (c : Chan) (f : z80_sio_chan → z80_sio_chan) :
    (s.modChan c f).int_recalc = s.int_recalc := by
  cases c <;> rfl

@[simp]
theorem modChan_tty_out (s : Machine) (c : Chan) (f : z80_sio_chan → z80_sio_chan) :
    (s.modChan c f).tty_out = s.tty_out := by
  cases c <;> rfl

@[simp]
theorem recalc_sioA (s : Machine) : (recalc_interrupts s).sioA = s.sioA := rfl

@[simp]
theorem recalc_sioB (s : Machine) : (recalc_interrupts s).sioB = s.sioB := rfl

@[simp]
theorem recalc_z80int (s : Machine) : (recalc_interrupts s).z80int = s.z80int := rfl

@[simp]
theorem recalc_live_irq (s : Machine) : (recalc_interrupts s).live_irq = s.live_irq := rfl

@[simp]
theorem recalc_int_recalc (s : Machine) : (recalc_interrupts s).int_recalc = 1 := rfl

@[simp]
theorem tty_write_sioA (s : Machine) (v : Nat) : (tty_write s v).sioA = s.sioA := rfl

@[simp]
theorem tty_write_sioB (s : Machine) (v : Nat) : (tty_write s v).sioB = s.sioB := rfl

@[simp]
theorem tty_write_z80int (s : Machine) (v : Nat) : (tty_write s v).z80int = s.z80int := rfl

@[simp]
theorem tty_write_live_irq (s : Machine) (v : Nat) :
    (tty_write s v).live_irq = s.live_irq := rfl

@[simp]
theorem tty_write_int_recalc (s : Machine) (v : Nat) :
    (tty_write s v).int_recalc = s.int_recalc := rfl

/-! ### What the interrupt helpers and the timer leave alone -/

/-- What `sio2_raise_int` leaves alone. -/
theorem raise_int_frame (s : Machine) (c : Chan) (m : Nat) :
    (sio2_raise_int s c m).sioA.wr = s.sioA.wr ∧
    (sio2_raise_int s c m).sioB.wr = s.sioB.wr ∧
    (sio2_raise_int s c m).sioA.data = s.sioA.data ∧
    (sio2_raise_int s c m).sioB.data = s.sioB.data ∧
    (sio2_raise_int s c m).sioA.dptr = s.sioA.dptr ∧
    (sio2_raise_int s c m).sioB.dptr = s.sioB.dptr ∧
    (sio2_raise_int s c m).sioA.rr 0 = s.sioA.rr 0 ∧
    (sio2_raise_int s c m).sioB.rr = s.sioB.rr ∧
    (sio2_raise_int s c m).sioA.rr 1 &&& 0x20 = s.sioA.rr 1 &&& 0x20 ∧
    (sio2_raise_int s c m).z80int = s.z80int ∧
    (sio2_raise_int s c m).live_irq = s.live_irq := by
  cases c <;> simp only [sio2_raise_int] <;> split_ifs <;> simp [upd, b5_or_02]

/-- What `sio2_clear_int` leaves alone. -/
theorem clear_int_frame (s : Machine) (c : Chan) (m : Nat) :
    (sio2_clear_int s c m).sioA.wr = s.sioA.wr ∧
    (sio2_clear_int s c m).sioB.wr = s.sioB.wr ∧
    (sio2_clear_int s c m).sioA.data = s.sioA.data ∧
    (sio2_clear_int s c m).sioB.data = s.sioB.data ∧
    (sio2_clear_int s c m).sioA.dptr = s.sioA.dptr ∧
    (sio2_clear_int s c m).sioB.dptr = s.sioB.dptr ∧
    (sio2_clear_int s c m).sioA.rr 0 = s.sioA.rr 0 ∧
    (sio2_clear_int s c m).sioB.rr = s.sioB.rr ∧
    (sio2_clear_int s c m).sioA.rr 1 &&& 0x20 = s.sioA.rr 1 &&& 0x20 ∧
    (sio2_clear_int s c m).z80int = s.z80int ∧
    (sio2_clear_int s c m).live_irq = s.live_irq := by
  cases c <;> simp only [sio2_clear_int] <;> split_ifs <;> simp [upd, b5_and_FD]

/-- What the transmit refill leaves alone. -/
theorem tx_refill_frame (s : Machine) (c : Chan) :
    (tx_refill s c).sioA.wr = s.sioA.wr ∧
    (tx_refill s c).sioB.wr = s.sioB.wr ∧
    (tx_refill s c).sioA.data = s.sioA.data ∧
    (tx_refill s c).sioB.data = s.sioB.data ∧
    (tx_refill s c).sioA.dptr = s.sioA.dptr ∧
    (tx_refill s c).sioB.dptr = s.sioB.dptr ∧
    (tx_refill s c).sioA.rr 1 &&& 0x20 = s.sioA.rr 1 &&& 0x20 ∧
    (tx_refill s c).sioB.rr 1 = s.sioB.rr 1 ∧
    (tx_refill s c).z80int = s.z80int ∧
    (tx_refill s c).live_irq = s.live_irq := by
  cases c <;> simp only [tx_refill] <;> split_ifs <;> simp [upd, raise_int_frame]

/-- Channel B's timer is the transmit refill of channel B. -/
theorem channel_timer_B (s : Machine) (sel : Select) (rd : Option Nat) :
    sio2_channel_timer s Chan.B 1 sel rd = some (tx_refill s Chan.B) := by
  simp only [sio2_channel_timer, tx_refill, Nat.reduceMod, one_ne_zero, if_false]
  split_ifs <;> rfl

/-- Channel A's timer: nothing on `EINTR`, exit on a failed `select`, otherwise an
enqueue when stdin is ready followed by the transmit refill. -/
theorem channel_timer_A (s : Machine) (sel : Select) (rd : Option Nat) :
    sio2_channel_timer s Chan.A 0 sel rd =
      match sel with
      | Select.eintr => some s
      | Select.failed => none
      | Select.ok true => some (tx_refill (sio2_queue s Chan.A (next_char rd)) Chan.A)
      | Select.ok false => some (tx_refill s Chan.A) := by
  have k1 : (3 &&& 1 : Nat) ≠ 0 := by decide
  have k2 : (3 &&& 2 : Nat) ≠ 0 := by decide
  have k3 : (2 &&& 1 : Nat) = 0 := by decide
  have k4 : (2 &&& 2 : Nat) ≠ 0 := by decide
  rcases sel with _ | _ | r
  · simp only [sio2_channel_timer, check_chario, Nat.reduceMod, if_true, Nat.zero_and,
      ne_eq, not_true_eq_false, if_false, ite_self]
  · simp only [sio2_channel_timer, check_chario, Nat.reduceMod, if_true]
  · cases r
    · simp only [sio2_channel_timer, tx_refill, check_chario, sio2_input, Nat.reduceMod,
        if_true, if_false, Nat.reduceOr, k3, k4, ne_eq, not_false_eq_true, one_ne_zero,
        not_true_eq_false, Bool.false_eq_true, Nat.zero_or]
      split_ifs <;> rfl
    · simp only [sio2_channel_timer, tx_refill, check_chario, sio2_input, Nat.reduceMod,
        if_true, Nat.reduceOr, k1, k2, ne_eq, not_false_eq_true, one_ne_zero]
      split_ifs <;> rfl

/-- One timer tick of the pair, by what `select` reported. -/
theorem sio2_timer_eq (s : Machine) (sel : Select) (rd : Option Nat) :
    sio2_timer s sel rd =
      match sel with
      | Select.eintr => some (tx_refill s Chan.B)
      | Select.failed => none
      | Select.ok true =>
        some (tx_refill (tx_refill (sio2_queue s Chan.A (next_char rd)) Chan.A) Chan.B)
      | Select.ok false => some (tx_refill (tx_refill s Chan.A) Chan.B) := by
  unfold sio2_timer
  rw [channel_timer_A]
  rcases sel with _ | _ | r
  · simp only [channel_timer_B]
  · rfl
  · cases r <;> simp only [channel_timer_B]

/-! ### What each SIO operation does to the FIFO pointer, the overrun bit and the
interrupt-entry log -/

theorem read_control_frame (s : Machine) (c : Chan) :
    (sio2_read_control s c).2.sioA.dptr = s.sioA.dptr ∧
    (sio2_read_control s c).2.sioB.dptr = s.sioB.dptr ∧
    (sio2_read_control s c).2.sioA.rr 1 = s.sioA.rr 1 ∧
    (sio2_read_control s c).2.sioB.rr 1 = s.sioB.rr 1 ∧
    (sio2_read_control s c).2.sioA.intbits = s.sioA.intbits ∧
    (sio2_read_control s c).2.sioB.intbits = s.sioB.intbits ∧
    (sio2_read_control s c).2.z80int = s.z80int ∧
    (sio2_read_control s c).2.live_irq = s.live_irq := by
  cases c <;> simp only [sio2_read_control] <;>
    split_ifs <;> simp [upd]

theorem read_data_frame (s : Machine) (c : Chan) :
    (sio2_read_data s c).2.sioA.dptr ≤ s.sioA.dptr ∧
    (sio2_read_data s c).2.sioB.dptr ≤ s.sioB.dptr ∧
    (sio2_read_data s c).2.sioA.rr 1 &&& 0x20 = s.sioA.rr 1 &&& 0x20 ∧
    (sio2_read_data s c).2.sioB.rr 1 &&& 0x20 = s.sioB.rr 1 &&& 0x20 ∧
    (sio2_read_data s c).2.z80int = s.z80int ∧
    (sio2_read_data s c).2.live_irq = s.live_irq := by
  cases c <;> simp only [sio2_read_data] <;>
    split_ifs <;>
    simp [upd, raise_int_frame, clear_int_frame, b5_or_02, b5_and_FD, b5_and_3F] <;>
    split_ifs <;> omega

theorem write_data_frame (s : Machine) (c : Chan) (val : Nat) :
    (sio2_write_data s c val).sioA.dptr = s.sioA.dptr ∧
    (sio2_write_data s c val).sioB.dptr = s.sioB.dptr ∧
    (sio2_write_data s c val).sioA.rr 1 &&& 0x20 = s.sioA.rr 1 &&& 0x20 ∧
    (sio2_write_data s c val).sioB.rr 1 &&& 0x20 = s.sioB.rr 1 &&& 0x20 ∧
    (sio2_write_data s c val).z80int = s.z80int ∧
    (sio2_write_data s c val).live_irq = s.live_irq := by
  cases c <;> simp only [sio2_write_data] <;>
    simp [upd, clear_int_frame]

/-- The command field of WR0 takes one of its eight values or none of them. -/
theorem cmd_cases (cmd : Nat) :
    cmd = 0o00 ∨ cmd = 0o10 ∨ cmd = 0o20 ∨ cmd = 0o30 ∨ cmd = 0o40 ∨ cmd = 0o50 ∨ cmd = 0o60 ∨
      cmd = 0o70 ∨
      (cmd ≠ 0o00 ∧ cmd ≠ 0o10 ∧ cmd ≠ 0o20 ∧ cmd ≠ 0o30 ∧ cmd ≠ 0o40 ∧ cmd ≠ 0o50 ∧
        cmd ≠ 0o60 ∧ cmd ≠ 0o70) := by
  omega

theorem wr0_command_frame (s : Machine) (c : Chan) (val : Nat) :
    (sio2_wr0_command s c val).sioA.dptr = s.sioA.dptr ∧
    (sio2_wr0_command s c val).sioB.dptr = s.sioB.dptr ∧
    (sio2_wr0_command s c val).z80int = s.z80int ∧
    (sio2_wr0_command s c val).live_irq = s.live_irq := by
  simp only [sio2_wr0_command, sio2_channel_reset]
  generalize val &&& 0o70 = cmd
  rcases cmd_cases cmd with h | h | h | h | h | h | h | h | ⟨h0, h1, h2, h3, h4, h5, h6, h7⟩
  on_goal 9 => simp only [h0, h1, h2, h3, h4, h5, h6, h7, if_false, and_self]
  all_goals
    subst h
    cases c <;> simp [clear_int_frame]

theorem write_control_frame (s : Machine) (c : Chan) (val : Nat) :
    (sio2_write_control s c val).sioA.dptr = s.sioA.dptr ∧
    (sio2_write_control s c val).sioB.dptr = s.sioB.dptr ∧
    (sio2_write_control s c val).z80int = s.z80int ∧
    (sio2_write_control s c val).live_irq = s.live_irq := by
  cases c <;> simp only [sio2_write_control] <;>
    split_ifs <;> simp [upd, wr0_command_frame]

theorem queue_frame (s : Machine) (c : Chan) (b : Nat) :
    (sio2_queue s c b).sioA.wr = s.sioA.wr ∧
    (sio2_queue s c b).sioB.wr = s.sioB.wr ∧
    (sio2_queue s c b).z80int = s.z80int ∧
    (sio2_queue s c b).live_irq = s.live_irq := by
  cases c <;> simp only [sio2_queue] <;> split_ifs <;> simp [raise_int_frame]

/-- An enqueue keeps each FIFO pointer within `0..2`. -/
theorem queue_dptr (s : Machine) (c : Chan) (b : Nat) :
    (s.sioA.dptr ≤ 2 → (sio2_queue s c b).sioA.dptr ≤ 2) ∧
    (s.sioB.dptr ≤ 2 → (sio2_queue s c b).sioB.dptr ≤ 2) := by
  cases c <;> simp only [sio2_queue] <;> split_ifs <;> simp_all [raise_int_frame] <;> omega

/-- An enqueue sets the overrun bit of its channel exactly when it overruns, and leaves
the overrun bits otherwise as they were. -/
theorem queue_overrun (s : Machine) (c c1 : Chan) (b : Nat) :
    ((sio2_queue s c b).chan c1).rr 1 &&& 0x20 ≠ 0 ↔
      ((c = c1 ∧ queue_overruns s c = true) ∨ (s.chan c1).rr 1 &&& 0x20 ≠ 0) := by
  cases c <;> cases c1 <;> simp only [sio2_queue, queue_overruns] <;> split_ifs <;>
    simp_all [upd, raise_int_frame, b5_or_20]

/-- WR0 commands 2, 3 and 6 clear the overrun bit of their channel; every other command
leaves the overrun bits of both channels as they were. -/
theorem wr0_command_overrun (s : Machine) (c c1 : Chan) (val : Nat) :
    ((sio2_wr0_command s c val).chan c1).rr 1 &&& 0x20 =
      if c = c1 ∧ (val &&& 0o70 = 0o20 ∨ val &&& 0o70 = 0o30 ∨ val &&& 0o70 = 0o60) then 0
      else (s.chan c1).rr 1 &&& 0x20 := by
  simp only [sio2_wr0_command, sio2_channel_reset]
  generalize val &&& 0o70 = cmd
  rcases cmd_cases cmd with h | h | h | h | h | h | h | h | ⟨h0, h1, h2, h3, h4, h5, h6, h7⟩
  on_goal 9 => simp only [h0, h1, h2, h3, h4, h5, h6, h7, if_false, or_self, and_false]
  all_goals
    subst h
    cases c <;> cases c1 <;>
      simp [upd, clear_int_frame, b5_and_CF, b5_and_8F, b5_and_FD, b5_one]

/-- A control write clears the overrun bit of its channel when it is WR0 command 2, 3
or 6 (register pointer 0), and otherwise leaves the overrun bits as they were. -/
theorem write_control_overrun (s : Machine) (c c1 : Chan) (val : Nat) :
    ((sio2_write_control s c val).chan c1).rr 1 &&& 0x20 =
      if c = c1 ∧ (s.chan c).wr 0 &&& 7 = 0 ∧
          (val &&& 0o70 = 0o20 ∨ val &&& 0o70 = 0o30 ∨ val &&& 0o70 = 0o60) then 0
      else (s.chan c1).rr 1 &&& 0x20 := by
  by_cases h0 : (s.chan c).wr 0 &&& 7 = 0
  · simp only [sio2_write_control, h0, if_true, wr0_command_overrun, true_and]
    cases c <;> cases c1 <;> simp
  · simp only [sio2_write_control, h0, if_false, false_and, and_false]
    cases c <;> cases c1 <;> simp only [chan_A, chan_B, modChan_A_sioA, modChan_A_sioB,
      modChan_B_sioA, modChan_B_sioB] <;> split_ifs <;> simp [upd]

/-! ### Steps and runs -/

/-- No SIO operation calls the CPU's interrupt entry or changes `live_irq`. -/
theorem sio_step_keeps_z80int (s s1 : Machine) (op : SioOp) (h : sio_step s op = some s1) :
    s1.z80int = s.z80int ∧ s1.live_irq = s.live_irq := by
  cases op with
  | read addr =>
    simp only [sio_step, Option.some.injEq] at h
    subst h
    simp only [sio2_read]
    split_ifs
    · exact ⟨(read_control_frame s _).2.2.2.2.2.2.1, (read_control_frame s _).2.2.2.2.2.2.2⟩
    · exact ⟨(read_data_frame s _).2.2.2.2.1, (read_data_frame s _).2.2.2.2.2⟩
  | write addr val =>
    simp only [sio_step, Option.some.injEq] at h
    subst h
    simp only [sio2_write]
    split_ifs
    · exact ⟨(write_control_frame s _ _).2.2.1, (write_control_frame s _ _).2.2.2⟩
    · exact ⟨(write_data_frame s _ _).2.2.2.2.1, (write_data_frame s _ _).2.2.2.2.2⟩
  | queue c byte =>
    simp only [sio_step, Option.some.injEq] at h
    subst h
    exact ⟨(queue_frame s c byte).2.2.1, (queue_frame s c byte).2.2.2⟩
  | timer sel rd =>
    simp only [sio_step, sio2_timer_eq] at h
    rcases sel with _ | _ | r
    · simp only [Option.some.injEq] at h
      subst h
      simp [tx_refill_frame]
    · simp at h
    · cases r <;> simp only [Option.some.injEq] at h <;> subst h <;>
        simp [tx_refill_frame, queue_frame]

/-- Every SIO operation keeps both FIFO pointers within `0..2`. -/
theorem sio_step_dptr (s s1 : Machine) (op : SioOp) (h : sio_step s op = some s1)
    (hA : s.sioA.dptr ≤ 2) (hB : s.sioB.dptr ≤ 2) : s1.sioA.dptr ≤ 2 ∧ s1.sioB.dptr ≤ 2 := by
  cases op with
  | read addr =>
    simp only [sio_step, Option.some.injEq] at h
    subst h
    simp only [sio2_read]
    split_ifs
    · rw [(read_control_frame s _).1, (read_control_frame s _).2.1]
      exact ⟨hA, hB⟩
    · exact ⟨le_trans (read_data_frame s _).1 hA, le_trans (read_data_frame s _).2.1 hB⟩
  | write addr val =>
    simp only [sio_step, Option.some.injEq] at h
    subst h
    simp only [sio2_write]
    split_ifs
    · rw [(write_control_frame s _ _).1, (write_control_frame s _ _).2.1]
      exact ⟨hA, hB⟩
    · rw [(write_data_frame s _ _).1, (write_data_frame s _ _).2.1]
      exact ⟨hA, hB⟩
  | queue c byte =>
    simp only [sio_step, Option.some.injEq] at h
    subst h
    exact ⟨(queue_dptr s c byte).1 hA, (queue_dptr s c byte).2 hB⟩
  | timer sel rd =>
    simp only [sio_step, sio2_timer_eq] at h
    rcases sel with _ | _ | r
    · simp only [Option.some.injEq] at h
      subst h
      simpa [tx_refill_frame] using ⟨hA, hB⟩
    · simp at h
    · cases r <;> simp only [Option.some.injEq] at h <;> subst h <;>
        simp only [tx_refill_frame]
      · exact ⟨hA, hB⟩
      · exact ⟨(queue_dptr s _ _).1 hA, (queue_dptr s _ _).2 hB⟩

/-- At power-on both FIFO pointers are 0. -/
theorem power_on_dptr (rom : Nat → Nat) :
    (power_on rom).sioA.dptr = 0 ∧ (power_on rom).sioB.dptr = 0 := by
  simp [power_on, sio_reset, sio2_channel_reset, clear_int_frame, zeroed, chan_zero]

theorem sio_run_dptr (ops : List SioOp) :
    ∀ s s1 : Machine, sio_run s ops = some s1 → s.sioA.dptr ≤ 2 → s.sioB.dptr ≤ 2 →
      s1.sioA.dptr ≤ 2 ∧ s1.sioB.dptr ≤ 2 := by
  induction ops with
  | nil =>
    intro s s1 h hA hB
    simp only [sio_run, Option.some.injEq] at h
    subst h
    exact ⟨hA, hB⟩
  | cons op ops ih =>
    intro s s1 h hA hB
    simp only [sio_run] at h
    cases hstep : sio_step s op with
    | none => simp [hstep] at h
    | some s2 =>
      simp only [hstep] at h
      have h2 := sio_step_dptr s s2 op hstep hA hB
      exact ih s2 s1 h h2.1 h2.2

/-- In every state reachable from power-on through SIO operations the FIFO pointers
stay within `0..2`, so `data[dptr]` is always inside `data[3]`. -/
theorem dptr_le_two_of_run (rom : Nat → Nat) (ops : List SioOp) (s : Machine)
    (h : sio_run (power_on rom) ops = some s) : s.sioA.dptr ≤ 2 ∧ s.sioB.dptr ≤ 2 := by
  have h0 := power_on_dptr rom
  exact sio_run_dptr ops _ s h (by omega) (by omega)

/-! ### The overrun bit along a run -/

theorem tx_refill_overrun (s : Machine) (c c1 : Chan) :
    ((tx_refill s c).chan c1).rr 1 &&& 0x20 = (s.chan c1).rr 1 &&& 0x20 := by
  cases c1 <;> simp [tx_refill_frame]

theorem read_overrun (s : Machine) (addr : Nat) (c1 : Chan) :
    ((sio2_read s addr).2.chan c1).rr 1 &&& 0x20 = (s.chan c1).rr 1 &&& 0x20 := by
  simp only [sio2_read]
  split_ifs
  · cases c1 <;> simp [read_control_frame]
  · cases c1 <;> simp [read_data_frame]

/-- One step of the overrun history agrees with the overrun bit of RR1. -/
theorem sio_step_overrun (s s1 : Machine) (op : SioOp) (c : Chan) (flag : Bool)
    (h : sio_step s op = some s1) (hf : flag = true ↔ (s.chan c).rr 1 &&& 0x20 ≠ 0) :
    next_flag [2, 3, 6] c s flag op = true ↔ (s1.chan c).rr 1 &&& 0x20 ≠ 0 := by
  cases op with
  | read addr =>
    simp only [sio_step, Option.some.injEq] at h
    subst h
    rw [read_overrun]
    simpa [next_flag, is_overrun, is_command] using hf
  | write addr val =>
    simp only [sio_step, Option.some.injEq] at h
    subst h
    simp only [sio2_write]
    by_cases h1 : addr % 65536 &&& 1 = 0
    · simp only [h1, if_true, write_control_overrun]
      by_cases hc : chan_of (addr % 65536) = c
      · subst hc
        by_cases hk : (s.chan (chan_of (addr % 65536))).wr 0 &&& 7 = 0 ∧
            (val % 256 &&& 0o70 = 0o20 ∨ val % 256 &&& 0o70 = 0o30 ∨ val % 256 &&& 0o70 = 0o60)
        · simp [next_flag, is_overrun, is_command, h1, hk]
        · simp only [true_and, hk, if_false]
          rw [← hf]
          simp only [not_and_or, not_or] at hk
          rcases hk with hk | hk
          · simp [next_flag, is_overrun, is_command, h1, hk]
          · simp [next_flag, is_overrun, is_command, h1, hk]
      · simp only [hc, false_and, if_false]
        rw [← hf]
        simp [next_flag, is_overrun, is_command, hc]
    · simp only [h1, if_false]
      have : ((sio2_write_data s (chan_of (addr % 65536)) (val % 256)).chan c).rr 1 &&& 0x20 =
          (s.chan c).rr 1 &&& 0x20 := by
        cases c <;> simp [write_data_frame]
      have h1b : addr % 65536 % 2 = 1 := by simpa using h1
      rw [this, ← hf]
      simp [next_flag, is_overrun, is_command, h1b]
  | queue c1 byte =>
    simp only [sio_step, Option.some.injEq] at h
    subst h
    rw [queue_overrun, ← hf]
    by_cases hq : c1 = c ∧ queue_overruns s c1 = true
    · simp [next_flag, is_overrun, is_command, hq]
    · simp only [hq, false_or]
      simp only [not_and_or] at hq
      rcases hq with hq | hq
      · simp [next_flag, is_overrun, is_command, hq]
      · simp [next_flag, is_overrun, is_command, hq]
  | timer sel rd =>
    simp only [sio_step, sio2_timer_eq] at h
    rcases sel with _ | _ | r
    · simp only [Option.some.injEq] at h
      subst h
      rw [tx_refill_overrun, ← hf]
      simp [next_flag, is_overrun, is_command]
    · simp at h
    · cases r
      · simp only [Option.some.injEq] at h
        subst h
        rw [tx_refill_overrun, tx_refill_overrun, ← hf]
        simp [next_flag, is_overrun, is_command]
      · simp only [Option.some.injEq] at h
        subst h
        rw [tx_refill_overrun, tx_refill_overrun, queue_overrun, ← hf]
        by_cases hq : Chan.A = c ∧ queue_overruns s Chan.A = true
        · simp [next_flag, is_overrun, is_command, hq]
        · simp only [hq, false_or]
          simp only [not_and_or] at hq
          rcases hq with hq | hq
          · simp [next_flag, is_overrun, is_command, hq]
          · simp [next_flag, is_overrun, is_command, hq]



theorem sio_run_overrun (c : Chan) (ops : List SioOp) :
    ∀ (s s1 : Machine) (flag : Bool), sio_run s ops = some s1 →
      (flag = true ↔ (s.chan c).rr 1 &&& 0x20 ≠ 0) →
      (overrun_pending [2, 3, 6] c s flag ops = true ↔ (s1.chan c).rr 1 &&& 0x20 ≠ 0) := by
  induction ops with
  | nil =>
    intro s s1 flag h hf
    simp only [sio_run, Option.some.injEq] at h
    subst h
    simpa [overrun_pending] using hf
  | cons op ops ih =>
    intro s s1 flag h hf
    simp only [sio_run] at h
    cases hstep : sio_step s op with
    | none => simp [hstep] at h
    | some s2 =>
      simp only [hstep] at h
      simp only [overrun_pending, hstep]
      exact ih s2 s1 _ h (sio_step_overrun s s2 op c flag hstep hf)

/-- At power-on the overrun bit of each channel is clear. -/
theorem power_on_overrun (rom : Nat → Nat) (c : Chan) :
    ((power_on rom).chan c).rr 1 &&& 0x20 = 0 := by
  cases c <;>
    simp [power_on, sio_reset, sio2_channel_reset, clear_int_frame, zeroed, chan_zero, upd,
      b5_one]

/-- C7: WR0 command 2 (reset external/status interrupts) runs
`chan->rr[1] &= 0xCF; /* Clear status bits on rr0 */`: the mask is applied to RR1 where
the comment names RR0, so the command clears RR1 bit 5.  After a receive overrun on
channel A followed by command 2 the bit is clear although neither a channel reset (3)
nor a reset of the error latches (6) was issued since the overrun.  What the code keeps
instead: in every state reached from power-on through `sio2_read`, `sio2_write`,
`sio2_queue` and timer ticks, RR1 bit 5 of a channel is set if and only if a receive
overrun has occurred on it since the most recent WR0 command 2, 3 or 6 on it. -/
theorem c7_command_2_clears_overrun :
    ((sio_run (power_on rom0) ops_overrun_then_cmd2).map
        (fun s => decide ((s.chan Chan.A).rr 1 &&& 0x20 ≠ 0)) = some false ∧
      overrun_pending [3, 6] Chan.A (power_on rom0) false ops_overrun_then_cmd2 = true) ∧
    (∀ (rom : Nat → Nat) (ops : List SioOp) (s : Machine) (c : Chan),
      sio_run (power_on rom) ops = some s →
        ((s.chan c).rr 1 &&& 0x20 ≠ 0 ↔
          overrun_pending [2, 3, 6] c (power_on rom) false ops = true)) := by
  refine ⟨by decide, fun rom ops s c h => ?_⟩
  have h0 : (false = true ↔ ((power_on rom).chan c).rr 1 &&& 0x20 ≠ 0) := by
    simp [power_on_overrun]
  exact (sio_run_overrun c ops (power_on rom) s false h h0).symm

/-! ### RR0 bit 0 and the FIFO pointer -/

theorem b0_or_04 (x : Nat) : (x ||| 4) &&& 1 = x &&& 1 := or_and_disjoint x 4 1 (by decide)

theorem b0_or_02 (x : Nat) : (x ||| 2) &&& 1 = x &&& 1 := or_and_disjoint x 2 1 (by decide)

theorem b0_and_FD (x : Nat) : (x &&& 253) &&& 1 = x &&& 1 := and_and_lit x 253 1 1 (by decide)

theorem b0_and_FB (x : Nat) : (x &&& 251) &&& 1 = x &&& 1 := and_and_lit x 251 1 1 (by decide)

theorem b0_and_3F (x : Nat) : (x &&& 63) &&& 1 = x &&& 1 := and_and_lit x 63 1 1 (by decide)

theorem b0_and_FE (x : Nat) : (x &&& 254) &&& 1 = 0 := by
  rw [and_and_lit x 254 1 0 (by decide), Nat.and_zero]

theorem b0_reset : (44 &&& 1 : Nat) = 0 := by decide

theorem raise_int_rx (s : Machine) (c c1 : Chan) (m : Nat) :
    ((sio2_raise_int s c m).chan c1).rr 0 = (s.chan c1).rr 0 ∧
    ((sio2_raise_int s c m).chan c1).dptr = (s.chan c1).dptr := by
  cases c1 <;> simp [raise_int_frame]

theorem clear_int_rx (s : Machine) (c c1 : Chan) (m : Nat) :
    ((sio2_clear_int s c m).chan c1).rr 0 = (s.chan c1).rr 0 ∧
    ((sio2_clear_int s c m).chan c1).dptr = (s.chan c1).dptr := by
  cases c1 <;> simp [clear_int_frame]

theorem tx_refill_rx (s : Machine) (c c1 : Chan) :
    ((tx_refill s c).chan c1).rr 0 &&& 1 = (s.chan c1).rr 0 &&& 1 ∧
    ((tx_refill s c).chan c1).dptr = (s.chan c1).dptr := by
  cases c <;> cases c1 <;> simp only [tx_refill] <;> split_ifs <;>
    simp [upd, raise_int_frame, b0_or_04, -Nat.and_one_is_mod]

theorem queue_rx (s : Machine) (c c1 : Chan) (b : Nat) (hd : (s.chan c1).dptr ≤ 2)
    (h : rx_bit_sound (s.chan c1)) : rx_bit_sound ((sio2_queue s c b).chan c1) := by
  unfold rx_bit_sound at h ⊢
  cases c <;> cases c1 <;> simp only [chan_A, chan_B] at hd h <;> simp only [sio2_queue] <;>
    split_ifs <;>
    simp_all [upd, raise_int_frame, -Nat.and_one_is_mod] <;> omega

theorem read_control_rx (s : Machine) (c c1 : Chan) (h : rx_bit_sound (s.chan c1)) :
    rx_bit_sound ((sio2_read_control s c).2.chan c1) := by
  unfold rx_bit_sound at h ⊢
  cases c <;> cases c1 <;> simp only [sio2_read_control] <;> split_ifs <;>
    simpa [upd, b0_and_FD, b0_or_02, -Nat.and_one_is_mod] using h

theorem read_data_rx (s : Machine) (c c1 : Chan) (h : rx_bit_sound (s.chan c1)) :
    rx_bit_sound ((sio2_read_data s c).2.chan c1) := by
  unfold rx_bit_sound at h ⊢
  cases c <;> cases c1 <;> simp only [chan_A, chan_B] at h <;> simp only [sio2_read_data] <;>
    split_ifs <;>
    simp_all [upd, raise_int_frame, clear_int_frame, b0_and_3F, b0_and_FE,
      -Nat.and_one_is_mod] <;> omega

theorem write_data_rx (s : Machine) (c c1 : Chan) (val : Nat) (h : rx_bit_sound (s.chan c1)) :
    rx_bit_sound ((sio2_write_data s c val).chan c1) := by
  unfold rx_bit_sound at h ⊢
  cases c <;> cases c1 <;> simp only [sio2_write_data] <;>
    simpa [upd, clear_int_frame, b0_and_FB, -Nat.and_one_is_mod] using h

theorem wr0_command_rx (s : Machine) (c c1 : Chan) (val : Nat) (h : rx_bit_sound (s.chan c1)) :
    rx_bit_sound ((sio2_wr0_command s c val).chan c1) := by
  unfold rx_bit_sound at h ⊢
  simp only [sio2_wr0_command, sio2_channel_reset]
  generalize val &&& 0o70 = cmd
  rcases cmd_cases cmd with h1 | h1 | h1 | h1 | h1 | h1 | h1 | h1 | ⟨h0, h1, h2, h3, h4, h5, h6, h7⟩
  on_goal 9 => simpa only [h0, h1, h2, h3, h4, h5, h6, h7, if_false] using h
  all_goals
    subst h1
    cases c <;> cases c1 <;>
      simp_all [upd, clear_int_frame, b0_reset, -Nat.and_one_is_mod]

theorem write_control_rx (s : Machine) (c c1 : Chan) (val : Nat)
    (h : rx_bit_sound (s.chan c1)) : rx_bit_sound ((sio2_write_control s c val).chan c1) := by
  simp only [sio2_write_control]
  by_cases h0 : (s.chan c).wr 0 &&& 7 = 0
  · simp only [h0, if_true]
    apply wr0_command_rx
    unfold rx_bit_sound at h ⊢
    cases c <;> cases c1 <;> simpa using h
  · simp only [h0, if_false]
    unfold rx_bit_sound at h ⊢
    cases c <;> cases c1 <;> simp only [chan_A, chan_B, modChan_A_sioA, modChan_A_sioB,
      modChan_B_sioA, modChan_B_sioB] at h ⊢ <;> first | exact h | (split_ifs <;> simpa [upd] using h)

theorem tx_refill_rx_sound (s : Machine) (c c1 : Chan) (h : rx_bit_sound (s.chan c1)) :
    rx_bit_sound ((tx_refill s c).chan c1) := by
  unfold rx_bit_sound at h ⊢
  rw [(tx_refill_rx s c c1).1, (tx_refill_rx s c c1).2]
  exact h

/-- Every SIO operation keeps "RR0 bit 0 set implies `dptr > 0`" on both channels. -/
theorem sio_step_rx (s s1 : Machine) (op : SioOp) (c1 : Chan) (hstep : sio_step s op = some s1)
    (hd : (s.chan c1).dptr ≤ 2) (h : rx_bit_sound (s.chan c1)) : rx_bit_sound (s1.chan c1) := by
  cases op with
  | read addr =>
    simp only [sio_step, Option.some.injEq] at hstep
    subst hstep
    simp only [sio2_read]
    split_ifs
    · exact read_control_rx s _ c1 h
    · exact read_data_rx s _ c1 h
  | write addr val =>
    simp only [sio_step, Option.some.injEq] at hstep
    subst hstep
    simp only [sio2_write]
    split_ifs
    · exact write_control_rx s _ c1 _ h
    · exact write_data_rx s _ c1 _ h
  | queue c byte =>
    simp only [sio_step, Option.some.injEq] at hstep
    subst hstep
    exact queue_rx s c c1 byte hd h
  | timer sel rd =>
    simp only [sio_step, sio2_timer_eq] at hstep
    rcases sel with _ | _ | r
    · simp only [Option.some.injEq] at hstep
      subst hstep
      exact tx_refill_rx_sound _ _ _ h
    · simp at hstep
    · cases r <;> simp only [Option.some.injEq] at hstep <;> subst hstep
      · exact tx_refill_rx_sound _ _ _ (tx_refill_rx_sound _ _ _ h)
      · exact tx_refill_rx_sound _ _ _ (tx_refill_rx_sound _ _ _ (queue_rx s _ c1 _ hd h))

theorem sio_run_rx (c1 : Chan) (ops : List SioOp) :
    ∀ s s1 : Machine, sio_run s ops = some s1 → s.sioA.dptr ≤ 2 → s.sioB.dptr ≤ 2 →
      rx_bit_sound (s.chan c1) → rx_bit_sound (s1.chan c1) := by
  induction ops with
  | nil =>
    intro s s1 h _ _ hs
    simp only [sio_run, Option.some.injEq] at h
    subst h
    exact hs
  | cons op ops ih =>
    intro s s1 h hA hB hs
    simp only [sio_run] at h
    cases hstep : sio_step s op with
    | none => simp [hstep] at h
    | some s2 =>
      simp only [hstep] at h
      have h2 := sio_step_dptr s s2 op hstep hA hB
      have hd : (s.chan c1).dptr ≤ 2 := by cases c1 <;> assumption
      exact ih s2 s1 h h2.1 h2.2 (sio_step_rx s s2 op c1 hstep hd hs)

/-- The half of the RR0 bit 0 invariant that the code does keep: in every state
reachable from power-on through SIO operations, RR0 bit 0 set implies `dptr > 0`. -/
theorem rx_bit_implies_nonempty_of_run (rom : Nat → Nat) (ops : List SioOp) (s : Machine)
    (c : Chan) (h : sio_run (power_on rom) ops = some s) :
    (s.chan c).rr 0 &&& 1 ≠ 0 → 0 < (s.chan c).dptr := by
  have h0 := power_on_dptr rom
  refine sio_run_rx c ops _ s h (by omega) (by omega) ?_
  unfold rx_bit_sound
  cases c <;>
    simp [power_on, sio_reset, sio2_channel_reset, clear_int_frame, zeroed, chan_zero, upd,
      b0_reset, -Nat.and_one_is_mod]

/-! ### Interrupt delivery -/

/-- While channel A's IRQ flag is up, raising an interrupt on channel B latches the bit
but asserts no IRQ flag and requests no recalculation. -/
theorem raise_int_B_while_A_pending (s : Machine) (m : Nat) (hirq : s.sioA.irq ≠ 0) :
    (sio2_raise_int s Chan.B m).sioB.irq = s.sioB.irq ∧
    (sio2_raise_int s Chan.B m).sioA.irq = s.sioA.irq ∧
    (sio2_raise_int s Chan.B m).int_recalc = s.int_recalc := by
  simp only [sio2_raise_int, modChan_B_sioA, hirq, if_false, ite_self, modChan_B_sioB,
    modChan_int_recalc, and_self]

/-- C5, as stated, fails: after the interrupt for SIO-A has been handed to `Z80INT` and
SIO-A recorded as live, the next main-loop poll hands it to `Z80INT` a second time,
with no memory read (hence no RETI) in between. -/
theorem c5_second_entry_call_before_reti :
    st_live.live_irq = IRQ_SIOA ∧ st_live.z80int = [0] ∧
      (main_poll st_live 0 0).z80int = [0, 0] := by
  decide

/-- C5 (amended): in the Z80 profile no SIO operation (read, write, receive enqueue,
timer tick) calls the CPU interrupt entry or changes the live source, and while channel
A's IRQ flag is asserted a receive event on channel B asserts no IRQ flag and requests
no recalculation; but the main-loop poll is not gated by the live source: whenever
`int_recalc` is set and channel A's IRQ flag is asserted it calls the interrupt entry
once more and records SIO-A as live, whether or not a source is live and a RETI has
been seen. -/
theorem c5_poll_not_gated_by_live (s s1 : Machine) (op : SioOp) (b iff1 iff2 : Nat)
    (hirq : s.sioA.irq ≠ 0) (hre : s.int_recalc ≠ 0) (hstep : sio_step s op = some s1) :
    (s1.z80int = s.z80int ∧ s1.live_irq = s.live_irq) ∧
      ((sio2_queue s Chan.B b).sioB.irq = s.sioB.irq ∧
        (sio2_queue s Chan.B b).int_recalc = s.int_recalc) ∧
      ((main_poll s iff1 iff2).z80int = s.z80int ++ [sio2_vector s Chan.A] ∧
        (main_poll s iff1 iff2).live_irq = IRQ_SIOA) := by
  refine ⟨sio_step_keeps_z80int s s1 op hstep, ⟨?_, ?_⟩, ⟨?_, ?_⟩⟩
  · simp only [sio2_queue]
    split_ifs <;> first | rfl | simp [(raise_int_B_while_A_pending _ _ _).1, hirq]
  · simp only [sio2_queue]
    split_ifs <;> first | rfl | simp [(raise_int_B_while_A_pending _ _ _).2.2, hirq]
  · simp only [main_poll, hre, has_im2, poll_irq_event, sio2_check_im2, chan_A, hirq, Z80INT]
    split_ifs <;> simp at *
  · simp only [main_poll, hre, has_im2, poll_irq_event, sio2_check_im2, chan_A, hirq, Z80INT]
    split_ifs <;> simp at *

/-- C5 at a concrete state: SIO-A delivered and live, then a receive event on channel B
and a main-loop poll. -/
theorem c5_poll_not_gated_by_live_witness :
    (st_live.sioA.irq ≠ 0 ∧ st_live.int_recalc ≠ 0 ∧
      sio_step st_live (SioOp.queue Chan.B 0x42) = some (sio2_queue st_live Chan.B 0x42)) ∧
    ((sio2_queue st_live Chan.B 0x42).z80int = st_live.z80int ∧
      (sio2_queue st_live Chan.B 0x42).live_irq = st_live.live_irq) ∧
    ((sio2_queue st_live Chan.B 0x42).sioB.irq = st_live.sioB.irq ∧
      (sio2_queue st_live Chan.B 0x42).int_recalc = st_live.int_recalc) ∧
    ((main_poll st_live 0 0).z80int = st_live.z80int ++ [sio2_vector st_live Chan.A] ∧
      (main_poll st_live 0 0).live_irq = IRQ_SIOA) :=
  ⟨⟨by decide, by decide, rfl⟩,
   c5_poll_not_gated_by_live st_live (sio2_queue st_live Chan.B 0x42)
     (SioOp.queue Chan.B 0x42) 0x42 0 0 (by decide) (by decide) rfl⟩

/-! ### Status bits and the receive FIFO -/

/-- C6 (the code at the failing input): after one byte has been received on channel A, a
channel reset (WR0 command 3) stores `0x2C` in RR0 but leaves `dptr` at 1, so RR0 bit 0
is clear while the FIFO pointer is greater than 0.  The other half of the invariant is
kept (`rx_bit_implies_nonempty_of_run`). -/
theorem c6_channel_reset_keeps_fifo_pointer :
    (sio_run (power_on rom0) ops_receive_then_reset).map
        (fun s => (decide (s.sioA.rr 0 &&& 1 ≠ 0), decide (0 < s.sioA.dptr))) =
      some (false, true) := by
  decide

/-- C8, as stated, fails: after a byte has been received on channel A with receive
interrupts enabled, channel A's interrupt latch is nonzero while bit 1 of its stored
RR0 is still clear. -/
theorem c8_pending_bit_lags_latch :
    (sio_run (power_on rom0) ops_receive_with_int).map
        (fun s => (decide (s.sioA.rr 0 &&& 2 ≠ 0),
          decide (s.sioA.intbits ≠ 0 ∨ s.sioB.intbits ≠ 0))) =
      some (false, true) := by
  decide

theorem b1_refresh_set (x : Nat) : ((x &&& 253) ||| 2) &&& 2 ≠ 0 :=
  or_and_self_ne_zero _ 2 (by decide)

theorem b1_refresh_clear (x : Nat) : (x &&& 253) &&& 2 = 0 := by
  rw [and_and_lit x 253 2 0 (by decide), Nat.and_zero]

/-- C8 (amended): channel A's RR0 bit 1 is recomputed by each control read of channel A:
right after such a read the stored bit is set if and only if the interrupt-bit latch of
channel A or of channel B is nonzero, the read leaves both latches as they were, and
when the register pointer is 0 the byte returned carries the same bit.  Between control
reads the stored bit is not updated when a latch changes. -/
theorem c8_control_read_refreshes_pending (s : Machine) (addr : Nat)
    (h1 : addr % 65536 &&& 1 = 0) (h2 : addr % 65536 &&& 2 = 0) :
    ((sio2_read s addr).2.sioA.rr 0 &&& 2 ≠ 0 ↔ (s.sioA.intbits ||| s.sioB.intbits) ≠ 0) ∧
      (sio2_read s addr).2.sioA.intbits = s.sioA.intbits ∧
      (sio2_read s addr).2.sioB.intbits = s.sioB.intbits ∧
      (s.sioA.wr 0 &&& 7 = 0 →
        ((sio2_read s addr).1 &&& 2 ≠ 0 ↔ (s.sioA.intbits ||| s.sioB.intbits) ≠ 0)) := by
  have hc : chan_of (addr % 65536) = Chan.A := by simp only [chan_of, h2, ne_eq, not_true_eq_false, if_false]
  simp only [sio2_read, h1, if_true, hc, sio2_read_control, chan_A, modChan_A_sioA,
    modChan_A_sioB, true_and]
  by_cases hi : (s.sioA.intbits ||| s.sioB.intbits) = 0
  · simp only [hi, ne_eq, not_true_eq_false, if_false]
    refine ⟨?_, ?_, ?_, ?_⟩
    · split_ifs <;> simp [upd, b1_refresh_clear]
    · split_ifs <;> rfl
    · split_ifs <;> rfl
    · intro h0
      simp [h0, upd, b1_refresh_clear]
  · simp only [hi, ne_eq, not_false_eq_true, if_true]
    refine ⟨?_, ?_, ?_, ?_⟩
    · split_ifs <;> simp [upd, b1_refresh_set]
    · split_ifs <;> rfl
    · split_ifs <;> rfl
    · intro h0
      simp [h0, upd, b1_refresh_set]

/-- C8 at a concrete state: a control read of channel A with its RX interrupt latched. -/
theorem c8_control_read_refreshes_pending_witness :
    ((0 : Nat) % 65536 &&& 1 = 0 ∧ (0 : Nat) % 65536 &&& 2 = 0) ∧
    (((sio2_read st_irq_pending 0).2.sioA.rr 0 &&& 2 ≠ 0 ↔
        (st_irq_pending.sioA.intbits ||| st_irq_pending.sioB.intbits) ≠ 0) ∧
      (sio2_read st_irq_pending 0).2.sioA.intbits = st_irq_pending.sioA.intbits ∧
      (sio2_read st_irq_pending 0).2.sioB.intbits = st_irq_pending.sioB.intbits ∧
      (st_irq_pending.sioA.wr 0 &&& 7 = 0 →
        ((sio2_read st_irq_pending 0).1 &&& 2 ≠ 0 ↔
          (st_irq_pending.sioA.intbits ||| st_irq_pending.sioB.intbits) ≠ 0))) :=
  ⟨by decide, c8_control_read_refreshes_pending st_irq_pending 0 (by decide) (by decide)⟩

theorem raise_int_intbits (s : Machine) (c : Chan) (m : Nat) :
    ((sio2_raise_int s c m).chan c).intbits = (s.chan c).intbits ||| m % 256 := by
  cases c <;> simp only [sio2_raise_int] <;> split_ifs <;> simp

theorem queue_overrun_effect (s : Machine) (c : Chan) (b : Nat) (hb : b < 256)
    (h3 : (s.chan c).wr 3 &&& 1 ≠ 0) (hd : (s.chan c).dptr = 2) :
    overrun_effect (s.chan c) ((sio2_queue s c b).chan c) b := by
  have e3 : ∀ x : Nat, (x ||| 4) &&& 4 ≠ 0 := fun x => or_and_self_ne_zero x 4 (by decide)
  simp only [overrun_effect, sio2_queue, h3, hd, if_false, if_true, Nat.mod_eq_of_lt hb,
    raise_int_intbits, modChan_chan, INT_ERR, Nat.reduceMod]
  refine ⟨?_, ?_, ?_, ?_, ?_, e3 _⟩
  · cases c <;> simp [raise_int_frame, upd]
  · cases c <;> simp [raise_int_frame, upd]
  · cases c <;> simp [raise_int_frame, upd]
  · cases c <;> simp [raise_int_frame] <;> simpa using hd
  · cases c <;> simp [raise_int_frame, upd, b5_or_20]

theorem queue_overrun_effect_6502 (s : RC2014.SioPair) (c : Chan) (b : Nat) (hb : b < 256)
    (h3 : (s.chan c).wr 3 &&& 1 ≠ 0) (hd : (s.chan c).dptr = 2) :
    overrun_effect (s.chan c) ((RC2014.sio2_queue s c b).chan c) b := by
  have e3 : ∀ x : Nat, (x ||| 4) &&& 4 ≠ 0 := fun x => or_and_self_ne_zero x 4 (by decide)
  have e5 : ∀ x : Nat, (x ||| 32) &&& 32 ≠ 0 := fun x => or_and_self_ne_zero x 32 (by decide)
  cases c <;> simp only [RC2014.SioPair.chan] at h3 hd <;>
    simp only [overrun_effect, RC2014.sio2_queue, RC2014.sio2_raise_int, RC2014.SioPair.chan,
      RC2014.SioPair.modChan, h3, hd, if_false, if_true, Nat.mod_eq_of_lt hb, INT_ERR,
      Nat.reduceMod] <;>
    split_ifs <;> simp [upd, e3, e5, b5_or_02, hd]

/-- C9: when `sio2_queue` (of `kz80.c`, and likewise of `rc2014-6502.c`) is called with
byte `b` on a receive-enabled channel (WR3 bit 0 set) whose FIFO is full (`dptr == 2`),
`data[2]` becomes `b`, `data[0]`, `data[1]` and `dptr` are unchanged, RR1 bit 5 is set
and `INT_ERR` is latched in the channel's `intbits`; when WR3 bit 0 is clear the byte is
dropped and the state is unchanged. -/
theorem c9_queue_overrun_and_disabled (s : Machine) (t : RC2014.SioPair) (c : Chan) (b : Nat)
    (hb : b < 256) :
    ((s.chan c).wr 3 &&& 1 ≠ 0 → (s.chan c).dptr = 2 →
      overrun_effect (s.chan c) ((sio2_queue s c b).chan c) b) ∧
    ((s.chan c).wr 3 &&& 1 = 0 → sio2_queue s c b = s) ∧
    ((t.chan c).wr 3 &&& 1 ≠ 0 → (t.chan c).dptr = 2 →
      overrun_effect (t.chan c) ((RC2014.sio2_queue t c b).chan c) b) ∧
    ((t.chan c).wr 3 &&& 1 = 0 → RC2014.sio2_queue t c b = t) := by
  refine ⟨queue_overrun_effect s c b hb, ?_, queue_overrun_effect_6502 t c b hb, ?_⟩
  · intro h3
    simp only [sio2_queue, h3, if_true]
  · intro h3
    simp only [RC2014.sio2_queue, h3, if_true]

/-- C9 at concrete states: a full FIFO on channel A, and the power-on state, where
receive is disabled. -/
theorem c9_queue_overrun_and_disabled_witness :
    ((0x33 : Nat) < 256 ∧ (st_fifo_full.chan Chan.A).wr 3 &&& 1 ≠ 0 ∧
      (st_fifo_full.chan Chan.A).dptr = 2 ∧ ((power_on rom0).chan Chan.A).wr 3 &&& 1 = 0 ∧
      ((RC2014.pair_of st_fifo_full).chan Chan.A).wr 3 &&& 1 ≠ 0 ∧
      ((RC2014.pair_of st_fifo_full).chan Chan.A).dptr = 2 ∧
      ((RC2014.pair_of (power_on rom0)).chan Chan.A).wr 3 &&& 1 = 0) ∧
    overrun_effect (st_fifo_full.chan Chan.A)
      ((sio2_queue st_fifo_full Chan.A 0x33).chan Chan.A) 0x33 ∧
    sio2_queue (power_on rom0) Chan.A 0x33 = power_on rom0 ∧
    overrun_effect ((RC2014.pair_of st_fifo_full).chan Chan.A)
      ((RC2014.sio2_queue (RC2014.pair_of st_fifo_full) Chan.A 0x33).chan Chan.A) 0x33 ∧
    RC2014.sio2_queue (RC2014.pair_of (power_on rom0)) Chan.A 0x33 =
      RC2014.pair_of (power_on rom0) :=
  ⟨by decide,
   (c9_queue_overrun_and_disabled st_fifo_full (RC2014.pair_of st_fifo_full) Chan.A 0x33
     (by decide)).1 (by decide) (by decide),
   (c9_queue_overrun_and_disabled (power_on rom0) (RC2014.pair_of (power_on rom0)) Chan.A 0x33
     (by decide)).2.1 (by decide),
   (c9_queue_overrun_and_disabled st_fifo_full (RC2014.pair_of st_fifo_full) Chan.A 0x33
     (by decide)).2.2.1 (by decide) (by decide),
   (c9_queue_overrun_and_disabled (power_on rom0) (RC2014.pair_of (power_on rom0)) Chan.A 0x33
     (by decide)).2.2.2 (by decide)⟩

/-- What the transmit refill keeps of channel A's receive side. -/
theorem tx_refill_rx_side (s : Machine) (c : Chan) :
    (tx_refill s c).sioA.rr 0 &&& 1 = s.sioA.rr 0 &&& 1 ∧
    (tx_refill s c).sioA.intbits &&& INT_RX = s.sioA.intbits &&& INT_RX ∧
    (s.sioA.irq ≠ 0 → (tx_refill s c).sioA.irq ≠ 0) := by
  have e1 : ∀ x : Nat, (x ||| 4) &&& 1 = x &&& 1 := fun x => or_and_disjoint x 4 1 (by decide)
  have e2 : ∀ x : Nat, (x ||| 1) &&& 2 = x &&& 2 := fun x => or_and_disjoint x 1 2 (by decide)
  cases c <;> simp only [tx_refill, sio2_raise_int, INT_TX, INT_RX] <;> split_ifs <;>
    simp_all [upd, -Nat.and_one_is_mod]

/-- An enqueue on receive-enabled channel A with an empty FIFO and no latched interrupt
bits. -/
theorem queue_into_empty_A (s : Machine) (byte : Nat) (h3 : s.sioA.wr 3 &&& 1 ≠ 0)
    (hd : s.sioA.dptr = 0) (hiA : s.sioA.intbits = 0) :
    (sio2_queue s Chan.A byte).sioA.rr 0 &&& 1 ≠ 0 ∧
    (sio2_queue s Chan.A byte).sioA.data 0 = byte % 256 ∧
    (sio2_queue s Chan.A byte).sioA.dptr = 1 ∧
    (s.sioA.wr 1 &&& 0x18 = 0x10 →
      (sio2_queue s Chan.A byte).sioA.intbits &&& INT_RX ≠ 0 ∧
      (sio2_queue s Chan.A byte).sioA.irq ≠ 0) := by
  have e1 : ∀ x : Nat, (x ||| 1) &&& 1 ≠ 0 := fun x => or_and_self_ne_zero x 1 (by decide)
  have hd2 : s.sioA.dptr ≠ 2 := by omega
  refine ⟨?_, ?_, ?_, ?_⟩
  · simp only [sio2_queue, chan_A, h3, hd2, if_false, modChan_A_sioA]
    split_ifs <;> simp [raise_int_frame, upd, e1, -Nat.and_one_is_mod]
  · simp only [sio2_queue, chan_A, h3, hd2, if_false, modChan_A_sioA]
    split_ifs <;> simp [raise_int_frame, upd, hd]
  · simp only [sio2_queue, chan_A, h3, hd2, if_false, modChan_A_sioA]
    split_ifs <;> simp [raise_int_frame, hd]
  · intro hm
    simp only [sio2_queue, chan_A, h3, hd2, if_false, modChan_A_sioA, hm, OfNat.ofNat_ne_zero,
      Nat.reduceEqDiff, true_or, if_true, sio2_raise_int, INT_RX, hiA, Nat.reduceMod,
      Nat.zero_xor, Nat.and_self, ne_eq, not_false_eq_true, Nat.zero_or]
    split_ifs <;> simp_all

/-- C10, as stated, fails: `next_char` turns a line feed into a carriage return, so
when host stdin delivers `0x0A` the byte stored in `data[0]` is `0x0D`. -/
theorem c10_line_feed_becomes_carriage_return :
    (st_rx_enabled.sioA.wr 3 &&& 1 ≠ 0 ∧ st_rx_enabled.sioA.dptr = 0 ∧
      st_rx_enabled.sioA.intbits = 0 ∧ st_rx_enabled.sioB.intbits = 0) ∧
    (sio2_timer st_rx_enabled (Select.ok true) (some 0x0A)).map (fun s => s.sioA.data 0) =
      some 0x0D := by
  decide

/-- C10 (amended): for SIO channel A with receive enabled, an empty FIFO and no
interrupt bits latched on either channel, one timer tick in which host stdin is ready
and delivers byte `b` leaves RR0 bit 0 set, `dptr == 1` and `data[0] == b`, except that a
line feed `0x0A` is stored as carriage return `0x0D`; and if `WR1 & 0x18 == 0x10` it
leaves the RX interrupt bit latched and channel A's IRQ flag asserted. -/
theorem c10_tick_receives_byte (s : Machine) (b : Nat) (hb : b < 256)
    (h3 : s.sioA.wr 3 &&& 1 ≠ 0) (hd : s.sioA.dptr = 0)
    (hiA : s.sioA.intbits = 0) (_hiB : s.sioB.intbits = 0) :
    ∃ s1, sio2_timer s (Select.ok true) (some b) = some s1 ∧
      s1.sioA.rr 0 &&& 1 ≠ 0 ∧
      s1.sioA.data 0 = (if b = 0x0A then 0x0D else b) ∧
      s1.sioA.dptr = 1 ∧
      (s.sioA.wr 1 &&& 0x18 = 0x10 → s1.sioA.intbits &&& INT_RX ≠ 0 ∧ s1.sioA.irq ≠ 0) := by
  have hbyte : next_char (some b) % 256 = if b = 0x0A then 0x0D else b := by
    simp only [next_char, Nat.mod_eq_of_lt hb]
    split_ifs <;> omega
  obtain ⟨q0, qd, qp, qi⟩ := queue_into_empty_A s (next_char (some b)) h3 hd hiA
  refine ⟨_, sio2_timer_eq s (Select.ok true) (some b), ?_⟩
  simp only [(tx_refill_rx_side _ _).1, (tx_refill_rx_side _ _).2.1, tx_refill_frame]
  refine ⟨q0, by rw [qd, hbyte], qp, fun hm => ⟨(qi hm).1, ?_⟩⟩
  exact (tx_refill_rx_side _ _).2.2 ((tx_refill_rx_side _ _).2.2 (qi hm).2)

/-- C10 at a concrete state: byte `0x41` arriving with WR1 = `0x10` on channel A. -/
theorem c10_tick_receives_byte_witness :
    ((0x41 : Nat) < 256 ∧ st_rx_int.sioA.wr 3 &&& 1 ≠ 0 ∧ st_rx_int.sioA.dptr = 0 ∧
      st_rx_int.sioA.intbits = 0 ∧ st_rx_int.sioB.intbits = 0) ∧
    ∃ s1, sio2_timer st_rx_int (Select.ok true) (some 0x41) = some s1 ∧
      s1.sioA.rr 0 &&& 1 ≠ 0 ∧
      s1.sioA.data 0 = (if (0x41 : Nat) = 0x0A then 0x0D else 0x41) ∧
      s1.sioA.dptr = 1 ∧
      (st_rx_int.sioA.wr 1 &&& 0x18 = 0x10 → s1.sioA.intbits &&& INT_RX ≠ 0 ∧ s1.sioA.irq ≠ 0) :=
  ⟨by decide,
   c10_tick_receives_byte st_rx_int 0x41 (by decide) (by decide) (by decide) (by decide)
     (by decide)⟩

end KZ80

/-! ## Theorems: channel reset and interrupt vector of `kz80.c` -/

namespace KZ80

/-- The three status registers after two channel resets are those after one. -/
theorem upd_reset_twice (f : Nat → Nat) :
    upd (upd (upd (upd (upd (upd f 0 44) 1 1) 2 0) 0 44) 1 1) 2 0
      = upd (upd (upd f 0 44) 1 1) 2 0 := by
  funext j
  simp only [upd]
  split_ifs <;> rfl

/-- The same when the interrupt-pending bit of RR1 was cleared in between. -/
theorem upd_reset_twice_A (f : Nat → Nat) :
    upd (upd (upd (upd (upd (upd (upd (upd f 0 44) 1 1) 2 0) 1 1) 0 44) 1 1) 2 0) 1 1
      = upd (upd (upd (upd f 0 44) 1 1) 2 0) 1 1 := by
  funext j
  simp only [upd]
  split_ifs <;> rfl

/-- Storing the same value at the same index twice is storing it once. -/
theorem upd_same_twice (f : Nat → Nat) (i a : Nat) :
    upd (upd f i a) i a = upd f i a := by
  funext j
  simp only [upd]
  split_ifs <;> rfl

/-- C11: for every SIO state and either channel, `sio2_channel_reset` applied twice in
succession yields exactly the same state as applying it once. -/
theorem c11_channel_reset_idempotent (s : Machine) (c : Chan) :
    sio2_channel_reset (sio2_channel_reset s c) c = sio2_channel_reset s c := by
  have hm : ∀ x : Nat, x &&& 248 &&& 248 = x &&& 248 := fun x => by
    rw [Nat.and_assoc, Nat.and_self]
  have hn : ∀ x : Nat, x &&& 253 &&& 253 = x &&& 253 := fun x => by
    rw [Nat.and_assoc, Nat.and_self]
  have h1 : (1 &&& 253 : Nat) = 1 := by decide
  cases c
  · simp only [sio2_channel_reset, sio2_clear_int, recalc_interrupts, Machine.modChan, INT_RX,
      INT_TX, INT_ERR]
    by_cases h : s.sioA.intbits &&& 248 ||| s.sioB.intbits = 0
    · simp [h, hm, hn, h1, upd]
      exact upd_reset_twice_A _
    · simp [h, hm, hn, h1, upd]
      exact upd_reset_twice _
  · simp only [sio2_channel_reset, sio2_clear_int, recalc_interrupts, Machine.modChan, INT_RX,
      INT_TX, INT_ERR]
    by_cases h : s.sioA.intbits ||| s.sioB.intbits &&& 248 = 0
    · simp [h, hm, hn, h1, upd]
      exact ⟨upd_same_twice _ _ _, upd_reset_twice _⟩
    · simp [h, hm, hn, h1, upd]
      exact upd_reset_twice _

/-- C12, as stated, fails: with vector byte `0xFF` in WR2 of channel B, WR1 bit 2 set on
both channels and the RX bit latched on channel A, `sio2_check_im2` hands `0xFD` to the
CPU; clearing the low three bits of `0xFF` and ORing in 8 and 4 would give `0xFC`. -/
theorem c12_vector_keeps_bit_0 :
    st_vector_ff.sioA.irq ≠ 0 ∧ st_vector_ff.sioB.wr 2 = 0xFF ∧
    st_vector_ff.sioA.wr 1 &&& 0x04 ≠ 0 ∧ st_vector_ff.sioB.wr 1 &&& 0x04 ≠ 0 ∧
    st_vector_ff.sioA.intbits = INT_RX ∧
    (sio2_check_im2 st_vector_ff Chan.A).2.z80int = [0xFD] ∧
    vector_as_worded 0xF8 (st_vector_ff.sioB.wr 2) (st_vector_ff.sioB.wr 1) Chan.A
      st_vector_ff.sioA.intbits = 0xFC := by
  decide

/-- C12 (amended): in the Z80 profile, when `sio2_check_im2` delivers an interrupt for a
channel whose IRQ flag is asserted, the vector handed to the CPU is computed from the
programmed vector byte V (WR2 of the second channel): if WR1 bit 2 of the second channel
is clear the vector is V unchanged; if it is set the vector is V with bits 1 to 3
cleared (`V & 0xF1`), then ORed with 8 if the channel is A, and with 4 if the RX bit is
latched, else with 2 if the error bit is latched. -/
theorem c12_vector_clears_bits_1_to_3 (s : Machine) (c : Chan)
    (hirq : (s.chan c).irq ≠ 0) :
    (sio2_check_im2 s c).1 = 1 ∧
    (sio2_check_im2 s c).2.z80int
      = s.z80int ++
          [vector_as_worded 0xF1 (s.sioB.wr 2) (s.sioB.wr 1) c (s.chan c).intbits] := by
  simp only [sio2_check_im2, if_pos hirq, Z80INT, sio2_vector, vector_as_worded]
  cases c <;> simp <;> split_ifs <;> simp_all

/-- C12 at a concrete state: vector byte `0xFF`, channel A with its RX bit latched. -/
theorem c12_vector_clears_bits_1_to_3_witness :
    (st_vector_ff.chan Chan.A).irq ≠ 0 ∧
    (sio2_check_im2 st_vector_ff Chan.A).2.z80int
      = st_vector_ff.z80int ++
          [vector_as_worded 0xF1 (st_vector_ff.sioB.wr 2) (st_vector_ff.sioB.wr 1) Chan.A
            (st_vector_ff.chan Chan.A).intbits] :=
  ⟨by decide, (c12_vector_clears_bits_1_to_3 st_vector_ff Chan.A (by decide)).2⟩

end KZ80

/-! ## Theorems: the 16550A UART of `rc2014-6502.c` -/

namespace RC2014

/-! ### Pending causes, `iir` and the interrupt mask -/

@[simp]
theorem uart_mod_uart (s : UartSys) (f : uart16x50 → uart16x50) :
    (s.mod f).uart = f s.uart := rfl

@[simp]
theorem uart_mod_live_irq (s : UartSys) (f : uart16x50 → uart16x50) :
    (s.mod f).live_irq = s.live_irq := rfl

@[simp]
theorem uart_mod_tty_out (s : UartSys) (f : uart16x50 → uart16x50) :
    (s.mod f).tty_out = s.tty_out := rfl

/-- After `int_set(IRQ_16550A)` the UART bit of the mask is up. -/
theorem live_set (x : Nat) : int_set x IRQ_16550A &&& (1 <<< IRQ_16550A) ≠ 0 :=
  KZ80.or_and_self_ne_zero x 32 (by decide)

/-- After `int_clear(IRQ_16550A)` the UART bit of the mask is down. -/
theorem live_clear (x : Nat) : int_clear x IRQ_16550A &&& (1 <<< IRQ_16550A) = 0 := by
  show (x &&& 223) &&& 32 = 0
  rw [KZ80.and_and_lit x 223 32 0 (by decide), Nat.and_zero]

/-- The pending sets that occur, by their RXDA and TEMT bits. -/
theorem irq_cases (x : Nat) (h : x < 4) :
    x = 0 ∨
    (x ≠ 0 ∧ x &&& RXDA ≠ 0 ∧ x &&& MODEM = 0) ∨
    (x ≠ 0 ∧ x &&& RXDA = 0 ∧ x &&& TEMT ≠ 0 ∧ x &&& MODEM = 0) := by
  interval_cases x <;> decide

/-- What `uart_recalc_iir` leaves alone. -/
theorem recalc_iir_frame (s : UartSys) :
    (uart_recalc_iir s).uart.irq = s.uart.irq ∧
    (uart_recalc_iir s).uart.ier = s.uart.ier ∧
    (uart_recalc_iir s).uart.lsr = s.uart.lsr ∧
    (uart_recalc_iir s).uart.dlab = s.uart.dlab ∧
    (uart_recalc_iir s).uart.ls = s.uart.ls ∧
    (uart_recalc_iir s).uart.ms = s.uart.ms ∧
    (uart_recalc_iir s).tty_out = s.tty_out := by
  simp only [uart_recalc_iir, uart_raise_line]
  split_ifs <;> simp

/-- The code `uart_recalc_iir` leaves in `iir`. -/
theorem recalc_iir_iir (s : UartSys) :
    (uart_recalc_iir s).uart.iir =
      if s.uart.irq &&& RXDA ≠ 0 then 0x04 else if s.uart.irq &&& TEMT ≠ 0 then 0x02
      else if s.uart.irq &&& MODEM ≠ 0 then 0x00 else 0x01 := by
  simp only [uart_recalc_iir, uart_raise_line]
  split_ifs <;> simp

/-- After `uart_recalc_iir` the invariant holds, whatever `iir` was before. -/
theorem recalc_iir_inv (s : UartSys) (hlt : s.uart.irq < 4)
    (hline : s.uart.irqline ≠ 0 → s.live_irq &&& (1 <<< IRQ_16550A) ≠ 0) :
    uart_inv (uart_recalc_iir s) := by
  have hs := live_set s.live_irq
  have hc := live_clear s.live_irq
  unfold uart_inv
  rw [recalc_iir_iir, (recalc_iir_frame s).1]
  refine ⟨hlt, ?_, ?_⟩
  · rcases irq_cases _ hlt with h0 | ⟨_, h1, h3⟩ | ⟨_, h1, h2, h3⟩
    · simp [h0]
    · simp [h1]
    · simp [h1, h2]
  · simp only [uart_recalc_iir, uart_raise_line]
    rcases irq_cases _ hlt with h0 | ⟨h0, h1, h3⟩ | ⟨h0, h1, h2, h3⟩
    · simp [h0, hc]
    · by_cases hl : s.uart.irqline = 0
      · simp [h0, h1, hl, hs]
      · simp [h0, h1, hl, hline hl]
    · by_cases hl : s.uart.irqline = 0
      · simp [h0, h1, h2, hl, hs]
      · simp [h0, h1, h2, hl, hline hl]

/-- Raising RXDA or TEMT keeps the invariant. -/
theorem uart_interrupt_inv (s : UartSys) (n : Nat) (hn : n = RXDA ∨ n = TEMT)
    (h : uart_inv s) : uart_inv (uart_interrupt s n) := by
  have hn256 : n % 256 = n := by rcases hn with rfl | rfl <;> rfl
  simp only [uart_interrupt, hn256]
  split_ifs
  · exact h
  · exact h
  · refine recalc_iir_inv _ ?_ ?_
    · have := h.1
      simp only [uart_mod_uart]
      rcases hn with rfl | rfl
      · exact Nat.or_lt_two_pow (n := 2) this (by decide)
      · exact Nat.or_lt_two_pow (n := 2) this (by decide)
    · simpa using h.2.2.2

/-- Clearing a cause keeps the invariant. -/
theorem uart_clear_interrupt_inv (s : UartSys) (n : Nat) (h : uart_inv s) :
    uart_inv (uart_clear_interrupt s n) := by
  simp only [uart_clear_interrupt]
  split_ifs
  · exact h
  · refine recalc_iir_inv _ ?_ ?_
    · simp only [uart_mod_uart]
      exact lt_of_le_of_lt Nat.and_le_left h.1
    · simpa using h.2.2.2

/-- The invariant only looks at `irq`, `iir`, `irqline` and `live_irq`. -/
theorem uart_inv_congr (s t : UartSys) (h1 : t.uart.irq = s.uart.irq)
    (h2 : t.uart.iir = s.uart.iir) (h3 : t.uart.irqline = s.uart.irqline)
    (h4 : t.live_irq = s.live_irq) (h : uart_inv s) : uart_inv t := by
  unfold uart_inv at h ⊢
  rw [h1, h2, h3, h4]
  exact h

/-- Assignments to other fields keep the invariant. -/
theorem uart_inv_mod (s : UartSys) (f : uart16x50 → uart16x50)
    (h1 : (f s.uart).irq = s.uart.irq) (h2 : (f s.uart).iir = s.uart.iir)
    (h3 : (f s.uart).irqline = s.uart.irqline) (h : uart_inv s) : uart_inv (s.mod f) :=
  uart_inv_congr s _ h1 h2 h3 rfl h

/-- Output to the host keeps the invariant. -/
theorem uart_inv_tty (s : UartSys) (l : List Nat) (h : uart_inv s) :
    uart_inv { s with tty_out := l } :=
  uart_inv_congr s _ rfl rfl rfl rfl h

/-- Both branches of a test keep the invariant. -/
theorem uart_inv_ite (c : Prop) [Decidable c] (a b : UartSys) (ha : uart_inv a)
    (hb : uart_inv b) : uart_inv (if c then a else b) := by
  split_ifs
  · exact ha
  · exact hb

/-- A guest write keeps the invariant. -/
theorem uart_write_inv (s : UartSys) (addr val : Nat) (h : uart_inv s) :
    uart_inv (uart_write s addr val) := by
  simp only [uart_write]
  split_ifs
  · exact uart_interrupt_inv _ _ (Or.inr rfl)
      (uart_clear_interrupt_inv _ _ (uart_inv_tty _ _ h))
  all_goals exact h

/-- The states a read can leave. -/
theorem uart_read_state (s t : UartSys) (addr v : Nat) (sel : KZ80.Select) (rd : Option Nat)
    (hr : uart_read s addr sel rd = some (v, t)) :
    t = s ∨ t = uart_clear_interrupt s RXDA ∨
    (∃ l, t = s.mod (fun u => { u with lsr := l })) ∨
    t = uart_clear_interrupt (s.mod (fun u => { u with msr := u.msr &&& 0xF0 })) MODEM := by
  unfold uart_read at hr
  by_cases h0 : addr % 256 = 0
  · by_cases hd : s.uart.dlab = 0
    · simp only [h0, hd, if_true, Option.some.injEq, Prod.mk.injEq] at hr
      exact Or.inr (Or.inl hr.2.symm)
    · simp only [h0, hd, if_true, if_false, Option.some.injEq, Prod.mk.injEq] at hr
      exact Or.inl hr.2.symm
  by_cases h5 : addr % 256 = 5
  · cases hc : KZ80.check_chario sel with
    | none => simp [h5, hc] at hr
    | some r0 =>
      simp only [h5, hc, OfNat.ofNat_ne_zero, OfNat.ofNat_ne_one, if_true, if_false,
        Nat.reduceEqDiff, Option.some.injEq, Prod.mk.injEq] at hr
      exact Or.inr (Or.inr (Or.inl ⟨_, hr.2.symm⟩))
  by_cases h6 : addr % 256 = 6
  · simp only [h6, OfNat.ofNat_ne_zero, OfNat.ofNat_ne_one, if_true, if_false,
      Nat.reduceEqDiff, Option.some.injEq, Prod.mk.injEq] at hr
    exact Or.inr (Or.inr (Or.inr hr.2.symm))
  simp only [h0, h5, h6, if_false] at hr
  split_ifs at hr
  all_goals
    simp only [Option.some.injEq, Prod.mk.injEq] at hr
    exact Or.inl hr.2.symm

/-- A guest read keeps the invariant. -/
theorem uart_read_inv (s t : UartSys) (addr v : Nat) (sel : KZ80.Select) (rd : Option Nat)
    (h : uart_inv s) (hr : uart_read s addr sel rd = some (v, t)) : uart_inv t := by
  rcases uart_read_state s t addr v sel rd hr with rfl | rfl | ⟨l, rfl⟩ | rfl
  · exact h
  · exact uart_clear_interrupt_inv _ _ h
  · exact uart_inv_mod _ _ rfl rfl rfl h
  · exact uart_clear_interrupt_inv _ _ (uart_inv_mod _ _ rfl rfl rfl h)

/-- The event tick keeps the invariant. -/
theorem uart_event_inv (s t : UartSys) (sel : KZ80.Select) (h : uart_inv s)
    (he : uart_event s sel = some t) : uart_inv t := by
  simp only [uart_event] at he
  cases hc : KZ80.check_chario sel with
  | none => simp [hc] at he
  | some r0 =>
    simp only [hc, Option.some.injEq] at he
    rw [← he]
    repeat first
      | exact h
      | with_reducible apply uart_inv_ite
      | with_reducible apply uart_interrupt_inv _ _ (Or.inr rfl)
      | with_reducible apply uart_interrupt_inv _ _ (Or.inl rfl)
      | with_reducible apply uart_inv_mod _ _ rfl rfl rfl

/-- Every UART operation keeps the invariant. -/
theorem uart_step_inv (s t : UartSys) (op : UartOp) (h : uart_inv s)
    (hs : uart_step s op = some t) : uart_inv t := by
  cases op with
  | write addr val =>
    simp only [uart_step, Option.some.injEq] at hs
    rw [← hs]
    exact uart_write_inv s addr val h
  | read addr sel rd =>
    simp only [uart_step, Option.map_eq_some', Prod.exists, exists_eq_right] at hs
    obtain ⟨v, hv⟩ := hs
    exact uart_read_inv s t addr v sel rd h hv
  | event sel => exact uart_event_inv s t sel h hs

/-- Every run keeps the invariant. -/
theorem uart_run_inv (ops : List UartOp) : ∀ (s t : UartSys), uart_inv s →
    uart_run s ops = some t → uart_inv t := by
  induction ops with
  | nil =>
    intro s t h hr
    simp only [uart_run, Option.some.injEq] at hr
    rw [← hr]
    exact h
  | cons op ops ih =>
    intro s t h hr
    simp only [uart_run] at hr
    cases hstep : uart_step s op with
    | none => simp [hstep] at hr
    | some s1 =>
      simp only [hstep] at hr
      exact ih s1 t (uart_step_inv s s1 op h hstep) hr

/-- The invariant holds at power-on (no cause is pending there). -/
theorem uart_power_on_inv : uart_inv uart_power_on := by
  unfold uart_inv
  decide

/-- What `uart_clear_interrupt` leaves alone. -/
theorem clear_interrupt_frame (s : UartSys) (n : Nat) :
    (uart_clear_interrupt s n).uart.ier = s.uart.ier ∧
    (uart_clear_interrupt s n).uart.lsr = s.uart.lsr ∧
    (uart_clear_interrupt s n).uart.dlab = s.uart.dlab ∧
    (uart_clear_interrupt s n).tty_out = s.tty_out := by
  simp only [uart_clear_interrupt]
  split_ifs
  · exact ⟨rfl, rfl, rfl, rfl⟩
  · simp [recalc_iir_frame]

/-- What `uart_interrupt` leaves alone. -/
theorem interrupt_frame (s : UartSys) (n : Nat) :
    (uart_interrupt s n).uart.ier = s.uart.ier ∧
    (uart_interrupt s n).uart.lsr = s.uart.lsr ∧
    (uart_interrupt s n).uart.dlab = s.uart.dlab ∧
    (uart_interrupt s n).tty_out = s.tty_out := by
  simp only [uart_interrupt]
  split_ifs
  · exact ⟨rfl, rfl, rfl, rfl⟩
  · exact ⟨rfl, rfl, rfl, rfl⟩
  · simp [recalc_iir_frame]

/-- Clearing TEMT leaves it clear and does not touch RXDA. -/
theorem clear_temt_irq (s : UartSys) :
    (uart_clear_interrupt s TEMT).uart.irq &&& TEMT = 0 ∧
    (uart_clear_interrupt s TEMT).uart.irq &&& RXDA = s.uart.irq &&& RXDA := by
  by_cases h : s.uart.irq &&& TEMT = 0
  · simp only [uart_clear_interrupt, show TEMT % 256 = TEMT from rfl, h, if_true, and_self]
  · simp only [uart_clear_interrupt, show TEMT % 256 = TEMT from rfl, h, if_false,
      recalc_iir_frame, uart_mod_uart]
    constructor
    · show s.uart.irq &&& 253 &&& 2 = 0
      rw [KZ80.and_and_lit _ 253 2 0 (by decide), Nat.and_zero]
    · exact KZ80.and_and_lit _ 253 1 1 (by decide)

/-- Raising TEMT when it is enabled and not pending: it becomes pending and `iir`
reports RXDA if that is pending, TEMT otherwise. -/
theorem raise_temt (s : UartSys) (hirq : s.uart.irq &&& TEMT = 0)
    (hier : s.uart.ier &&& TEMT ≠ 0) :
    (uart_interrupt s TEMT).uart.irq &&& TEMT ≠ 0 ∧
    (uart_interrupt s TEMT).uart.iir = if s.uart.irq &&& RXDA ≠ 0 then 0x04 else 0x02 := by
  have h1 : (s.uart.irq ||| TEMT) &&& TEMT ≠ 0 := KZ80.or_and_self_ne_zero _ 2 (by decide)
  have h2 : (s.uart.irq ||| TEMT) &&& RXDA = s.uart.irq &&& RXDA :=
    KZ80.or_and_disjoint _ 2 1 (by decide)
  simp only [uart_interrupt, show TEMT % 256 = TEMT from rfl, hirq, hier, if_false,
    ne_eq, not_true_eq_false, recalc_iir_frame, recalc_iir_iir, uart_mod_uart, h2]
  refine ⟨h1, ?_⟩
  split_ifs
  · rfl
  · rfl

/-! ### The UART claims -/

/-- C13: in every 16550A state reachable from power-on through `uart_write`, `uart_read`
and `uart_event`, whenever the pending-cause set is nonempty the IIR register encodes
its highest-priority member: `0x04` if RXDA is pending, otherwise `0x02` if TEMT is
pending, otherwise `0x00` (MODEM); and that is the byte a read of offset 2 returns. -/
theorem c13_iir_encodes_highest_priority (ops : List UartOp) (s : UartSys)
    (hrun : uart_run uart_power_on ops = some s) (hne : s.uart.irq ≠ 0) :
    (s.uart.irq &&& RXDA ≠ 0 → s.uart.iir = 0x04) ∧
    (s.uart.irq &&& RXDA = 0 → s.uart.irq &&& TEMT ≠ 0 → s.uart.iir = 0x02) ∧
    (s.uart.irq &&& RXDA = 0 → s.uart.irq &&& TEMT = 0 → s.uart.iir = 0x00) ∧
    (∀ sel rd, uart_read s 2 sel rd = some (s.uart.iir, s)) := by
  have h := (uart_run_inv ops _ s uart_power_on_inv hrun).2.1 hne
  refine ⟨fun h1 => ?_, fun h1 h2 => ?_, fun h1 h2 => ?_, fun _ _ => rfl⟩
  · rw [h, if_pos h1]
  · rw [h, if_neg (not_not.mpr h1), if_pos h2]
  · rw [h, if_neg (not_not.mpr h1), if_neg (not_not.mpr h2)]

/-- C13 at a concrete run: IER = 3, then an event tick with input waiting. -/
theorem c13_iir_encodes_highest_priority_witness :
    uart_run uart_power_on ops_uart_rx = some st_uart_rx ∧ st_uart_rx.uart.irq ≠ 0 ∧
    st_uart_rx.uart.irq &&& RXDA ≠ 0 ∧ st_uart_rx.uart.iir = 0x04 :=
  ⟨rfl, by decide, by decide,
    (c13_iir_encodes_highest_priority ops_uart_rx st_uart_rx rfl (by decide)).1 (by decide)⟩

/-- C14 (the code at the failing input): at power-on no cause is pending, yet a read of
offset 2 returns `0x00`, the code for a pending modem-status interrupt: `uart_init` only
clears `dlab` and leaves `iir` at zero, while `uart_recalc_iir`, run on that very state,
would store `0x01`. -/
theorem c14_power_on_iir_reads_zero (sel : KZ80.Select) (rd : Option Nat) :
    uart_power_on.uart.irq = 0 ∧
    (uart_read uart_power_on 2 sel rd).map Prod.fst = some 0x00 ∧
    (uart_recalc_iir uart_power_on).uart.iir = 0x01 :=
  ⟨rfl, rfl, by decide⟩

/-- C15: in every state reachable from power-on through `uart_write`, `uart_read` and
`uart_event`, the 16550A bit of `live_irq` is set if and only if the UART's
pending-cause set is nonempty. -/
theorem c15_live_bit_iff_cause_pending (ops : List UartOp) (s : UartSys)
    (hrun : uart_run uart_power_on ops = some s) :
    s.live_irq &&& (1 <<< IRQ_16550A) ≠ 0 ↔ s.uart.irq ≠ 0 :=
  ((uart_run_inv ops _ s uart_power_on_inv hrun).2.2.1).symm

/-- C15 at a concrete run: RXDA pending and `live_irq` equal to `0x20`. -/
theorem c15_live_bit_iff_cause_pending_witness :
    uart_run uart_power_on ops_uart_rx = some st_uart_rx ∧
    (st_uart_rx.live_irq &&& (1 <<< IRQ_16550A) ≠ 0 ↔ st_uart_rx.uart.irq ≠ 0) ∧
    st_uart_rx.live_irq = 0x20 :=
  ⟨rfl, c15_live_bit_iff_cause_pending ops_uart_rx st_uart_rx rfl, by decide⟩

/-- C16, as stated, fails: at power-on (DLAB = 0) a write of `0x41` to offset 0 leaves
the `lsr` field at 0, bit 5 clear; and with IER = 3 and RXDA pending the same write
leaves IIR at `0x04`, not `0x02`. -/
theorem c16_write_at_power_on_and_with_rx_pending :
    uart_power_on.uart.dlab = 0 ∧
    (uart_write uart_power_on 0 0x41).tty_out = [0x41] ∧
    (uart_write uart_power_on 0 0x41).uart.lsr &&& 0x20 = 0 ∧
    st_uart_rx.uart.dlab = 0 ∧ st_uart_rx.uart.ier &&& 0x02 ≠ 0 ∧
    (uart_write st_uart_rx 0 0x41).uart.iir = 0x04 := by
  decide

/-- C16 (amended): in the 6502 profile with DLAB = 0, for every byte `b` and every UART
state, a guest write of `b` to UART offset 0 appends exactly `b` to the host output and
leaves the `lsr` field as it was (a read of offset 5 made next returns bit 5 set whenever
`select` succeeds); and, if IER bit 1 is set, it leaves TEMT pending and IIR reporting
TEMT (`0x02`) unless RXDA is pending, in which case IIR reports RXDA (`0x04`). -/
theorem c16_tx_write_effects (s : UartSys) (b : Nat) (hd : s.uart.dlab = 0) (hb : b < 256) :
    (uart_write s 0 b).tty_out = s.tty_out ++ [b] ∧
    (uart_write s 0 b).uart.lsr = s.uart.lsr ∧
    (s.uart.ier &&& 0x02 ≠ 0 →
      (uart_write s 0 b).uart.irq &&& TEMT ≠ 0 ∧
      (uart_write s 0 b).uart.iir = if s.uart.irq &&& RXDA ≠ 0 then 0x04 else 0x02) ∧
    (∀ (r : Bool) (rd : Option Nat),
      ∃ v t, uart_read (uart_write s 0 b) 5 (KZ80.Select.ok r) rd = some (v, t) ∧
        v &&& 0x20 ≠ 0) := by
  have hb2 : b % 256 = b := Nat.mod_eq_of_lt hb
  have hw : uart_write s 0 b
      = uart_interrupt (uart_clear_interrupt { s with tty_out := s.tty_out ++ [b] } TEMT) TEMT := by
    simp only [uart_write, hd, hb2, Nat.zero_mod, if_true]
  have hc := clear_temt_irq { s with tty_out := s.tty_out ++ [b] }
  rw [hw]
  refine ⟨?_, ?_, fun hier => ?_, fun r rd => ?_⟩
  · rw [(interrupt_frame _ _).2.2.2, (clear_interrupt_frame _ _).2.2.2]
  · rw [(interrupt_frame _ _).2.1, (clear_interrupt_frame _ _).2.1]
  · have := raise_temt _ hc.1 (by rw [(clear_interrupt_frame _ _).1]; exact hier)
    rw [hc.2] at this
    exact this
  · cases r
    · exact ⟨_, _, rfl, by decide⟩
    · exact ⟨_, _, rfl, by decide⟩

/-- C16 at a concrete state: `0x41` written with RXDA pending and IER = 3. -/
theorem c16_tx_write_effects_witness :
    (st_uart_rx.uart.dlab = 0 ∧ (0x41 : Nat) < 256) ∧
    (uart_write st_uart_rx 0 0x41).tty_out = st_uart_rx.tty_out ++ [0x41] ∧
    (uart_write st_uart_rx 0 0x41).uart.lsr = st_uart_rx.uart.lsr :=
  ⟨⟨rfl, by decide⟩,
   (c16_tx_write_effects st_uart_rx 0x41 rfl (by decide)).1,
   (c16_tx_write_effects st_uart_rx 0x41 rfl (by decide)).2.1⟩

/-- C17: for the 16550A with DLAB = 0, for every byte `v`, `uart_write` at offset 1 with
`v` followed by `uart_read` at offset 1 returns `v` (and the read changes nothing). -/
theorem c17_ier_round_trip (s : UartSys) (v : Nat) (sel : KZ80.Select) (rd : Option Nat)
    (hd : s.uart.dlab = 0) (hv : v < 256) :
    uart_read (uart_write s 1 v) 1 sel rd = some (v, uart_write s 1 v) := by
  simp [uart_write, uart_read, hd, Nat.mod_eq_of_lt hv]

/-- C17 at a concrete input: `0x0F` written to IER after power-on. -/
theorem c17_ier_round_trip_witness :
    uart_read (uart_write uart_power_on 1 0x0F) 1 KZ80.Select.eintr none
      = some (0x0F, uart_write uart_power_on 1 0x0F) :=
  c17_ier_round_trip uart_power_on 0x0F KZ80.Select.eintr none rfl (by decide)

/-- C18: for every 16550A state, the sequence: write LCR with bit 7 set (byte `a`),
write `lo` to offset 0, write `hi` to offset 1, write LCR with bit 7 clear (byte `b`)
leaves IER equal to its value before the sequence, the two bytes being stored in the
divisor-latch fields `ls` and `ms` (and DLAB is 0 again). -/
theorem c18_divisor_latch_sequence (s : UartSys) (a lo hi b : Nat)
    (ha : a < 256) (hlo : lo < 256) (hhi : hi < 256) (hb : b < 256)
    (ha7 : a &&& 0x80 ≠ 0) (hb7 : b &&& 0x80 = 0) :
    (uart_write (uart_write (uart_write (uart_write s 3 a) 0 lo) 1 hi) 3 b).uart.ier
      = s.uart.ier ∧
    (uart_write (uart_write (uart_write (uart_write s 3 a) 0 lo) 1 hi) 3 b).uart.ls = lo ∧
    (uart_write (uart_write (uart_write (uart_write s 3 a) 0 lo) 1 hi) 3 b).uart.ms = hi ∧
    (uart_write (uart_write (uart_write (uart_write s 3 a) 0 lo) 1 hi) 3 b).uart.dlab = 0 := by
  simp [uart_write, Nat.mod_eq_of_lt ha, Nat.mod_eq_of_lt hlo, Nat.mod_eq_of_lt hhi,
    Nat.mod_eq_of_lt hb, ha7, hb7]

/-- C18 at a concrete input: LCR `0x80`, divisor bytes `0x01` and `0x00`, LCR `0x00`,
after IER was set to 3. -/
theorem c18_divisor_latch_sequence_witness :
    (uart_write (uart_write (uart_write (uart_write st_uart_rx 3 0x80) 0 0x01) 1 0x00) 3
      0x00).uart.ier = st_uart_rx.uart.ier ∧ st_uart_rx.uart.ier = 3 :=
  ⟨(c18_divisor_latch_sequence st_uart_rx 0x80 0x01 0x00 0x00 (by decide) (by decide)
      (by decide) (by decide) (by decide) (by decide)).1, by decide⟩

end RC2014

/-! ## Theorems: the Z80 CTC of `rc2014-6502.c` -/

namespace RC2014

/-! ### Counter mode, pulse by pulse -/

@[simp]
theorem ctc_mod_ctc (s : CtcSys) (i j : Nat) (f : z80_ctc → z80_ctc) :
    (s.mod i f).ctc j = if j = i then f (s.ctc j) else s.ctc j := rfl

@[simp]
theorem ctc_mod_irqmask (s : CtcSys) (i : Nat) (f : z80_ctc → z80_ctc) :
    (s.mod i f).ctc_irqmask = s.ctc_irqmask := rfl

@[simp]
theorem ctc_mod_live_irq (s : CtcSys) (i : Nat) (f : z80_ctc → z80_ctc) :
    (s.mod i f).live_irq = s.live_irq := rfl

@[simp]
theorem ctc_mod_irq_log (s : CtcSys) (i : Nat) (f : z80_ctc → z80_ctc) :
    (s.mod i f).irq_log = s.irq_log := rfl

@[simp]
theorem ctc_mod_pulse_log (s : CtcSys) (i : Nat) (f : z80_ctc → z80_ctc) :
    (s.mod i f).pulse_log = s.pulse_log := rfl

/-- What `ctc_interrupt` does: the channels and the pulse log stay, an enabled channel
is logged and its bit of `ctc_irqmask` is up afterwards. -/
theorem ctc_interrupt_frame (s : CtcSys) (i : Nat) :
    (ctc_interrupt s i).ctc = s.ctc ∧
    (ctc_interrupt s i).pulse_log = s.pulse_log ∧
    (ctc_interrupt s i).live_irq = s.live_irq ∧
    (ctc_interrupt s i).irq_log
      = (if (s.ctc i).ctrl &&& CTC_IRQ ≠ 0 then s.irq_log ++ [i] else s.irq_log) ∧
    (ctc_interrupt s i).ctc_irqmask
      = (if (s.ctc i).ctrl &&& CTC_IRQ ≠ 0 ∧ s.ctc_irqmask &&& (1 <<< i) = 0
          then s.ctc_irqmask ||| (1 <<< i) else s.ctc_irqmask) := by
  simp only [ctc_interrupt]
  split_ifs <;> simp_all

/-- What the logged call `ctc_pulse(i)` of an unchained channel does. -/
theorem ctc_pulse_unchained_frame (s : CtcSys) (i : Nat) :
    (ctc_pulse_unchained s i).ctc = s.ctc ∧
    (ctc_pulse_unchained s i).pulse_log = s.pulse_log ++ [i] ∧
    (ctc_pulse_unchained s i).live_irq = s.live_irq ∧
    (ctc_pulse_unchained s i).irq_log = s.irq_log ∧
    (ctc_pulse_unchained s i).ctc_irqmask = s.ctc_irqmask :=
  ⟨rfl, rfl, rfl, rfl, rfl⟩

/-- A counting channel whose count is 0 fires on the pulse. -/
theorem body_fires_at_0 (pulse : CtcSys → Nat → CtcSys) (s : CtcSys) (i : Nat)
    (hc : (s.ctc i).ctrl &&& CTC_COUNTER ≠ 0) (hs : ¬ CTC_STOPPED (s.ctc i))
    (h0 : (s.ctc i).count = 0) :
    ctc_receive_pulse_body pulse s i
      = (pulse (ctc_interrupt s i) i).mod i
          (fun c => { c with count := (c.reload <<< 8) % 65536 }) := by
  simp [ctc_receive_pulse_body, hc, hs, h0]

/-- A counting channel whose count is 0x100 fires on the pulse. -/
theorem body_fires_at_100 (pulse : CtcSys → Nat → CtcSys) (s : CtcSys) (i : Nat)
    (hc : (s.ctc i).ctrl &&& CTC_COUNTER ≠ 0) (hs : ¬ CTC_STOPPED (s.ctc i))
    (h0 : (s.ctc i).count = 0x100) :
    ctc_receive_pulse_body pulse s i
      = (pulse (ctc_interrupt (s.mod i (fun c => { c with count := c.count - 0x100 })) i)
            i).mod i
          (fun c => { c with count := (c.reload <<< 8) % 65536 }) := by
  simp [ctc_receive_pulse_body, hc, hs, h0]

/-- A counting channel whose count is 0x200 only counts down on the pulse. -/
theorem body_counts_at_200 (pulse : CtcSys → Nat → CtcSys) (s : CtcSys) (i : Nat)
    (hc : (s.ctc i).ctrl &&& CTC_COUNTER ≠ 0) (hs : ¬ CTC_STOPPED (s.ctc i))
    (h0 : (s.ctc i).count = 0x200) :
    ctc_receive_pulse_body pulse s i
      = s.mod i (fun c => { c with count := c.count - 0x100 }) := by
  have h : (256 &&& 65280 : Nat) ≠ 0 := by decide
  simp [ctc_receive_pulse_body, hc, hs, h0, h]

/-- The pulse that channel 2 hands to channel 3 leaves every other channel, the log
entries of every other channel and the other bits of `ctc_irqmask` alone. -/
theorem chain_frame (s : CtcSys) :
    (∀ j, j ≠ 3 → (ctc_receive_pulse_body ctc_pulse_unchained s 3).ctc j = s.ctc j) ∧
    (∀ j, j ≠ 3 →
      (ctc_receive_pulse_body ctc_pulse_unchained s 3).irq_log.count j = s.irq_log.count j) ∧
    (∀ j, j ≠ 3 →
      (ctc_receive_pulse_body ctc_pulse_unchained s 3).pulse_log.count j
        = s.pulse_log.count j) ∧
    (∀ m, 8 &&& m = 0 →
      (ctc_receive_pulse_body ctc_pulse_unchained s 3).ctc_irqmask &&& m
        = s.ctc_irqmask &&& m) := by
  have hcnt : ∀ (l : List Nat) (j : Nat), j ≠ 3 → (l ++ [3]).count j = l.count j := by
    intro l j hj
    rw [List.count_append, List.count_singleton]
    simp [Ne.symm hj]
  refine ⟨fun j hj => ?_, fun j hj => ?_, fun j hj => ?_, fun m hm => ?_⟩
  · simp only [ctc_receive_pulse_body]
    split_ifs <;> simp [hj, ctc_interrupt_frame, ctc_pulse_unchained_frame]
  · simp only [ctc_receive_pulse_body]
    split_ifs <;> simp [ctc_interrupt_frame, ctc_pulse_unchained_frame]
    all_goals
      split_ifs
      all_goals first
        | rfl
        | exact hcnt _ j hj
  · simp only [ctc_receive_pulse_body]
    split_ifs <;> simp [ctc_interrupt_frame, ctc_pulse_unchained_frame, hcnt _ j hj]
  · simp only [ctc_receive_pulse_body]
    split_ifs <;> simp [ctc_interrupt_frame, ctc_pulse_unchained_frame]
    all_goals
      split_ifs
      all_goals first
        | rfl
        | exact KZ80.or_and_disjoint _ 8 m hm

/-- The bit of channel `i` in `ctc_irqmask` after `ctc_interrupt` on an enabled channel. -/
theorem ctc_interrupt_mask (s : CtcSys) (i : Nat) (hq : (s.ctc i).ctrl &&& CTC_IRQ ≠ 0) :
    (ctc_interrupt s i).ctc_irqmask &&& (1 <<< i) ≠ 0 := by
  rw [(ctc_interrupt_frame s i).2.2.2.2]
  split_ifs with h
  · exact KZ80.or_and_self_ne_zero _ _ (by rw [Nat.one_shiftLeft]; positivity)
  · intro h0
    exact h ⟨hq, h0⟩

/-- What `ctc_pulse(i)` does to channel `i` itself, to its log entries and to its bit of
`ctc_irqmask`, for a channel other than 3. -/
theorem ctc_pulse_own (s : CtcSys) (i : Nat) (hi : i ≠ 3) :
    (ctc_pulse s i).ctc i = s.ctc i ∧
    (ctc_pulse s i).irq_log.count i = s.irq_log.count i ∧
    (ctc_pulse s i).pulse_log.count i = s.pulse_log.count i + 1 ∧
    ((ctc_pulse s i).ctc_irqmask &&& (1 <<< i) ≠ 0 ↔ s.ctc_irqmask &&& (1 <<< i) ≠ 0) := by
  by_cases h2 : i = 2
  · subst h2
    have cf := chain_frame (ctc_pulse_unchained s 2)
    simp only [ctc_pulse, if_true]
    rw [cf.1 2 (by decide), cf.2.1 2 (by decide), cf.2.2.1 2 (by decide),
      cf.2.2.2 (1 <<< 2) (by decide)]
    simp [ctc_pulse_unchained_frame]
  · simp [ctc_pulse, h2, ctc_pulse_unchained_frame]

/-- What `ctc_pulse(3)` does to channel 3, to its log entries and to its bit. -/
theorem ctc_pulse_own_3 (s : CtcSys) :
    (ctc_pulse s 3).ctc 3 = s.ctc 3 ∧
    (ctc_pulse s 3).irq_log.count 3 = s.irq_log.count 3 ∧
    (ctc_pulse s 3).pulse_log.count 3 = s.pulse_log.count 3 + 1 ∧
    ((ctc_pulse s 3).ctc_irqmask &&& (1 <<< 3) ≠ 0 ↔ s.ctc_irqmask &&& (1 <<< 3) ≠ 0) := by
  simp [ctc_pulse, ctc_pulse_unchained_frame]

/-- The same for every channel. -/
theorem ctc_pulse_self (s : CtcSys) (i : Nat) :
    (ctc_pulse s i).ctc i = s.ctc i ∧
    (ctc_pulse s i).irq_log.count i = s.irq_log.count i ∧
    (ctc_pulse s i).pulse_log.count i = s.pulse_log.count i + 1 ∧
    ((ctc_pulse s i).ctc_irqmask &&& (1 <<< i) ≠ 0 ↔ s.ctc_irqmask &&& (1 <<< i) ≠ 0) := by
  by_cases h3 : i = 3
  · subst h3
    exact ctc_pulse_own_3 s
  · exact ctc_pulse_own s i h3

/-- A counting channel with interrupts enabled and reload 1 fires on every pulse: one
more interrupt request, one more outbound pulse, and the count is 0x100 again. -/
theorem pulse_fires (s : CtcSys) (i : Nat)
    (hc : (s.ctc i).ctrl &&& CTC_COUNTER ≠ 0) (hq : (s.ctc i).ctrl &&& CTC_IRQ ≠ 0)
    (hs : ¬ CTC_STOPPED (s.ctc i)) (hr : (s.ctc i).reload = 1)
    (hcount : (s.ctc i).count = 0 ∨ (s.ctc i).count = 0x100) :
    ((ctc_receive_pulse s i).ctc i).ctrl = (s.ctc i).ctrl ∧
    ((ctc_receive_pulse s i).ctc i).reload = 1 ∧
    ((ctc_receive_pulse s i).ctc i).count = 0x100 ∧
    (ctc_receive_pulse s i).irq_log.count i = s.irq_log.count i + 1 ∧
    (ctc_receive_pulse s i).pulse_log.count i = s.pulse_log.count i + 1 ∧
    (ctc_receive_pulse s i).ctc_irqmask &&& (1 <<< i) ≠ 0 := by
  have hlog : ∀ t : CtcSys, (t.ctc i).ctrl &&& CTC_IRQ ≠ 0 →
      (ctc_interrupt t i).irq_log.count i = t.irq_log.count i + 1 := by
    intro t ht
    rw [(ctc_interrupt_frame t i).2.2.2.1, if_pos ht, List.count_append]
    simp
  rcases hcount with h0 | h0
  · have hp := ctc_pulse_self (ctc_interrupt s i) i
    have hm := ctc_interrupt_mask s i hq
    have hf := ctc_interrupt_frame s i
    rw [ctc_receive_pulse, body_fires_at_0 _ _ _ hc hs h0]
    simp only [ctc_mod_ctc, ctc_mod_irq_log, ctc_mod_pulse_log,
      ctc_mod_irqmask, if_true, hp.1, hp.2.1, hp.2.2.1, hp.2.2.2, hf.1, hf.2.1,
      hlog s hq, hr]
    exact ⟨trivial, trivial, rfl, trivial, trivial, hm⟩
  · have hq1 : ((s.mod i (fun c => { c with count := c.count - 0x100 })).ctc i).ctrl
        &&& CTC_IRQ ≠ 0 := by simpa using hq
    have hp := ctc_pulse_self
      (ctc_interrupt (s.mod i (fun c => { c with count := c.count - 0x100 })) i) i
    have hm := ctc_interrupt_mask _ i hq1
    have hf := ctc_interrupt_frame (s.mod i (fun c => { c with count := c.count - 0x100 })) i
    rw [ctc_receive_pulse, body_fires_at_100 _ _ _ hc hs h0]
    simp only [ctc_mod_ctc, ctc_mod_irq_log, ctc_mod_pulse_log,
      ctc_mod_irqmask, if_true, hp.1, hp.2.1, hp.2.2.1, hp.2.2.2, hf.1, hf.2.1,
      hlog _ hq1, hr]
    exact ⟨trivial, trivial, rfl, trivial, trivial, hm⟩

/-- Along `n` pulses such a channel fires `n` times. -/
theorem pulses_fire (s : CtcSys) (i : Nat)
    (hc : (s.ctc i).ctrl &&& CTC_COUNTER ≠ 0) (hq : (s.ctc i).ctrl &&& CTC_IRQ ≠ 0)
    (hs : ¬ CTC_STOPPED (s.ctc i)) (hr : (s.ctc i).reload = 1)
    (hcount : (s.ctc i).count = 0 ∨ (s.ctc i).count = 0x100) (n : Nat) :
    ((ctc_pulses s i n).ctc i).ctrl = (s.ctc i).ctrl ∧
    ((ctc_pulses s i n).ctc i).reload = 1 ∧
    (((ctc_pulses s i n).ctc i).count = 0 ∨ ((ctc_pulses s i n).ctc i).count = 0x100) ∧
    (ctc_pulses s i n).irq_log.count i = s.irq_log.count i + n ∧
    (ctc_pulses s i n).pulse_log.count i = s.pulse_log.count i + n ∧
    (0 < n → (ctc_pulses s i n).ctc_irqmask &&& (1 <<< i) ≠ 0) := by
  induction n with
  | zero => exact ⟨rfl, hr, hcount, rfl, rfl, fun h => absurd h (lt_irrefl 0)⟩
  | succ n ih =>
    obtain ⟨h1, h2, h3, h4, h5, _⟩ := ih
    have hstop : ¬ CTC_STOPPED ((ctc_pulses s i n).ctc i) := by
      unfold CTC_STOPPED at hs ⊢
      rw [h1]
      exact hs
    have := pulse_fires (ctc_pulses s i n) i (by rw [h1]; exact hc) (by rw [h1]; exact hq)
      hstop h2 h3
    simp only [ctc_pulses]
    refine ⟨this.1.trans h1, this.2.1, Or.inr this.2.2.1, ?_, ?_, fun _ => this.2.2.2.2.2⟩
    · rw [this.2.2.2.1, h4, Nat.add_assoc]
    · rw [this.2.2.2.2.1, h5, Nat.add_assoc]

set_option maxRecDepth 100000 in
/-- The control-word bits the programming sequence tests, for a byte that announces a
time constant. -/
theorem cw_bits : ∀ cw < 256, cw &&& 4 ≠ 0 →
    cw &&& 6 ≠ 2 ∧ (cw &&& 6 = 6 ↔ cw &&& 2 ≠ 0) ∧ (cw &&& 251) &&& 6 ≠ 6 ∧
    (cw &&& 251) &&& 64 = cw &&& 64 ∧ (cw &&& 251) &&& 128 = cw &&& 128 ∧
    (cw &&& 251) &&& 4 = 0 := by
  decide

/-- Programming a channel whose control byte is not waiting for a time constant, with
a control word that announces one, while no CTC interrupt is flagged. -/
theorem ctc_program_frame (s : CtcSys) (i cw tc : Nat) (hi : i < 4) (hcw : cw < 256)
    (htc : tc < 256) (h0 : (s.ctc i).ctrl &&& CTC_TCONST = 0) (hmask : s.ctc_irqmask = 0)
    (hcontrol : cw &&& CTC_CONTROL ≠ 0) (htconst : cw &&& CTC_TCONST ≠ 0) :
    (ctc_program s i cw tc).ctc i =
      { count := if cw &&& CTC_RESET ≠ 0 then ctc_count_of_reload tc else (s.ctc i).count,
        reload := tc, vector := (s.ctc i).vector, ctrl := cw &&& 0xFB,
        irq := (s.ctc i).irq } ∧
    (∀ j, j ≠ i → (ctc_program s i cw tc).ctc j = s.ctc j) ∧
    (ctc_program s i cw tc).irq_log = s.irq_log ∧
    (ctc_program s i cw tc).pulse_log = s.pulse_log ∧
    (ctc_program s i cw tc).ctc_irqmask = 0 := by
  have hi256 : i % 256 = i := Nat.mod_eq_of_lt (by omega)
  have hb := cw_bits cw hcw htconst
  simp only [CTC_TCONST, CTC_CONTROL, CTC_RESET] at h0 hcontrol htconst ⊢
  have hw1 : ctc_write s i cw = s.mod i (fun c => { c with ctrl := cw }) := by
    simp [-Nat.and_one_is_mod, ctc_write, hi256, Nat.mod_eq_of_lt hcw, h0, hcontrol, hb.1,
      hmask, CTC_TCONST, CTC_CONTROL, CTC_RESET]
  have hw2 : ∀ t : CtcSys, (t.ctc i).ctrl = cw →
      ctc_write t i tc
        = ((if cw &&& 2 ≠ 0 then
              (t.mod i (fun c => { c with reload := tc })).mod i
                (fun c => { c with count := ctc_count_of_reload c.reload })
            else t.mod i (fun c => { c with reload := tc })).mod i
            (fun c => { c with ctrl := c.ctrl &&& 0xFB })) := by
    intro t ht
    simp only [ctc_write, hi256, Nat.mod_eq_of_lt htc, ht, CTC_TCONST, CTC_RESET, CTC_STOPPED,
      ctc_mod_ctc, if_true, ne_eq, htconst, not_false_eq_true]
    simp [hb.2.1]
  rw [ctc_program, hw1, hw2 _ (by simp)]
  refine ⟨?_, fun j hj => ?_, ?_, ?_, ?_⟩
  · by_cases h2 : cw &&& 2 = 0
    · simp [h2]
    · simp [h2]
  · by_cases h2 : cw &&& 2 = 0
    · simp [h2, hj]
    · simp [h2, hj]
  · by_cases h2 : cw &&& 2 = 0
    · simp [h2]
    · simp [h2]
  · by_cases h2 : cw &&& 2 = 0
    · simp [h2]
    · simp [h2]
  · by_cases h2 : cw &&& 2 = 0
    · simp [h2, hmask]
    · simp [h2, hmask]

/-- The channels as `ctc_init` leaves them on the zeroed statics. -/
theorem ctc_power_on_chan (i : Nat) (hi : i < 4) :
    ctc_power_on.ctc i = { count := 0, reload := 0, vector := 0, ctrl := CTC_RESET, irq := 0 } := by
  interval_cases i <;> rfl

/-- Channel 3 in counter mode with interrupts enabled and reload 2, its count at 0 or
0x100: the pulse handed over by channel 2 makes it fire. -/
theorem chain_fires (s : CtcSys) (hc : (s.ctc 3).ctrl &&& CTC_COUNTER ≠ 0)
    (hq : (s.ctc 3).ctrl &&& CTC_IRQ ≠ 0) (hs : ¬ CTC_STOPPED (s.ctc 3))
    (hr : (s.ctc 3).reload = 2) (hk : (s.ctc 3).count = 0 ∨ (s.ctc 3).count = 0x100) :
    ((ctc_receive_pulse_body ctc_pulse_unchained s 3).ctc 3).ctrl = (s.ctc 3).ctrl ∧
    ((ctc_receive_pulse_body ctc_pulse_unchained s 3).ctc 3).reload = 2 ∧
    ((ctc_receive_pulse_body ctc_pulse_unchained s 3).ctc 3).count = 0x200 ∧
    (ctc_receive_pulse_body ctc_pulse_unchained s 3).irq_log.count 3
      = s.irq_log.count 3 + 1 ∧
    (ctc_receive_pulse_body ctc_pulse_unchained s 3).ctc_irqmask &&& (1 <<< 3) ≠ 0 := by
  have hlog : ∀ t : CtcSys, (t.ctc 3).ctrl &&& CTC_IRQ ≠ 0 →
      (ctc_interrupt t 3).irq_log.count 3 = t.irq_log.count 3 + 1 := by
    intro t ht
    rw [(ctc_interrupt_frame t 3).2.2.2.1, if_pos ht, List.count_append]
    simp
  rcases hk with h0 | h0
  · have hm := ctc_interrupt_mask s 3 hq
    have hf := ctc_interrupt_frame s 3
    rw [body_fires_at_0 _ _ _ hc hs h0]
    simp only [ctc_mod_ctc, ctc_mod_irq_log, ctc_mod_irqmask, if_true,
      ctc_pulse_unchained_frame, hf.1, hlog s hq, hr]
    exact ⟨trivial, trivial, rfl, trivial, hm⟩
  · have hq1 : ((s.mod 3 (fun c => { c with count := c.count - 0x100 })).ctc 3).ctrl
        &&& CTC_IRQ ≠ 0 := by simpa using hq
    have hm := ctc_interrupt_mask _ 3 hq1
    have hf := ctc_interrupt_frame (s.mod 3 (fun c => { c with count := c.count - 0x100 })) 3
    rw [body_fires_at_100 _ _ _ hc hs h0]
    simp only [ctc_mod_ctc, ctc_mod_irq_log, ctc_mod_irqmask, if_true,
      ctc_pulse_unchained_frame, hf.1, hlog _ hq1, hr]
    exact ⟨trivial, trivial, rfl, trivial, hm⟩

/-- Channel 3 in counter mode with its count at 0x200: the pulse handed over by channel
2 only counts it down to 0x100. -/
theorem chain_counts (s : CtcSys) (hc : (s.ctc 3).ctrl &&& CTC_COUNTER ≠ 0)
    (hs : ¬ CTC_STOPPED (s.ctc 3)) (hk : (s.ctc 3).count = 0x200) :
    ((ctc_receive_pulse_body ctc_pulse_unchained s 3).ctc 3).ctrl = (s.ctc 3).ctrl ∧
    ((ctc_receive_pulse_body ctc_pulse_unchained s 3).ctc 3).reload = (s.ctc 3).reload ∧
    ((ctc_receive_pulse_body ctc_pulse_unchained s 3).ctc 3).count = 0x100 ∧
    (ctc_receive_pulse_body ctc_pulse_unchained s 3).irq_log = s.irq_log ∧
    (ctc_receive_pulse_body ctc_pulse_unchained s 3).ctc_irqmask = s.ctc_irqmask := by
  rw [body_counts_at_200 _ _ _ hc hs hk]
  simp [hk]

/-- A pulse into channel 2, counting with its count at 0 or 0x100: channel 2 fires, and
what reaches channel 3 is one pulse in a state that agrees with the old one on channel
3, on the logged interrupts of channel 3 and on bit 3 of `ctc_irqmask`. -/
theorem chained_pulse (s : CtcSys) (hc : (s.ctc 2).ctrl &&& CTC_COUNTER ≠ 0)
    (hs : ¬ CTC_STOPPED (s.ctc 2))
    (hk : (s.ctc 2).count = 0 ∨ (s.ctc 2).count = 0x100) :
    ∃ x : CtcSys,
      ctc_receive_pulse s 2
        = (ctc_receive_pulse_body ctc_pulse_unchained x 3).mod 2
            (fun c => { c with count := (c.reload <<< 8) % 65536 }) ∧
      x.ctc 3 = s.ctc 3 ∧ x.irq_log.count 3 = s.irq_log.count 3 ∧
      x.ctc_irqmask &&& (1 <<< 3) = s.ctc_irqmask &&& (1 <<< 3) ∧
      (x.ctc 2).ctrl = (s.ctc 2).ctrl ∧ (x.ctc 2).reload = (s.ctc 2).reload := by
  have hlog : ∀ t : CtcSys, (ctc_interrupt t 2).irq_log.count 3 = t.irq_log.count 3 := by
    intro t
    rw [(ctc_interrupt_frame t 2).2.2.2.1]
    split_ifs
    · rw [List.count_append]
      simp
    · rfl
  have hmask : ∀ t : CtcSys,
      (ctc_interrupt t 2).ctc_irqmask &&& (1 <<< 3) = t.ctc_irqmask &&& (1 <<< 3) := by
    intro t
    rw [(ctc_interrupt_frame t 2).2.2.2.2]
    split_ifs
    · exact KZ80.or_and_disjoint _ 4 8 (by decide)
    · rfl
  rcases hk with h0 | h0
  · refine ⟨ctc_pulse_unchained (ctc_interrupt s 2) 2, ?_, ?_, ?_, ?_, ?_, ?_⟩
    · rw [ctc_receive_pulse, body_fires_at_0 _ _ _ hc hs h0]
      simp only [ctc_pulse, if_true]
    · simp only [ctc_pulse_unchained_frame, ctc_interrupt_frame]
    · simp only [ctc_pulse_unchained_frame, hlog]
    · simp only [ctc_pulse_unchained_frame, hmask]
    · simp only [ctc_pulse_unchained_frame, ctc_interrupt_frame]
    · simp only [ctc_pulse_unchained_frame, ctc_interrupt_frame]
  · refine ⟨ctc_pulse_unchained
      (ctc_interrupt (s.mod 2 (fun c => { c with count := c.count - 0x100 })) 2) 2,
      ?_, ?_, ?_, ?_, ?_, ?_⟩
    · rw [ctc_receive_pulse, body_fires_at_100 _ _ _ hc hs h0]
      simp only [ctc_pulse, if_true]
    · simp [ctc_pulse_unchained_frame, ctc_interrupt_frame]
    · simp only [ctc_pulse_unchained_frame, hlog, ctc_mod_irq_log]
    · simp only [ctc_pulse_unchained_frame, hmask, ctc_mod_irqmask]
    · simp [ctc_pulse_unchained_frame, ctc_interrupt_frame]
    · simp [ctc_pulse_unchained_frame, ctc_interrupt_frame]

/-- Shared core of the chain scenario: channel 2 counting with reload 1 from count 0,
channel 3 counting with interrupts enabled and reload 2 from count 0 or 0x100. -/
theorem chain_two_pulses (s : CtcSys)
    (hc2 : (s.ctc 2).ctrl &&& CTC_COUNTER ≠ 0) (hs2 : ¬ CTC_STOPPED (s.ctc 2))
    (hr2 : (s.ctc 2).reload = 1) (hk2 : (s.ctc 2).count = 0)
    (hc3 : (s.ctc 3).ctrl &&& CTC_COUNTER ≠ 0) (hq3 : (s.ctc 3).ctrl &&& CTC_IRQ ≠ 0)
    (hs3 : ¬ CTC_STOPPED (s.ctc 3)) (hr3 : (s.ctc 3).reload = 2)
    (hk3 : (s.ctc 3).count = 0 ∨ (s.ctc 3).count = 0x100) :
    (ctc_pulses s 2 1).irq_log.count 3 = s.irq_log.count 3 + 1 ∧
    (ctc_pulses s 2 2).irq_log.count 3 = s.irq_log.count 3 + 1 ∧
    (ctc_pulses s 2 2).ctc_irqmask &&& (1 <<< 3) ≠ 0 := by
  obtain ⟨x, hx, hx3, hxl, hxm, hxc, hxr⟩ := chained_pulse s hc2 hs2 (Or.inl hk2)
  have f1 := chain_fires x (by rw [hx3]; exact hc3) (by rw [hx3]; exact hq3)
    (by rw [hx3]; exact hs3) (by rw [hx3]; exact hr3) (by rw [hx3]; exact hk3)
  have g1 := chain_frame x
  have e2 : ((ctc_receive_pulse s 2).ctc 2).ctrl = (s.ctc 2).ctrl := by
    rw [hx]
    simp [g1.1 2 (by decide), hxc]
  have e2r : ((ctc_receive_pulse s 2).ctc 2).reload = 1 := by
    rw [hx]
    simp [g1.1 2 (by decide), hxr, hr2]
  have e2k : ((ctc_receive_pulse s 2).ctc 2).count = 0x100 := by
    rw [hx]
    simp [g1.1 2 (by decide), hxr, hr2]
  have e3 : (ctc_receive_pulse s 2).ctc 3
      = (ctc_receive_pulse_body ctc_pulse_unchained x 3).ctc 3 := by
    rw [hx]
    simp
  have el : (ctc_receive_pulse s 2).irq_log.count 3 = s.irq_log.count 3 + 1 := by
    rw [hx]
    simp [f1.2.2.2.1, hxl]
  have em : (ctc_receive_pulse s 2).ctc_irqmask &&& (1 <<< 3) ≠ 0 := by
    rw [hx]
    exact f1.2.2.2.2
  have hs2b : ¬ CTC_STOPPED ((ctc_receive_pulse s 2).ctc 2) := by
    unfold CTC_STOPPED at hs2 ⊢
    rw [e2]
    exact hs2
  obtain ⟨y, hy, hy3, hyl, hym, _, _⟩ := chained_pulse (ctc_receive_pulse s 2)
    (by rw [e2]; exact hc2) hs2b (Or.inr e2k)
  have hy3c : (y.ctc 3).ctrl = (s.ctc 3).ctrl := by rw [hy3, e3, f1.1, hx3]
  have hs3b : ¬ CTC_STOPPED (y.ctc 3) := by
    unfold CTC_STOPPED at hs3 ⊢
    rw [hy3c]
    exact hs3
  have f2 := chain_counts y (by rw [hy3c]; exact hc3) hs3b (by rw [hy3, e3]; exact f1.2.2.1)
  refine ⟨el, ?_, ?_⟩
  · show (ctc_receive_pulse (ctc_receive_pulse s 2) 2).irq_log.count 3 = _
    rw [hy]
    simp [f2.2.2.2.1, hyl, el]
  · show (ctc_receive_pulse (ctc_receive_pulse s 2) 2).ctc_irqmask &&& (1 <<< 3) ≠ 0
    rw [hy]
    simp only [ctc_mod_irqmask, f2.2.2.2.2, hym]
    exact em

/-- Shared core of the reload-1 scenario: a channel programmed from power-on in counter
mode with interrupts enabled and time constant 1 fires on every pulse. -/
theorem program_then_pulses (i cw n : Nat) (hi : i < 4) (hcw : cw < 256)
    (hcontrol : cw &&& CTC_CONTROL ≠ 0) (htconst : cw &&& CTC_TCONST ≠ 0)
    (hcounter : cw &&& CTC_COUNTER ≠ 0) (hirq : cw &&& CTC_IRQ ≠ 0) :
    (ctc_pulses (ctc_program ctc_power_on i cw 1) i n).irq_log.count i = n ∧
    (ctc_pulses (ctc_program ctc_power_on i cw 1) i n).pulse_log.count i = n ∧
    (0 < n →
      (ctc_pulses (ctc_program ctc_power_on i cw 1) i n).ctc_irqmask &&& (1 <<< i) ≠ 0) := by
  have hp := ctc_program_frame ctc_power_on i cw 1 hi hcw (by decide)
    (by rw [ctc_power_on_chan i hi]; decide) rfl hcontrol htconst
  have hb := cw_bits cw hcw htconst
  have hk : ((ctc_program ctc_power_on i cw 1).ctc i).count = 0 := by
    rw [hp.1, ctc_power_on_chan i hi]
    simp [ctc_count_of_reload]
  have h := pulses_fire (ctc_program ctc_power_on i cw 1) i
    (by rw [hp.1]; show (cw &&& 251) &&& 64 ≠ 0; rw [hb.2.2.2.1]; exact hcounter)
    (by rw [hp.1]; show (cw &&& 251) &&& 128 ≠ 0; rw [hb.2.2.2.2.1]; exact hirq)
    (by rw [hp.1]; exact hb.2.2.1)
    (by rw [hp.1]) (Or.inl hk) n
  rw [hp.2.2.1, hp.2.2.2.1] at h
  refine ⟨?_, ?_, h.2.2.2.2.2⟩
  · rw [h.2.2.2.1]
    show (0 : Nat) + n = n
    omega
  · rw [h.2.2.2.2.1]
    show (0 : Nat) + n = n
    omega

/-! ### The CTC claims -/

/-- C19, as stated, fails: channel 2 programmed from power-on with control word `0xC5`
(interrupts enabled, counter mode, time constant follows) and time constant 1 reaches
zero on every pulse; after 256 pulses `ctc_interrupt` has been entered 256 times for it
and 256 outbound pulses have gone to channel 3 (two of each after the first two
pulses), not one. -/
theorem c19_every_pulse_fires_256 :
    (ctc_pulses (ctc_program ctc_power_on 2 0xC5 1) 2 256).irq_log.count 2 = 256 ∧
    (ctc_pulses (ctc_program ctc_power_on 2 0xC5 1) 2 256).pulse_log.count 2 = 256 ∧
    (ctc_pulses (ctc_program ctc_power_on 2 0xC5 1) 2 2).pulse_log = [2, 2] :=
  ⟨(program_then_pulses 2 0xC5 256 (by decide) (by decide) (by decide) (by decide)
      (by decide) (by decide)).1,
   (program_then_pulses 2 0xC5 256 (by decide) (by decide) (by decide) (by decide)
      (by decide) (by decide)).2.1, by decide⟩

/-- C19 (amended): for a CTC channel programmed from power-on through `ctc_write` in
counter mode with interrupts enabled and time constant (reload) 1, every inbound pulse
(`ctc_receive_pulse`) reaches the zero count: after `n` successive pulses (256 in the
scenario) the channel's interrupt has been requested `n` times and `n` outbound pulses
have been propagated, the channel's bit of `ctc_irqmask` being set from the first pulse
on. -/
theorem c19_reload_one_fires_on_every_pulse (i cw n : Nat) (hi : i < 4) (hcw : cw < 256)
    (hcontrol : cw &&& CTC_CONTROL ≠ 0) (htconst : cw &&& CTC_TCONST ≠ 0)
    (hcounter : cw &&& CTC_COUNTER ≠ 0) (hirq : cw &&& CTC_IRQ ≠ 0) :
    (ctc_pulses (ctc_program ctc_power_on i cw 1) i n).irq_log.count i = n ∧
    (ctc_pulses (ctc_program ctc_power_on i cw 1) i n).pulse_log.count i = n ∧
    (0 < n →
      (ctc_pulses (ctc_program ctc_power_on i cw 1) i n).ctc_irqmask &&& (1 <<< i) ≠ 0) :=
  program_then_pulses i cw n hi hcw hcontrol htconst hcounter hirq

/-- C19 at the scenario's input: channel 2, control word `0xC5`, 256 pulses. -/
theorem c19_reload_one_fires_on_every_pulse_witness :
    ((2 : Nat) < 4 ∧ (0xC5 : Nat) < 256 ∧ 0xC5 &&& CTC_CONTROL ≠ 0 ∧ 0xC5 &&& CTC_TCONST ≠ 0 ∧
      0xC5 &&& CTC_COUNTER ≠ 0 ∧ 0xC5 &&& CTC_IRQ ≠ 0) ∧
    (ctc_pulses (ctc_program ctc_power_on 2 0xC5 1) 2 256).irq_log.count 2 = 256 ∧
    (ctc_pulses (ctc_program ctc_power_on 2 0xC5 1) 2 256).pulse_log.count 2 = 256 :=
  ⟨by decide,
   (c19_reload_one_fires_on_every_pulse 2 0xC5 256 (by decide) (by decide) (by decide)
      (by decide) (by decide) (by decide)).1,
   (c19_reload_one_fires_on_every_pulse 2 0xC5 256 (by decide) (by decide) (by decide)
      (by decide) (by decide) (by decide)).2.1⟩

/-- C20: starting from `ctc_init`, with CTC channel 2 programmed through `ctc_write` in
counter mode with time constant 1 (control word `cw2`) and channel 3 programmed in
counter mode with interrupts enabled and time constant 2 (control word `cw3`), two
inbound pulses into channel 2 cause channel 3's interrupt to be requested exactly once,
and its bit of `ctc_irqmask` is set. -/
theorem c20_chain_fires_channel_3_once (cw2 cw3 : Nat) (h2 : cw2 < 256) (h3 : cw3 < 256)
    (hcontrol2 : cw2 &&& CTC_CONTROL ≠ 0) (htconst2 : cw2 &&& CTC_TCONST ≠ 0)
    (hcounter2 : cw2 &&& CTC_COUNTER ≠ 0)
    (hcontrol3 : cw3 &&& CTC_CONTROL ≠ 0) (htconst3 : cw3 &&& CTC_TCONST ≠ 0)
    (hcounter3 : cw3 &&& CTC_COUNTER ≠ 0) (hirq3 : cw3 &&& CTC_IRQ ≠ 0) :
    (ctc_pulses (ctc_program (ctc_program ctc_power_on 2 cw2 1) 3 cw3 2) 2 2).irq_log.count 3
      = 1 ∧
    (ctc_pulses (ctc_program (ctc_program ctc_power_on 2 cw2 1) 3 cw3 2) 2 2).ctc_irqmask
      &&& (1 <<< 3) ≠ 0 := by
  have p2 := ctc_program_frame ctc_power_on 2 cw2 1 (by decide) h2 (by decide)
    (by decide) rfl hcontrol2 htconst2
  have p3 := ctc_program_frame (ctc_program ctc_power_on 2 cw2 1) 3 cw3 2 (by decide) h3
    (by decide) (by rw [p2.2.1 3 (by decide)]; decide) p2.2.2.2.2 hcontrol3 htconst3
  have b2 := cw_bits cw2 h2 htconst2
  have b3 := cw_bits cw3 h3 htconst3
  have e2 := p3.2.1 2 (by decide)
  rw [p2.1] at e2
  have h := chain_two_pulses (ctc_program (ctc_program ctc_power_on 2 cw2 1) 3 cw3 2)
    (by rw [e2]; show (cw2 &&& 251) &&& 64 ≠ 0; rw [b2.2.2.2.1]; exact hcounter2)
    (by rw [e2]; exact b2.2.2.1)
    (by rw [e2])
    (by rw [e2]; simp [ctc_count_of_reload, ctc_power_on_chan])
    (by rw [p3.1]; show (cw3 &&& 251) &&& 64 ≠ 0; rw [b3.2.2.2.1]; exact hcounter3)
    (by rw [p3.1]; show (cw3 &&& 251) &&& 128 ≠ 0; rw [b3.2.2.2.2.1]; exact hirq3)
    (by rw [p3.1]; exact b3.2.2.1)
    (by rw [p3.1])
    (by
      rw [p3.1, p2.2.1 3 (by decide)]
      by_cases hr : cw3 &&& CTC_RESET = 0
      · exact Or.inl (by simp [hr, ctc_power_on_chan])
      · exact Or.inr (by simp [hr, ctc_count_of_reload]))
  rw [p3.2.2.1, p2.2.2.1] at h
  exact ⟨h.2.1, h.2.2⟩

/-- C20 at a concrete input: control words `0x45` for channel 2 and `0xC5` for channel
3. -/
theorem c20_chain_fires_channel_3_once_witness :
    ((0x45 : Nat) < 256 ∧ (0xC5 : Nat) < 256 ∧ 0x45 &&& CTC_CONTROL ≠ 0 ∧
      0x45 &&& CTC_TCONST ≠ 0 ∧ 0x45 &&& CTC_COUNTER ≠ 0 ∧ 0xC5 &&& CTC_CONTROL ≠ 0 ∧
      0xC5 &&& CTC_TCONST ≠ 0 ∧ 0xC5 &&& CTC_COUNTER ≠ 0 ∧ 0xC5 &&& CTC_IRQ ≠ 0) ∧
    (ctc_pulses (ctc_program (ctc_program ctc_power_on 2 0x45 1) 3 0xC5 2) 2 2).irq_log.count
      3 = 1 :=
  ⟨by decide,
   (c20_chain_fires_channel_3_once 0x45 0xC5 (by decide) (by decide) (by decide) (by decide)
      (by decide) (by decide) (by decide) (by decide) (by decide)).1⟩

end RC2014

/-! ## Theorems: CTC interrupt poll, time constant and timer tick of `rc2014-6502.c` -/

namespace RC2014

/-! ### The vector of the interrupt poll -/

/-- The channel the `for` loop of `ctc_check_im2` stops at: the lowest one whose bit of
`ctc_irqmask` is set. -/
theorem lowest_pending (m n : Nat) (hn : n < 4) (hset : m &&& (1 <<< n) ≠ 0)
    (hlow : ∀ j, j < n → m &&& (1 <<< j) = 0) :
    (List.range 4).find? (fun i => m &&& (1 <<< i) ≠ 0) = some n := by
  have hr : List.range 4 = [0, 1, 2, 3] := rfl
  rw [hr]
  interval_cases n
  · simp at hset
    simp [List.find?, hset]
  · have h0 := hlow 0 (by decide)
    simp at hset h0
    simp [List.find?, hset, h0]
  · have h0 := hlow 0 (by decide)
    have h1 := hlow 1 (by decide)
    simp at hset h0 h1
    simp [List.find?, hset, h0, h1]
  · have h0 := hlow 0 (by decide)
    have h1 := hlow 1 (by decide)
    have h2 := hlow 2 (by decide)
    simp at hset h0 h1 h2
    simp [List.find?, hset, h0, h1, h2]

/-- C21: when a CTC channel has a pending interrupt, the vector computed by
`ctc_check_im2` for the lowest-numbered pending channel `n` is
`(ctc[0].vector AND 0xF8) + 2*n`, for every `n` in 0..3 and every stored channel-0
vector byte; a state that differs in the vector bytes of channels 1..3 (or in anything
but `ctc_irqmask` and the vector byte of channel 0) computes the same vector. -/
theorem c21_poll_vector (s : CtcSys) (n : Nat) (hn : n < 4)
    (hset : s.ctc_irqmask &&& (1 <<< n) ≠ 0)
    (hlow : ∀ j, j < n → s.ctc_irqmask &&& (1 <<< j) = 0) :
    (ctc_check_im2 s).1 = 1 ∧
    (ctc_check_im2 s).2.1 = some (((s.ctc 0).vector &&& 0xF8) + 2 * n) ∧
    (∀ t : CtcSys, t.ctc_irqmask = s.ctc_irqmask → (t.ctc 0).vector = (s.ctc 0).vector →
      (ctc_check_im2 t).2.1 = (ctc_check_im2 s).2.1) := by
  have hne : s.ctc_irqmask ≠ 0 := by
    intro h0
    rw [h0] at hset
    simp at hset
  have hv : ((s.ctc 0).vector &&& 0xF8) + 2 * n < 256 := by
    have := @Nat.and_le_right (s.ctc 0).vector 0xF8
    omega
  have hs : (ctc_check_im2 s).2.1 = some (((s.ctc 0).vector &&& 0xF8) + 2 * n) := by
    simp only [ctc_check_im2, if_pos hne, lowest_pending _ n hn hset hlow,
      Nat.mod_eq_of_lt hv]
  refine ⟨?_, hs, fun t hm h0 => ?_⟩
  · simp only [ctc_check_im2, if_pos hne, lowest_pending _ n hn hset hlow]
  · rw [hs]
    simp only [ctc_check_im2, hm, h0, if_pos hne, lowest_pending _ n hn hset hlow,
      Nat.mod_eq_of_lt hv]

/-- C21 at a concrete state: channels 1 and 3 pending, vector byte `0x56` in channel 0
and `0xA8` in channel 3; the vector computed is `0x52`. -/
theorem c21_poll_vector_witness :
    ((1 : Nat) < 4 ∧ st_ctc_pending.ctc_irqmask &&& (1 <<< 1) ≠ 0 ∧
      (st_ctc_pending.ctc 3).vector = 0xA8) ∧
    (ctc_check_im2 st_ctc_pending).2.1 = some 0x52 :=
  ⟨by decide,
   (c21_poll_vector st_ctc_pending 1 (by decide) (by decide)
      (by intro j hj; interval_cases j; decide)).2.1⟩

/-! ### The time constant -/

/-- What `ctc_write` does with a byte when the channel awaits its time constant: the
byte goes to `reload`, the counter is loaded when the channel is stopped (reset bit set
as well), and the control byte only loses the bit `CTC_TCONST`. -/
theorem ctc_write_tconst (s : CtcSys) (i v : Nat) (hi : i < 4) (hv : v < 256)
    (ht : (s.ctc i).ctrl &&& CTC_TCONST ≠ 0) :
    ((ctc_write s i v).ctc i).reload = v ∧
    ((ctc_write s i v).ctc i).count
      = (if CTC_STOPPED (s.ctc i) then ctc_count_of_reload v else (s.ctc i).count) ∧
    ((ctc_write s i v).ctc i).ctrl = (s.ctc i).ctrl &&& 0xFB := by
  have hi256 : i % 256 = i := Nat.mod_eq_of_lt (by omega)
  simp only [ctc_write, hi256, Nat.mod_eq_of_lt hv, ht, ne_eq, not_false_eq_true, if_true]
  by_cases hstop : (s.ctc i).ctrl &&& 6 = 6
  · simp [CTC_STOPPED, hstop, CTC_TCONST, CTC_RESET]
  · simp [CTC_STOPPED, hstop, CTC_TCONST, CTC_RESET]

/-- C29 (the code at the failing input): channel 0 holds control byte `0x07` (reset and
time constant pending); the time constant 5 goes to `reload` and the counter is loaded
with `4 * 256`, but the control byte is `0x03` afterwards: `CTC_TCONST` is cleared and
`CTC_RESET` is still set, because `~CTC_TCONST|CTC_RESET` is `(~CTC_TCONST)|CTC_RESET`. -/
theorem c29_reset_bit_survives_time_constant :
    (st_ctc_reset_tconst.ctc 0).ctrl = 0x07 ∧
    ((ctc_write st_ctc_reset_tconst 0 5).ctc 0).reload = 5 ∧
    ((ctc_write st_ctc_reset_tconst 0 5).ctc 0).count = 4 * 256 ∧
    ((ctc_write st_ctc_reset_tconst 0 5).ctc 0).ctrl = 0x03 ∧
    ((ctc_write st_ctc_reset_tconst 0 5).ctc 0).ctrl &&& CTC_RESET ≠ 0 := by
  decide

/-! ### The timer tick -/

end RC2014

/-! ## Theorems: the 6522 VIA of `rc2014-6502.c` -/

namespace RC2014

@[simp]
theorem via_mod_via (s : ViaSys) (f : via6522 → via6522) : (s.mod f).via = f s.via := rfl

@[simp]
theorem via_mod_live_irq (s : ViaSys) (f : via6522 → via6522) :
    (s.mod f).live_irq = s.live_irq := rfl

/-- Setting bit 7 of the flags does not change which enabled interrupts are flagged. -/
theorem flagged_or_80 (a b : Nat) : ((a ||| 0x80) &&& b) &&& 0x7F = (b &&& a) &&& 0x7F := by
  rw [Nat.and_assoc, Nat.and_comm (a ||| 0x80), Nat.and_assoc,
    Nat.and_comm 0x7F, KZ80.or_and_disjoint a 0x80 0x7F (by decide), ← Nat.and_assoc]

/-- Clearing bit 7 of the flags does not change which enabled interrupts are flagged. -/
theorem flagged_and_7F (a b : Nat) : ((a &&& 0x7F) &&& b) &&& 0x7F = (b &&& a) &&& 0x7F := by
  rw [Nat.and_assoc, Nat.and_comm (a &&& 0x7F), Nat.and_assoc,
    Nat.and_comm 0x7F, KZ80.and_and_lit a 0x7F 0x7F 0x7F (by decide), ← Nat.and_assoc]

/-- After `via_recalc_irq` the invariant holds, whatever the state was before. -/
theorem via_recalc_inv (s : ViaSys) : via_inv (via_recalc_irq s) := by
  have hset : int_set s.live_irq IRQ_VIA &&& (1 <<< IRQ_VIA) ≠ 0 :=
    KZ80.or_and_self_ne_zero _ 64 (by decide)
  have hclr : int_clear s.live_irq IRQ_VIA &&& (1 <<< IRQ_VIA) = 0 := by
    show (s.live_irq &&& 191) &&& 64 = 0
    rw [KZ80.and_and_lit _ 191 64 0 (by decide), Nat.and_zero]
  have h80 : (s.via.ifr ||| 0x80) &&& 0x80 ≠ 0 := KZ80.or_and_self_ne_zero _ 128 (by decide)
  have h7F : (s.via.ifr &&& 0x7F) &&& 0x80 = 0 := by
    rw [KZ80.and_and_lit _ 127 128 0 (by decide), Nat.and_zero]
  unfold via_inv
  by_cases h : (s.via.ier &&& s.via.ifr) &&& 0x7F = 0
  · simp only [via_recalc_irq, h, ne_eq, not_true_eq_false, if_false, via_mod_via,
      via_mod_live_irq, flagged_and_7F, h7F, hclr]
    exact ⟨trivial, trivial⟩
  · simp only [via_recalc_irq, h, ne_eq, not_false_eq_true, if_true, via_mod_via,
      via_mod_live_irq, flagged_or_80, h80, hset]
    exact ⟨trivial, trivial⟩

/-- The invariant only looks at `ifr`, `ier` and `live_irq`. -/
theorem via_inv_mod (s : ViaSys) (f : via6522 → via6522) (h1 : (f s.via).ifr = s.via.ifr)
    (h2 : (f s.via).ier = s.via.ier) (h : via_inv s) : via_inv (s.mod f) := by
  unfold via_inv at h ⊢
  simp only [via_mod_via, via_mod_live_irq, h1, h2]
  exact h

/-- Both branches of a test keep the invariant. -/
theorem via_inv_ite (c : Prop) [Decidable c] (a b : ViaSys) (ha : via_inv a)
    (hb : via_inv b) : via_inv (if c then a else b) := by
  split_ifs
  · exact ha
  · exact hb

/-- A guest write keeps the invariant. -/
theorem via_write_inv (s : ViaSys) (addr val : Nat) (h : via_inv s) :
    via_inv (via_write s addr val) := by
  simp only [via_write, via_recalc_all]
  repeat first
    | exact h
    | with_reducible exact via_recalc_inv _
    | with_reducible apply via_inv_ite
    | with_reducible exact via_inv_mod _ _ rfl rfl h

/-- The states a read can leave: only the reads of registers 4 and 8 change anything. -/
theorem via_read_state (s : ViaSys) (addr : Nat) :
    (via_read s addr).2 = s ∨
    (via_read s addr).2
      = via_recalc_irq (s.mod (fun v => { v with ifr := v.ifr &&& (0xFF ^^^ 0x40) })) ∨
    (via_read s addr).2
      = via_recalc_irq (s.mod (fun v => { v with ifr := v.ifr &&& (0xFF ^^^ 0x20) })) := by
  unfold via_read
  by_cases h4 : addr % 256 = 4
  · right
    left
    simp only [h4, OfNat.ofNat_ne_zero, OfNat.ofNat_ne_one, Nat.reduceEqDiff, if_true, if_false]
  by_cases h8 : addr % 256 = 8
  · right
    right
    simp only [h8, OfNat.ofNat_ne_zero, OfNat.ofNat_ne_one, Nat.reduceEqDiff, if_true, if_false]
  left
  simp only [h4, h8, if_false, apply_ite Prod.snd, ite_self]

/-- A guest read keeps the invariant. -/
theorem via_read_inv (s : ViaSys) (addr : Nat) (h : via_inv s) :
    via_inv (via_read s addr).2 := by
  rcases via_read_state s addr with h1 | h1 | h1
  · rw [h1]
    exact h
  · rw [h1]
    exact via_recalc_inv _
  · rw [h1]
    exact via_recalc_inv _

/-- The tick keeps the invariant. -/
theorem via_tick_inv (s : ViaSys) (clocks : Int) (h : via_inv s) :
    via_inv (via_tick s clocks) := by
  have h1 : via_inv (via_tick_t1 s clocks) := by
    simp only [via_tick_t1]
    split_ifs
    · exact via_inv_mod _ _ rfl rfl (via_recalc_inv _)
    · exact via_inv_mod _ _ rfl rfl (via_recalc_inv _)
    · exact via_inv_mod _ _ rfl rfl h
    · exact h
  simp only [via_tick, via_tick_t2]
  split_ifs
  · exact via_inv_mod _ _ rfl rfl (via_inv_mod _ _ rfl rfl (via_recalc_inv _))
  · exact via_inv_mod _ _ rfl rfl h1
  · exact h1

/-- Every VIA operation keeps the invariant. -/
theorem via_step_inv (s : ViaSys) (op : ViaOp) (h : via_inv s) : via_inv (via_step s op) := by
  cases op with
  | read addr => exact via_read_inv s addr h
  | write addr val => exact via_write_inv s addr val h
  | tick clocks => exact via_tick_inv s clocks h

/-- Every run keeps the invariant. -/
theorem via_run_inv (ops : List ViaOp) : ∀ s : ViaSys, via_inv s → via_inv (via_run s ops) := by
  induction ops with
  | nil =>
    intro s h
    exact h
  | cons op ops ih =>
    intro s h
    exact ih _ (via_step_inv s op h)

/-- The invariant holds at power-on. -/
theorem via_power_on_inv : via_inv via_power_on := by
  unfold via_inv
  decide

/-- C22: in every VIA state reachable from the zeroed power-on state through `via_read`,
`via_write` and `via_tick`, IFR bit 7 is set if and only if `IFR AND IER AND 0x7F` is
nonzero, and the VIA bit of `live_irq` is set under exactly the same condition. -/
theorem c22_ifr_bit_7_tracks_enabled (ops : List ViaOp) (s : ViaSys)
    (hrun : via_run via_power_on ops = s) :
    (s.via.ifr &&& 0x80 ≠ 0 ↔ (s.via.ifr &&& s.via.ier) &&& 0x7F ≠ 0) ∧
    (s.live_irq &&& (1 <<< IRQ_VIA) ≠ 0 ↔ (s.via.ifr &&& s.via.ier) &&& 0x7F ≠ 0) := by
  rw [← hrun]
  exact via_run_inv ops via_power_on via_power_on_inv

/-- C22 at a concrete run: timer 1 has expired with its interrupt enabled; IFR is `0xC0`
and the VIA bit of `live_irq` is up. -/
theorem c22_ifr_bit_7_tracks_enabled_witness :
    via_run via_power_on ops_via_t1 = st_via_t1 ∧
    (st_via_t1.via.ifr &&& 0x80 ≠ 0 ↔ (st_via_t1.via.ifr &&& st_via_t1.via.ier) &&& 0x7F ≠ 0) ∧
    st_via_t1.via.ifr = 0xC0 ∧ st_via_t1.live_irq = 0x40 :=
  ⟨rfl, (c22_ifr_bit_7_tracks_enabled ops_via_t1 st_via_t1 rfl).1, by decide, by decide⟩

/-- C23: for every VIA state and every byte `v`, `via_write` to register 3 (DDRA) with
`v` followed by `via_read` of register 3 returns `v`. -/
theorem c23_ddra_round_trip (s : ViaSys) (v : Nat) (hv : v < 256) :
    (via_read (via_write s 3 v) 3).1 = v := by
  simp only [via_write, via_read, via_recalc_all, via_recalc_irq, Nat.mod_eq_of_lt hv]
  simp
  split_ifs <;> rfl

/-- C23 at a concrete input: `0xA5` written to DDRA after timer 1 has expired. -/
theorem c23_ddra_round_trip_witness :
    (0xA5 : Nat) < 256 ∧ (via_read (via_write st_via_t1 3 0xA5) 3).1 = 0xA5 :=
  ⟨by decide, c23_ddra_round_trip st_via_t1 0xA5 (by decide)⟩

end RC2014

/-! ## Theorems: the real time clock of `rc2014-6502.c` -/

namespace RC2014

/-- A rising clock edge in write direction that does not complete a byte shifts the
data bit into `rtcw`. -/
theorem rtc_rise_write (s : Rtc) (now : Tm) (b : Nat) (hb : b = 0 ∨ b = 1)
    (hst : s.rtcst = 0x10) (hcnt : s.rtccnt < 7) :
    rtc_write s (0x50 ||| (b <<< 7)) now
      = some { s with rtcw := (s.rtcw >>> 1) ||| (b <<< 7), rtccnt := s.rtccnt + 1,
                      rtcst := 0x50 ||| (b <<< 7) } := by
  have h1 : (s.rtccnt + 1) % 256 = s.rtccnt + 1 := Nat.mod_eq_of_lt (by omega)
  have h2 : s.rtccnt + 1 ≠ 8 := by omega
  have e1 : (80 &&& 128 : Nat) = 0 := by decide
  have e2 : (208 &&& 128 : Nat) = 128 := by decide
  rcases hb with rfl | rfl
  · simp +decide [rtc_write, rtc_write_clock, hst, h1, h2, e1]
  · simp +decide [rtc_write, rtc_write_clock, hst, h1, h2, e2]

/-- The rising clock edge that completes a byte in write direction hands it to
`rtcop`. -/
theorem rtc_rise_write_last (s : Rtc) (now : Tm) (b : Nat) (hb : b = 0 ∨ b = 1)
    (hst : s.rtcst = 0x10) (hcnt : s.rtccnt = 7) :
    rtc_write s (0x50 ||| (b <<< 7)) now
      = (rtcop { s with rtcw := (s.rtcw >>> 1) ||| (b <<< 7), rtccnt := 8 }).map
          (fun t => { t with rtcst := 0x50 ||| (b <<< 7) }) := by
  have e1 : (80 &&& 128 : Nat) = 0 := by decide
  have e2 : (208 &&& 128 : Nat) = 128 := by decide
  rcases hb with rfl | rfl
  · simp +decide only [rtc_write, rtc_write_clock, hst, hcnt, e1, Nat.reduceShiftLeft,
      Nat.reduceOr, Nat.reduceMod, Nat.reduceXor, Nat.reduceAdd, ne_eq, if_true, if_false,
      not_true_eq_false, not_false_eq_true, and_self]
    generalize rtcop _ = r
    cases r <;> rfl
  · simp +decide only [rtc_write, rtc_write_clock, hst, hcnt, e2, Nat.reduceShiftLeft,
      Nat.reduceOr, Nat.reduceMod, Nat.reduceXor, Nat.reduceAdd, ne_eq, if_true, if_false,
      not_true_eq_false, not_false_eq_true, and_self]
    generalize rtcop _ = r
    cases r <;> rfl

/-- A falling clock edge while no burst is running shifts `rtcr` one place to the
right. -/
theorem rtc_fall (s : Rtc) (now : Tm) (val : Nat)
    (hst : (s.rtcst = 0x50 ∧ val = 0x10) ∨ (s.rtcst = 0xD0 ∧ val = 0x10) ∨
      (s.rtcst = 0x70 ∧ val = 0x30))
    (hbp : s.rtcbp = 0) :
    rtc_write s val now
      = some { s with rtcr := s.rtcr >>> 1, rtcbc := (s.rtcbc + 1) % 256, rtcst := val } := by
  rcases hst with ⟨h, rfl⟩ | ⟨h, rfl⟩ | ⟨h, rfl⟩ <;>
    simp +decide [rtc_write, rtc_write_clock, h, hbp]

/-- Turning the direction to read with the clock low changes only `rtcst`. -/
theorem rtc_turn_read (s : Rtc) (now : Tm) (hst : s.rtcst = 0x10) :
    rtc_write s 0x30 now = some { s with rtcst := 0x30 } := by
  simp +decide [rtc_write, hst]

/-- A rising clock edge in read direction shifts ones into `rtcw` and counts. -/
theorem rtc_rise_read (s : Rtc) (now : Tm) (hst : s.rtcst = 0x30) :
    rtc_write s 0x70 now
      = some { s with rtcw := (s.rtcw >>> 1) ||| 0xFF, rtccnt := (s.rtccnt + 1) % 256,
                      rtcst := 0x70 } := by
  simp +decide [rtc_write, rtc_write_clock, hst]

/-- One bit clocked out: the sample is bit 0 of `rtcr`, which moves on by one place. -/
theorem rtc_recv_bit_eq (s : Rtc) (now : Tm) (hst : s.rtcst = 0x30) (hbp : s.rtcbp = 0) :
    rtc_recv_bit s now
      = some ((if s.rtcr &&& 0x01 ≠ 0 then 1 else 0),
          { s with rtcw := (s.rtcw >>> 1) ||| 0xFF, rtccnt := (s.rtccnt + 1) % 256,
                   rtcr := s.rtcr >>> 1, rtcbc := (s.rtcbc + 1) % 256, rtcst := 0x30 }) := by
  have hr : rtc_read s = (if s.rtcr &&& 0x01 ≠ 0 then 1 else 0) := by
    simp +decide [rtc_read, hst]
  have hf := rtc_fall
    { s with rtcw := (s.rtcw >>> 1) ||| 0xFF, rtccnt := (s.rtccnt + 1) % 256, rtcst := 0x70 }
    now 0x30 (Or.inr (Or.inr ⟨rfl, rfl⟩)) hbp
  simp only [rtc_recv_bit, rtc_rise_read s now hst, hf, hr]

/-- Clocking out `n` bits assembles `n` samples of `rtcr`. -/
theorem rtc_recv_bits_eq (now : Tm) (n : Nat) : ∀ (s : Rtc) (i : Nat),
    s.rtcst = 0x30 → s.rtcbp = 0 →
    (rtc_recv_bits s now i n).map Prod.fst = some (sample_bits s.rtcr i n) := by
  induction n with
  | zero =>
    intro s i _ _
    rfl
  | succ n ih =>
    intro s i hst hbp
    have h := ih { s with rtcw := (s.rtcw >>> 1) ||| 0xFF, rtccnt := (s.rtccnt + 1) % 256,
                          rtcr := s.rtcr >>> 1, rtcbc := (s.rtcbc + 1) % 256, rtcst := 0x30 }
      (i + 1) rfl hbp
    simp only [rtc_recv_bits, rtc_recv_bit_eq s now hst hbp, sample_bits]
    generalize rtc_recv_bits _ now (i + 1) n = r at h ⊢
    cases r with
    | none => simp at h
    | some p =>
      simp only [Option.map_some', Option.some.injEq] at h ⊢
      rw [h]

/-- One clock pulse in write direction before the byte is complete: the bit enters
`rtcw` from the top. -/
theorem rtc_send_bit_eq (s : Rtc) (now : Tm) (b : Nat) (hb : b = 0 ∨ b = 1)
    (hst : s.rtcst = 0x10) (hcnt : s.rtccnt < 7) (hbp : s.rtcbp = 0) :
    rtc_send_bit s b now
      = some { s with rtcw := (s.rtcw >>> 1) ||| (b <<< 7), rtccnt := s.rtccnt + 1,
                      rtcr := s.rtcr >>> 1, rtcbc := (s.rtcbc + 1) % 256, rtcst := 0x10 } := by
  have hf := rtc_fall
    { s with rtcw := (s.rtcw >>> 1) ||| (b <<< 7), rtccnt := s.rtccnt + 1,
             rtcst := 0x50 ||| (b <<< 7) }
    now 0x10 (by rcases hb with rfl | rfl <;> simp) hbp
  simp only [rtc_send_bit, rtc_rise_write s now b hb hst hcnt, hf]

/-- Sending `n + 1` bits is sending `n` bits and then the last one. -/
theorem rtc_send_bits_snoc (byte : Nat) (now : Tm) (n : Nat) : ∀ (s : Rtc) (i : Nat),
    rtc_send_bits s byte now i (n + 1)
      = (rtc_send_bits s byte now i n).bind
          (fun t => rtc_send_bit t ((byte >>> (i + n)) &&& 1) now) := by
  induction n with
  | zero =>
    intro s i
    simp only [rtc_send_bits, Nat.add_zero, Option.some_bind]
    cases rtc_send_bit s ((byte >>> i) &&& 1) now <;> rfl
  | succ n ih =>
    intro s i
    rw [rtc_send_bits]
    cases h : rtc_send_bit s ((byte >>> i) &&& 1) now with
    | none => simp only [rtc_send_bits, h, Option.none_bind]
    | some s1 =>
      simp only []
      rw [ih s1 (i + 1)]
      conv_rhs => rw [rtc_send_bits]
      simp only [h]
      rw [show i + 1 + n = i + (n + 1) by omega]

/-- While the byte is incomplete, `n` clock pulses in write direction shift `n` bits
into `rtcw` and leave the protocol state and the latched time alone. -/
theorem rtc_send_bits_eq (byte : Nat) (now : Tm) (n : Nat) : ∀ (s : Rtc) (i : Nat),
    s.rtcst = 0x10 → s.rtcbp = 0 → s.rtccnt + n ≤ 7 →
    ∃ t, rtc_send_bits s byte now i n = some t ∧ t.rtcst = 0x10 ∧ t.rtcbp = 0 ∧
      t.rtccnt = s.rtccnt + n ∧ t.rtcw = shift_in s.rtcw byte i n ∧
      t.rtcstate = s.rtcstate ∧ t.rtc_tm = s.rtc_tm := by
  induction n with
  | zero =>
    intro s i hst hbp _
    exact ⟨s, rfl, hst, hbp, rfl, rfl, rfl, rfl⟩
  | succ n ih =>
    intro s i hst hbp hcnt
    have hb : (byte >>> i) &&& 1 = 0 ∨ (byte >>> i) &&& 1 = 1 := by
      rw [Nat.and_one_is_mod]
      omega
    have h1 := rtc_send_bit_eq s now ((byte >>> i) &&& 1) hb hst (by omega) hbp
    obtain ⟨t, ht, h2, h3, h4, h5, h6, h7⟩ := ih
      { s with rtcw := (s.rtcw >>> 1) ||| (((byte >>> i) &&& 1) <<< 7),
               rtccnt := s.rtccnt + 1, rtcr := s.rtcr >>> 1,
               rtcbc := (s.rtcbc + 1) % 256, rtcst := 0x10 }
      (i + 1) rfl hbp (by show s.rtccnt + 1 + n ≤ 7; omega)
    refine ⟨t, ?_, h2, h3, ?_, ?_, h6, h7⟩
    · rw [rtc_send_bits, h1]
      exact ht
    · rw [h4]
      show s.rtccnt + 1 + n = s.rtccnt + (n + 1)
      omega
    · rw [h5]
      rfl

/-- The command `0x81` complete in `rtcw`: `rtcop` loads the seconds into `rtcr`. -/
theorem rtcop_seconds (s : Rtc) (now : Tm) (hw : s.rtcw = 0x81) (hstate : s.rtcstate ≠ 2)
    (htm : s.rtc_tm = some now) :
    rtcop s = some { s with rtcstate := 1, rtcr := (bcd now.tm_sec <<< 1) % 65536 } := by
  have hd : rtcop_data s = s := by simp [rtcop_data, hstate]
  simp +decide [rtcop, hd, hw, rtcregread, htm, rtcregread_tm]

/-- The last bit of the command `0x81`: `rtcop` runs on the rising edge, and after the
falling edge the seconds stand in `rtcr`. -/
theorem rtc_send_last (t : Rtc) (now : Tm) (h1 : t.rtcst = 0x10) (h2 : t.rtcbp = 0)
    (h3 : t.rtccnt = 7) (h4 : t.rtcw = 2) (h5 : t.rtcstate ≠ 2) (h6 : t.rtc_tm = some now) :
    ∃ u, rtc_send_bit t 1 now = some u ∧ u.rtcst = 0x10 ∧ u.rtcbp = 0 ∧
      u.rtcr = ((bcd now.tm_sec <<< 1) % 65536) >>> 1 := by
  have hw : (t.rtcw >>> 1) ||| (1 <<< 7) = 0x81 := by
    rw [h4]
    rfl
  have hop := rtcop_seconds { t with rtcw := (t.rtcw >>> 1) ||| (1 <<< 7), rtccnt := 8 }
    now hw h5 h6
  have hrise := rtc_rise_write_last t now 1 (Or.inr rfl) h1 h3
  rw [hop] at hrise
  obtain ⟨u1, hu1, hst1, hbp1, hr1⟩ : ∃ u1, rtc_write t (0x50 ||| (1 <<< 7)) now = some u1 ∧
      u1.rtcst = 0xD0 ∧ u1.rtcbp = 0 ∧ u1.rtcr = (bcd now.tm_sec <<< 1) % 65536 :=
    ⟨_, hrise, rfl, h2, rfl⟩
  have hfall := rtc_fall u1 now 0x10 (Or.inr (Or.inl ⟨hst1, rfl⟩)) hbp1
  refine ⟨{ u1 with rtcr := u1.rtcr >>> 1, rtcbc := (u1.rtcbc + 1) % 256, rtcst := 0x10 },
    ?_, rfl, hbp1, ?_⟩
  · simp only [rtc_send_bit, hu1]
    exact hfall
  · show u1.rtcr >>> 1 = _
    rw [hr1]

/-- The BCD byte of a number below 60. -/
theorem bcd_small (v : Nat) (h : v ≤ 59) : bcd v = v % 10 + 16 * (v / 10) := by
  unfold bcd
  rw [Nat.shiftLeft_eq]
  omega

set_option maxRecDepth 100000 in
/-- Eight samples of a shift register holding a byte give the byte back. -/
theorem sample_bits_byte : ∀ v < 256, sample_bits v 0 8 = v := by
  decide



/-- Raising CE from the idle line state latches the host time. -/
theorem rtc_raise_ce_eq (s : Rtc) (now : Tm) (hst : s.rtcst = 0) :
    rtc_write s 0x10 now = some { s with rtc_tm := some now, rtcst := 0x10 } := by
  simp +decide [rtc_write, hst]

/-- The seconds read back over the serial protocol from any idle state. -/
theorem rtc_read_from_seconds (s : Rtc) (tm : Tm) (hs : tm.tm_sec ≤ 59)
    (hst : s.rtcst = 0) (hbp : s.rtcbp = 0) (hcnt : s.rtccnt = 0) (hw : s.rtcw = 0)
    (hstate : s.rtcstate ≠ 2) :
    rtc_read_from s 0x81 tm = some (tm.tm_sec % 10 + 16 * (tm.tm_sec / 10)) := by
  obtain ⟨t, ht, h1, h2, h3, h4, h5, h6⟩ := rtc_send_bits_eq 0x81 tm 7
    { s with rtc_tm := some tm, rtcst := 0x10 } 0 rfl hbp
    (by show s.rtccnt + 7 ≤ 7; omega)
  have h3a : t.rtccnt = 7 := by
    rw [h3]
    show s.rtccnt + 7 = 7
    omega
  have h4a : t.rtcw = 2 := by
    rw [h4]
    show shift_in s.rtcw 0x81 0 7 = 2
    rw [hw]
    decide
  have h5a : t.rtcstate ≠ 2 := by
    rw [h5]
    exact hstate
  obtain ⟨u, hu, hust, hubp, hur⟩ := rtc_send_last t tm h1 h2 h3a h4a h5a h6
  have hbit : ((0x81 : Nat) >>> (0 + 7)) &&& 1 = 1 := by decide
  have hrecv := rtc_recv_bits_eq tm 8 { u with rtcst := 0x30 } 0 rfl hubp
  have hv : bcd tm.tm_sec < 256 := by
    rw [bcd_small _ hs]
    omega
  have hr : ((bcd tm.tm_sec <<< 1) % 65536) >>> 1 = bcd tm.tm_sec := by
    rw [Nat.shiftLeft_eq, Nat.shiftRight_eq_div_pow]
    omega
  unfold rtc_read_from
  rw [rtc_raise_ce_eq s tm hst]
  simp only []
  rw [rtc_send_bits_snoc, ht]
  simp only [Option.some_bind, hbit]
  rw [hu]
  simp only []
  rw [rtc_turn_read u tm hust]
  simp only []
  rw [hrecv]
  show some (sample_bits u.rtcr 0 8) = _
  rw [hur, hr, sample_bits_byte _ hv, bcd_small _ hs]

/-- C24: when `rtcop` executes a received byte whose bit 7 is clear as a command byte,
that is while the state machine is not awaiting a write data byte (`rtcstate` is not 2),
the NVRAM contents, the write-protect flag and the 24-hour flag are unchanged and the
state machine is left in the idle state 0. -/
theorem c24_broken_command_changes_nothing (s : Rtc) (hstate : s.rtcstate ≠ 2)
    (hbit : s.rtcw &&& 0x80 = 0) :
    ∃ t, rtcop s = some t ∧ t.rtcram = s.rtcram ∧ t.rtcwp = s.rtcwp ∧ t.rtc24 = s.rtc24 ∧
      t.rtcstate = 0 := by
  refine ⟨{ s with rtcstate := 0, rtcr := 0x1FF }, ?_, rfl, rfl, rfl, rfl⟩
  simp only [rtcop, rtcop_data, if_neg hstate, hbit, if_true]

/-- C24 at a concrete state: the byte `0x01` clocked in after power-on. -/
theorem c24_broken_command_changes_nothing_witness :
    (st_rtc_bad_command.rtcstate ≠ 2 ∧ st_rtc_bad_command.rtcw &&& 0x80 = 0) ∧
    ∃ t, rtcop st_rtc_bad_command = some t ∧ t.rtcram = st_rtc_bad_command.rtcram ∧
      t.rtcwp = st_rtc_bad_command.rtcwp ∧ t.rtc24 = st_rtc_bad_command.rtc24 ∧
      t.rtcstate = 0 :=
  ⟨by decide, c24_broken_command_changes_nothing st_rtc_bad_command (by decide) (by decide)⟩

/-- C25: starting from the power-on state, after raising CE with the latched host time
having seconds `s` (0..59), clocking in command byte `0x81` least significant bit first
in write direction and then clocking out 8 bits (sampling `rtc_read` before each clock
pulse, least significant bit first), the assembled byte is the BCD encoding of `s`,
`(s mod 10) + 16 * (s div 10)`. -/
theorem c25_read_seconds (tm : Tm) (hs : tm.tm_sec ≤ 59) :
    rtc_read_register 0x81 tm = some (tm.tm_sec % 10 + 16 * (tm.tm_sec / 10)) :=
  rtc_read_from_seconds rtc_power_on tm hs rfl rfl rfl rfl (by decide)

/-- C25 at the scenario's input: seconds 42 read back as `0x42`. -/
theorem c25_read_seconds_witness :
    tm_example.tm_sec ≤ 59 ∧ rtc_read_register 0x81 tm_example = some 0x42 :=
  ⟨by decide, c25_read_seconds tm_example (by decide)⟩

end RC2014

/-! ## Theorems: banked reads of `rc2014-6502.c` -/

namespace RC2014

theorem bank_bits (x : Nat) : (x &&& 0xC000) >>> 14 = (x >>> 14) &&& 3 := by
  apply Nat.eq_of_testBit_eq
  intro i
  have h : (0xC000 : Nat) = 3 <<< 14 := by decide
  rw [Nat.testBit_shiftRight, Nat.testBit_and, Nat.testBit_and, Nat.testBit_shiftRight, h,
    Nat.testBit_shiftLeft]
  simp

theorem bank_bits_lt (x : Nat) : (x >>> 14) &&& 3 < 4 := by
  have h : (x >>> 14) &&& 3 ≤ 3 := Nat.and_le_right
  omega

/-- C26: in the 6502 profile with address-inversion mask `m`, with banking disabled
`do_6502_read(addr)` returns `backing[(addr XOR m) AND 0x3FFF]`, and with banking
enabled it returns
`backing[(bankreg[((addr XOR m) >> 14) AND 3] << 14) + ((addr XOR m) AND 0x3FFF)]`
(addresses and mask are 16-bit, the bank registers hold at most 63).  In particular,
with `m = 0`, after writing 32, 33, 34, 35 to the I/O ports `0x78..0x7B` and 1 to port
`0x7C`, reading address `0x0000` returns `backing[32 << 14]`. -/
theorem c26_banked_read (cfg : Config) (s s0 : Fabric) (addr : Nat) (haddr : addr < 65536)
    (hm : s.addrinvert < 65536) (hreg : ∀ b < 4, s.bankreg b ≤ 63)
    (h0 : s0.addrinvert = 0) :
    (s.bankenable = 0 →
      do_6502_read s addr = some (s.ramrom ((addr ^^^ s.addrinvert) &&& 0x3FFF))) ∧
    (s.bankenable ≠ 0 →
      do_6502_read s addr
        = some (s.ramrom ((s.bankreg (((addr ^^^ s.addrinvert) >>> 14) &&& 3) <<< 14)
                  + ((addr ^^^ s.addrinvert) &&& 0x3FFF)))) ∧
    ∃ s1 s2 s3 s4 s5,
      write6502 cfg s0 0xC078 32 = some s1 ∧ write6502 cfg s1 0xC079 33 = some s2 ∧
      write6502 cfg s2 0xC07A 34 = some s3 ∧ write6502 cfg s3 0xC07B 35 = some s4 ∧
      write6502 cfg s4 0xC07C 1 = some s5 ∧
      do_6502_read s5 0x0000 = some (s0.ramrom (32 <<< 14)) := by
  have hx : addr ^^^ s.addrinvert < 65536 := Nat.xor_lt_two_pow (n := 16) haddr hm
  have h3 := and_3fff_lt (addr ^^^ s.addrinvert)
  refine ⟨?_, ?_, ?_⟩
  · intro hen
    have hlt : (addr ^^^ s.addrinvert) &&& 0x3FFF < RAMROM_SIZE := by
      unfold RAMROM_SIZE
      omega
    simp only [do_6502_read, hen, Nat.mod_eq_of_lt haddr, Nat.mod_eq_of_lt hx, ne_eq,
      not_true_eq_false, if_false, CArray.load, hlt, if_true]
  · intro hen
    have hb := hreg _ (bank_bits_lt (addr ^^^ s.addrinvert))
    have hidx : bank_index (s.bankreg (((addr ^^^ s.addrinvert) >>> 14) &&& 3))
        ((addr ^^^ s.addrinvert) &&& 0x3FFF)
        = (s.bankreg (((addr ^^^ s.addrinvert) >>> 14) &&& 3) <<< 14)
          + ((addr ^^^ s.addrinvert) &&& 0x3FFF) := by
      rw [bank_index_eq _ _ hb h3, Nat.shiftLeft_eq]
    have hlt : (s.bankreg (((addr ^^^ s.addrinvert) >>> 14) &&& 3) <<< 14)
          + ((addr ^^^ s.addrinvert) &&& 0x3FFF) < RAMROM_SIZE := by
      rw [Nat.shiftLeft_eq]
      unfold RAMROM_SIZE
      omega
    simp only [do_6502_read, hen, Nat.mod_eq_of_lt haddr, Nat.mod_eq_of_lt hx, ne_eq,
      not_false_eq_true, if_true, bank_bits, hidx, CArray.load, hlt]
  · refine ⟨_, _, _, _, _, rfl, rfl, rfl, rfl, rfl, ?_⟩
    have e : ((32 &&& 63) <<< 14 % 4294967296 : Nat) = 32 <<< 14 := by decide
    simp +decide [do_6502_read, write6502, mmio_write_6502, iopage, h0, CArray.load,
      RAMROM_SIZE, bank_index, e]

/-- C26 at a concrete fabric: every bank register 5, banking on, no inversion. -/
theorem c26_banked_read_witness :
    ((0x4321 : Nat) < 65536 ∧ (fabric_zero 5).addrinvert < 65536 ∧
      (∀ b < 4, (fabric_zero 5).bankreg b ≤ 63) ∧ (fabric_zero 5).addrinvert = 0) ∧
    do_6502_read (fabric_zero 5) 0x4321
      = some ((fabric_zero 5).ramrom
          (((fabric_zero 5).bankreg (((0x4321 ^^^ (fabric_zero 5).addrinvert) >>> 14) &&& 3)
              <<< 14) + ((0x4321 ^^^ (fabric_zero 5).addrinvert) &&& 0x3FFF))) :=
  ⟨⟨by decide, by decide, fun _ _ => (by decide : (5 : Nat) ≤ 63), rfl⟩,
   (c26_banked_read cfg_default (fabric_zero 5) (fabric_zero 5) 0x4321 (by decide)
      (by decide) (fun _ _ => (by decide : (5 : Nat) ≤ 63)) rfl).2.1 (by decide)⟩

end RC2014

/-! ## Theorems: the opcode sniffer of `kz80.c` -/

namespace KZ80

/-- For an address other than `0xFFFF` the byte and the state of `mem_read_traced` are
those of `mem_read`, which returns; the byte `past` is not looked at. -/
theorem mem_read_traced_erase (s : Machine) (m1 : Bool) (addr past : Nat)
    (h : addr % 65536 ≠ 65535) :
    mem_read s m1 addr
      = some ((mem_read_traced s m1 addr past).1, (mem_read_traced s m1 addr past).2.2) := by
  have hlt : addr % 65536 < 65536 := Nat.mod_lt _ (by decide)
  have hx : (if addr % 65536 < 8192 then CArray.load EEPROM_SIZE s.eeprom (addr % 65536)
      else CArray.load RAM_SIZE s.ram (addr % 65536))
      = some (if addr % 65536 < 8192 then s.eeprom (addr % 65536)
          else s.ram (addr % 65536)) := by
    by_cases h8 : addr % 65536 < 8192
    · simp only [h8, if_true, CArray.load, EEPROM_SIZE]
    · have hr : addr % 65536 < 65535 := by omega
      simp only [h8, if_false, CArray.load, RAM_SIZE, hr, if_true]
  simp only [mem_read_traced, mem_read, mem_read_sniff, hx]
  generalize (if addr % 65536 < 8192 then s.eeprom (addr % 65536)
    else s.ram (addr % 65536)) = r
  by_cases h1 : m1 = true ∧ (r = 0xDD ∨ r = 0xFD ∨ r = 0xCB)
  · simp only [if_pos h1]
  · by_cases h2 : m1 = true ∧ (r = 0xED ∧ s.rstate = 0)
    · simp only [if_neg h1, if_pos h2]
    · by_cases h3 : r = 0x4D ∧ s.rstate = 1
      · simp only [if_neg h1, if_neg h2, if_pos h3]
      · simp only [if_neg h1, if_neg h2, if_neg h3]

/-- The read of address `0xFFFF` is outside `ram`: `mem_read` has no result for it, and
`mem_read_traced` goes on with the byte `past`. -/
theorem mem_read_traced_past (s : Machine) (m1 : Bool) (addr past : Nat)
    (h : addr % 65536 = 65535) :
    mem_read s m1 addr = none ∧ (mem_read_traced s m1 addr past).1 = past % 256 := by
  have h8 : ¬ (65535 : Nat) < 8192 := by decide
  have hr : ¬ (65535 : Nat) < 65535 := by decide
  simp only [mem_read_traced, mem_read, mem_read_sniff, h, if_neg h8, CArray.load, RAM_SIZE,
    if_neg hr]
  refine ⟨trivial, ?_⟩
  split_ifs <;> rfl

/-- The sniffer of `mem_read` on the byte `r` is one step of the specification's
sniffer. -/
theorem mem_read_sniff_step (s : Machine) (m1 : Bool) (r0 : Nat) :
    sniffer_spec_step (sniffer_of s.rstate) m1 (mem_read_sniff s m1 r0).1
      = ((mem_read_sniff s m1 r0).2.1, sniffer_of (mem_read_sniff s m1 r0).2.2.rstate) := by
  simp only [mem_read_sniff]
  by_cases h1 : m1 = true ∧ (r0 = 0xDD ∨ r0 = 0xFD ∨ r0 = 0xCB)
  · simp only [if_pos h1]
    have hr : r0 ≠ 0x4D := by
      rcases h1.2 with h | h | h <;> rw [h] <;> decide
    simp [sniffer_spec_step, sniffer_of, h1, hr]
  · by_cases h2 : m1 = true ∧ (r0 = 0xED ∧ s.rstate = 0)
    · simp only [if_neg h1, if_pos h2]
      have hr : r0 ≠ 0x4D := by
        rw [h2.2.1]
        decide
      simp [sniffer_spec_step, sniffer_of, h1, h2, hr]
    · by_cases h3 : r0 = 0x4D ∧ s.rstate = 1
      · simp only [if_neg h1, if_neg h2, if_pos h3]
        simp +decide [sniffer_spec_step, sniffer_of, h3]
      · simp only [if_neg h1, if_neg h2, if_neg h3]
        cases m1 <;> by_cases a : s.rstate = 0 <;> by_cases b : s.rstate = 1 <;>
          simp_all [sniffer_spec_step, sniffer_of]

/-- One read of the code is one step of the specification's sniffer. -/
theorem mem_read_traced_step (s : Machine) (m1 : Bool) (addr past : Nat) :
    sniffer_spec_step (sniffer_of s.rstate) m1 (mem_read_traced s m1 addr past).1
      = ((mem_read_traced s m1 addr past).2.1,
          sniffer_of (mem_read_traced s m1 addr past).2.2.rstate) := by
  simp only [mem_read_traced]
  generalize (if addr % 65536 < 8192 then CArray.load EEPROM_SIZE s.eeprom (addr % 65536)
    else CArray.load RAM_SIZE s.ram (addr % 65536)) = x
  cases x with
  | none => exact mem_read_sniff_step s m1 (past % 256)
  | some r => exact mem_read_sniff_step s m1 r

/-- The fire flags of a run of reads are those of the specification's sniffer, started
in the state the static `rstate` stands for. -/
theorem mem_reads_fires (reads : List (Bool × Nat × Nat)) : ∀ (s : Machine),
    (mem_reads s reads).1.length = reads.length ∧
    (mem_reads s reads).1.map Prod.snd
      = sniffer_spec_fires (sniffer_of s.rstate)
          ((reads.map Prod.fst).zip ((mem_reads s reads).1.map Prod.fst)) := by
  induction reads with
  | nil =>
    intro s
    exact ⟨rfl, rfl⟩
  | cons p rest ih =>
    intro s
    obtain ⟨m1, addr, past⟩ := p
    obtain ⟨h3, h4⟩ := ih (mem_read_traced s m1 addr past).2.2
    have hstep := mem_read_traced_step s m1 addr past
    refine ⟨?_, ?_⟩
    · simp only [mem_reads, List.length_cons, h3]
    · show (mem_read_traced s m1 addr past).2.1
            :: (mem_reads (mem_read_traced s m1 addr past).2.2 rest).1.map Prod.snd
        = sniffer_spec_fires (sniffer_of s.rstate)
            ((m1, (mem_read_traced s m1 addr past).1)
              :: ((rest.map Prod.fst).zip
                  ((mem_reads (mem_read_traced s m1 addr past).2.2 rest).1.map Prod.fst)))
      simp only [sniffer_spec_fires, hstep, h4]

/-- C27: for every sequence of memory reads in the Z80 profile, started with the sniffer
clean, `mem_read` fires the RETI event on exactly the reads on which the specification's
sniffer fires: those of a byte `0x4D` whose preceding read was an M1 fetch of `0xED`
taken in the clean state, where an M1 fetch of `0xDD`, `0xFD` or `0xCB` starts a
sequence in which an `0xED` does not arm, and every other byte returns the sniffer to
the clean state.  The flag traced is the call of `reti_event()` inside `mem_read`; the
reads are of any addresses, `0xFFFF` included, where the byte read is the one found past
the end of `ram`, whatever it is. -/
theorem c27_sniffer_fires_as_specified (s : Machine) (reads : List (Bool × Nat × Nat))
    (hclean : s.rstate = 0) :
    (∀ (u : Machine) (m1 : Bool) (addr past : Nat), addr % 65536 ≠ 65535 →
      mem_read u m1 addr
        = some ((mem_read_traced u m1 addr past).1, (mem_read_traced u m1 addr past).2.2)) ∧
    (∀ (u : Machine) (m1 : Bool) (addr past : Nat), addr % 65536 = 65535 →
      (mem_read_traced u m1 addr past).1 = past % 256) ∧
    (mem_reads s reads).1.length = reads.length ∧
    (mem_reads s reads).1.map Prod.snd
      = sniffer_spec_fires Sniffer.clean
          ((reads.map Prod.fst).zip ((mem_reads s reads).1.map Prod.fst)) := by
  refine ⟨fun u m1 addr past h => mem_read_traced_erase u m1 addr past h,
    fun u m1 addr past h => (mem_read_traced_past u m1 addr past h).2, ?_⟩
  obtain ⟨h2, h3⟩ := mem_reads_fires reads s
  refine ⟨h2, ?_⟩
  rw [h3, hclean]
  rfl

/-- C27 at the scenario's input: the M1 fetches `DD ED 4D ED 4D` from ROM fire the
event on the last of them only; an M1 fetch at `0xFFFF` that finds `0xED` there arms
the sniffer again, and the read of the `0x4D` at address 2 that follows fires. -/
theorem c27_sniffer_fires_as_specified_witness :
    (zeroed rom_reti).rstate = 0 ∧
    (mem_reads (zeroed rom_reti)
        [(true, 0, 0), (true, 1, 0), (true, 2, 0), (true, 3, 0), (true, 4, 0),
          (true, 0xFFFF, 0xED), (false, 2, 0)]).1
      = [(0xDD, false), (0xED, false), (0x4D, false), (0xED, false), (0x4D, true),
          (0xED, false), (0x4D, true)] ∧
    (mem_reads (zeroed rom_reti)
        [(true, 0, 0), (true, 1, 0), (true, 2, 0), (true, 3, 0), (true, 4, 0),
          (true, 0xFFFF, 0xED), (false, 2, 0)]).1.map Prod.snd
      = sniffer_spec_fires Sniffer.clean
          (([(true, 0, 0), (true, 1, 0), (true, 2, 0), (true, 3, 0), (true, 4, 0),
              (true, 0xFFFF, 0xED), (false, 2, 0)].map Prod.fst).zip
            ((mem_reads (zeroed rom_reti)
              [(true, 0, 0), (true, 1, 0), (true, 2, 0), (true, 3, 0), (true, 4, 0),
                (true, 0xFFFF, 0xED), (false, 2, 0)]).1.map Prod.fst)) :=
  ⟨rfl, by decide,
   (c27_sniffer_fires_as_specified (zeroed rom_reti)
      [(true, 0, 0), (true, 1, 0), (true, 2, 0), (true, 3, 0), (true, 4, 0),
        (true, 0xFFFF, 0xED), (false, 2, 0)] rfl).2.2.2⟩

end KZ80

/-! ## Theorems: the timer tick of the SIO/2 of `rc2014-6502.c` -/

namespace RC2014

/-- The function `sio2_raise_int` called for channel A leaves channel B alone. -/
theorem raise_int_A_sioB (s : SioPair) (m : Nat) :
    (sio2_raise_int s KZ80.Chan.A m).sioB = s.sioB := by
  unfold sio2_raise_int
  simp only [SioPair.modChan, SioPair.chan]
  split_ifs <;> rfl

/-- The function `sio2_raise_int` never writes a read register of channel B. -/
theorem raise_int_sioB_rr (s : SioPair) (c : KZ80.Chan) (m : Nat) :
    (sio2_raise_int s c m).sioB.rr = s.sioB.rr := by
  unfold sio2_raise_int
  cases c <;> simp only [SioPair.modChan, SioPair.chan] <;> split_ifs <;> rfl

/-- The function `sio2_queue` called for channel A leaves channel B alone. -/
theorem queue_A_sioB (s : SioPair) (b : Nat) :
    (sio2_queue s KZ80.Chan.A b).sioB = s.sioB := by
  unfold sio2_queue
  simp only [SioPair.modChan, SioPair.chan]
  split_ifs <;> first | rfl | simp only [raise_int_A_sioB]

/-- The tick of channel A leaves channel B alone. -/
theorem channel_timer_A_sioB (inp : Bool) (c nc : Nat) (s : SioPair) :
    (sio2_channel_timer inp c nc s KZ80.Chan.A 0).sioB = s.sioB := by
  unfold sio2_channel_timer
  simp only [if_true, SioPair.modChan, SioPair.chan]
  split_ifs <;> first | rfl | simp only [raise_int_A_sioB, queue_A_sioB]

/-- The tick of channel B never writes RR0 of channel B. -/
theorem channel_timer_B_rr0 (inp : Bool) (c nc : Nat) (s : SioPair) :
    (sio2_channel_timer inp c nc s KZ80.Chan.B 1).sioB.rr 0 = s.sioB.rr 0 := by
  unfold sio2_channel_timer
  simp only [SioPair.modChan, SioPair.chan, if_neg (show ¬ ((1 : Nat) = 0) by decide)]
  split_ifs
  · rw [raise_int_sioB_rr]
    rfl
  · rfl
  · rfl

/-- C28: in `rc2014-6502.c` the branch of `sio2_channel_timer` for channel B tests and
sets bit 2 of `rr[1]` where the branch for channel A, and both branches in `kz80.c`,
use `rr[0]`.  So `sio2_timer` never changes RR0 of channel B, whatever the host reports:
after power-on and one data byte written to channel B (which clears RR0 bit 2), a tick
with standard output writable leaves RR0 bit 2 of channel B clear and sets bit 2 of its
RR1 instead, while channel A has RR0 bit 2 set. -/
theorem c28_channel_b_tick_sets_rr1 :
    (∀ (inp : Bool) (c nc : Nat) (s : SioPair),
      (sio2_timer inp c nc s).sioB.rr 0 = s.sioB.rr 0) ∧
    st_pair_b_sent.sioB.rr 0 &&& 0x04 = 0 ∧
    (sio2_timer false 2 0 st_pair_b_sent).sioB.rr 0 &&& 0x04 = 0 ∧
    (sio2_timer false 2 0 st_pair_b_sent).sioB.rr 1 &&& 0x04 ≠ 0 ∧
    (sio2_timer false 2 0 st_pair_b_sent).sioA.rr 0 &&& 0x04 ≠ 0 := by
  refine ⟨?_, by decide, by decide, by decide, by decide⟩
  intro inp c nc s
  unfold sio2_timer
  rw [channel_timer_B_rr0, channel_timer_A_sioB]

end RC2014

/-! ## Theorems: readiness events of the UART and the ACIA of `rc2014-6502.c` -/

namespace RC2014

/-- A bit that `old` and `new` agree on is not among the changed high bits. -/
theorem dhigh_same (old new m : Nat) (h : new &&& m = old &&& m) :
    ((old ^^^ new) &&& new) &&& m = 0 := by
  rw [Nat.and_assoc, Nat.and_comm new m, ← Nat.and_assoc, Nat.and_xor_distrib_right, h,
    Nat.xor_self, Nat.zero_and]

/-- Bit 0 is among the changed high bits when it went from clear to set. -/
theorem dhigh_bit0 (old new : Nat) (ho : old &&& 1 = 0) (hn : new &&& 1 = 1) :
    ((old ^^^ new) &&& new) &&& 1 = 1 := by
  rw [Nat.and_assoc, Nat.and_comm new 1, ← Nat.and_assoc, Nat.and_xor_distrib_right, ho, hn]
  rw [Nat.zero_xor, Nat.and_comm, hn]

/-- The function `uart_interrupt` changes `irq` at most in the bits of `n`. -/
theorem uart_interrupt_irq_bit (s : UartSys) (n m : Nat) (h : n % 256 &&& m = 0) :
    (uart_interrupt s n).uart.irq &&& m = s.uart.irq &&& m := by
  simp only [uart_interrupt]
  split_ifs
  · rfl
  · rfl
  · rw [(recalc_iir_frame _).1]
    exact KZ80.or_and_disjoint _ _ _ h

/-- The state `uart_event` leaves: `uart_interrupt` is called for RXDA at most, never
for TEMT, on a state that differs from the one before in `lsr` only. -/
theorem uart_event_state (s t : UartSys) (sel : KZ80.Select)
    (h : uart_event s sel = some t) :
    ∃ s2 : UartSys, s2.uart.irq = s.uart.irq ∧ s2.uart.ier = s.uart.ier ∧
      (t = s2 ∨ t = uart_interrupt s2 RXDA) := by
  simp only [uart_event] at h
  cases hc : KZ80.check_chario sel with
  | none => simp [hc] at h
  | some r0 =>
    simp only [hc, Option.some.injEq] at h
    have e1 : ∀ x : Nat, (x ||| 1) &&& 2 = x &&& 2 := fun x =>
      KZ80.or_and_disjoint x 1 2 (by decide)
    have e2 : ∀ x : Nat, (x ||| 96) &&& 2 = x &&& 2 := fun x =>
      KZ80.or_and_disjoint x 96 2 (by decide)
    by_cases h1 : r0 % 256 &&& 1 ≠ 0 <;> by_cases h2 : r0 % 256 &&& 2 ≠ 0
    · simp only [if_pos h1, if_pos h2, uart_mod_uart] at h
      rw [dhigh_same _ _ 2 (by rw [e2, e1])] at h
      simp only [ne_eq, not_true_eq_false, if_false] at h
      refine ⟨(s.mod (fun u => { u with lsr := u.lsr ||| 0x01 })).mod
        (fun u => { u with lsr := u.lsr ||| 0x60 }), rfl, rfl, ?_⟩
      rw [← h]
      split_ifs <;> first | exact Or.inr rfl | exact Or.inl rfl
    · simp only [if_pos h1, if_neg h2, uart_mod_uart] at h
      rw [dhigh_same _ _ 2 (by rw [e1])] at h
      simp only [ne_eq, not_true_eq_false, if_false] at h
      refine ⟨s.mod (fun u => { u with lsr := u.lsr ||| 0x01 }), rfl, rfl, ?_⟩
      rw [← h]
      split_ifs <;> first | exact Or.inr rfl | exact Or.inl rfl
    · simp only [if_neg h1, if_pos h2, uart_mod_uart] at h
      rw [dhigh_same _ _ 2 (by rw [e2])] at h
      simp only [ne_eq, not_true_eq_false, if_false] at h
      refine ⟨s.mod (fun u => { u with lsr := u.lsr ||| 0x60 }), rfl, rfl, ?_⟩
      rw [← h]
      split_ifs <;> first | exact Or.inr rfl | exact Or.inl rfl
    · simp only [if_neg h1, if_neg h2] at h
      rw [dhigh_same _ _ 2 rfl] at h
      simp only [ne_eq, not_true_eq_false, if_false] at h
      refine ⟨s, rfl, rfl, ?_⟩
      rw [← h]
      split_ifs <;> first | exact Or.inr rfl | exact Or.inl rfl

/-- C31: `uart_event` tests bit `0x2` of the changed high bits of LSR for the
transmitter, although it sets the TX-empty bits `0x60`; bit 1 of LSR never changes in
`uart_event`, so TEMT is never raised there: for every state and every host report the
TEMT cause is pending after the call exactly if it was before.  With TEMT enabled in IER
at power-on and standard output writable, LSR bit 5 goes from clear to set and TEMT is
not pending afterwards.  The receive half is as claimed: a rising edge of LSR bit 0
with IER bit 0 set makes RXDA pending. -/
theorem c31_event_never_raises_temt :
    (∀ (s t : UartSys) (sel : KZ80.Select), uart_event s sel = some t →
      t.uart.irq &&& TEMT = s.uart.irq &&& TEMT) ∧
    (st_uart_tx_enabled.uart.lsr &&& 0x20 = 0 ∧ st_uart_tx_enabled.uart.ier &&& 0x02 ≠ 0 ∧
      (uart_event st_uart_tx_enabled (KZ80.Select.ok false)).map
          (fun t => (t.uart.lsr &&& 0x20, t.uart.irq &&& TEMT, t.uart.iir,
            t.live_irq &&& (1 <<< IRQ_16550A)))
        = some (0x20, 0, 0, 0)) ∧
    (∀ s : UartSys, s.uart.lsr &&& 1 = 0 → s.uart.ier &&& 1 ≠ 0 →
      ∃ t, uart_event s (KZ80.Select.ok true) = some t ∧ t.uart.irq &&& RXDA ≠ 0) := by
  refine ⟨?_, ⟨by decide, by decide, by decide⟩, ?_⟩
  · intro s t sel h
    obtain ⟨s2, h1, _, h3 | h3⟩ := uart_event_state s t sel h
    · rw [h3, h1]
    · rw [h3, uart_interrupt_irq_bit s2 RXDA TEMT (by decide), h1]
  · intro s hl he
    have hn : ((s.uart.lsr ||| 1) ||| 96) &&& 1 = 1 := by
      have a := KZ80.or_and_self_ne_zero s.uart.lsr 1 (by decide)
      rw [KZ80.or_and_disjoint _ 96 1 (by decide)]
      rw [Nat.and_one_is_mod] at a ⊢
      omega
    have hd := dhigh_bit0 s.uart.lsr ((s.uart.lsr ||| 1) ||| 96) hl hn
    have hd2 := dhigh_same s.uart.lsr ((s.uart.lsr ||| 1) ||| 96) 2
      (by rw [KZ80.or_and_disjoint _ 96 2 (by decide), KZ80.or_and_disjoint _ 1 2 (by decide)])
    refine ⟨uart_interrupt ((s.mod (fun u => { u with lsr := u.lsr ||| 0x01 })).mod
        (fun u => { u with lsr := u.lsr ||| 0x60 })) RXDA, ?_, ?_⟩
    · have c : KZ80.check_chario (KZ80.Select.ok true) = some 3 := rfl
      have e1 : (3 % 256 &&& 1 : Nat) ≠ 0 := by decide
      have e2 : (3 % 256 &&& 2 : Nat) ≠ 0 := by decide
      simp only [uart_event, c, if_pos e1, if_pos e2, uart_mod_uart, hd, hd2]
      simp
    · simp only [uart_interrupt]
      split_ifs with a b
      · exact a
      · exact absurd b he
      · rw [(recalc_iir_frame _).1]
        exact KZ80.or_and_self_ne_zero _ _ (by decide)

/-- The function `acia_irq_compute` always leaves the in-interrupt latch clear, and the
ACIA bit of `live_irq` clear whenever it found the latch set or set it itself. -/
theorem acia_irq_compute_clears (s : AciaSys)
    (h : s.acia_inint ≠ 0 ∨ (s.acia_config ≠ 0 ∧ s.acia_status &&& 0x80 ≠ 0)) :
    (acia_irq_compute s).live_irq &&& (1 <<< IRQ_ACIA) = 0 ∧
    (acia_irq_compute s).acia_inint = 0 := by
  have hc : ∀ x : Nat, int_clear x IRQ_ACIA &&& (1 <<< IRQ_ACIA) = 0 := by
    intro x
    show (x &&& 239) &&& 16 = 0
    rw [KZ80.and_and_lit x 239 16 0 (by decide), Nat.and_zero]
  by_cases h0 : s.acia_inint = 0
  · have h1 : s.acia_config ≠ 0 ∧ s.acia_status &&& 0x80 ≠ 0 := by
      rcases h with h | h
      · exact absurd h0 h
      · exact h
    simp [acia_irq_compute, h0, h1.1, h1.2, hc, -Nat.and_one_is_mod]
  · simp [acia_irq_compute, h0, hc, -Nat.and_one_is_mod]

/-- C32: `acia_irq_compute` tests the in-interrupt latch in a second `if` right after
the first one has set it, so whenever it raises the interrupt (control register
nonzero, status bit 7 set, latch clear) it clears the ACIA bit of `live_irq` and the
latch again before it returns.  After power-on, control register `0x95` and one byte
sent, the timer tick with standard output writable sets status `0x82` and leaves the
ACIA bit of `live_irq` clear. -/
theorem c32_acia_interrupt_cleared_at_once :
    (∀ s : AciaSys, s.acia_config ≠ 0 → s.acia_status &&& 0x80 ≠ 0 → s.acia_inint = 0 →
      (acia_irq_compute s).live_irq &&& (1 <<< IRQ_ACIA) = 0 ∧
      (acia_irq_compute s).acia_inint = 0) ∧
    (st_acia_tx_done.acia_config, st_acia_tx_done.acia_status &&& 0x80,
      st_acia_tx_done.acia_inint) = (0x95, 0x80, 0) ∧
    (acia_timer st_acia_sent (KZ80.Select.ok false) none).map
        (fun t => (t.acia_status, t.acia_config, t.acia_inint,
          t.live_irq &&& (1 <<< IRQ_ACIA)))
      = some (0x82, 0x95, 0, 0) := by
  refine ⟨fun s h1 h2 _ => acia_irq_compute_clears s (Or.inr ⟨h1, h2⟩), by decide, by decide⟩

end RC2014

/-! ## Theorems: the timers of the 6522 VIA of `rc2014-6502.c` -/

namespace RC2014

/-- What `via_recalc_irq` leaves alone: the timers, the latches, the mode register and
the timer flags. -/
theorem via_recalc_frame (s : ViaSys) :
    (via_recalc_irq s).via.t1 = s.via.t1 ∧ (via_recalc_irq s).via.t1l = s.via.t1l ∧
    (via_recalc_irq s).via.t2 = s.via.t2 ∧ (via_recalc_irq s).via.acr = s.via.acr ∧
    (via_recalc_irq s).via.ifr &&& 0x20 = s.via.ifr &&& 0x20 ∧
    (via_recalc_irq s).via.ifr &&& 0x40 = s.via.ifr &&& 0x40 := by
  have a1 : ∀ x : Nat, (x ||| 128) &&& 32 = x &&& 32 := fun x =>
    KZ80.or_and_disjoint x 128 32 (by decide)
  have a2 : ∀ x : Nat, (x ||| 128) &&& 64 = x &&& 64 := fun x =>
    KZ80.or_and_disjoint x 128 64 (by decide)
  have a3 : ∀ x : Nat, (x &&& 127) &&& 32 = x &&& 32 := fun x =>
    KZ80.and_and_lit x 127 32 32 (by decide)
  have a4 : ∀ x : Nat, (x &&& 127) &&& 64 = x &&& 64 := fun x =>
    KZ80.and_and_lit x 127 64 64 (by decide)
  simp only [via_recalc_irq]
  split_ifs <;> simp [a1, a2, a3, a4]

/-- What the timer 1 half of `via_tick` leaves alone. -/
theorem via_tick_t1_frame (s : ViaSys) (clocks : Int) :
    (via_tick_t1 s clocks).via.t2 = s.via.t2 ∧ (via_tick_t1 s clocks).via.acr = s.via.acr ∧
    (via_tick_t1 s clocks).via.t1l = s.via.t1l ∧
    (via_tick_t1 s clocks).via.ifr &&& 0x20 = s.via.ifr &&& 0x20 := by
  have a : ∀ x : Nat, (x ||| 64) &&& 32 = x &&& 32 := fun x =>
    KZ80.or_and_disjoint x 64 32 (by decide)
  have r := via_recalc_frame (s.mod (fun v => { v with ifr := v.ifr ||| 0x40 }))
  simp only [via_tick_t1]
  split_ifs <;> simp [r.2.1, r.2.2.1, r.2.2.2.1, r.2.2.2.2.1, a]

/-- What the timer 2 half of `via_tick` leaves alone. -/
theorem via_tick_t2_frame (s : ViaSys) (clocks : Int) :
    (via_tick_t2 s clocks).via.t1 = s.via.t1 ∧ (via_tick_t2 s clocks).via.acr = s.via.acr ∧
    (via_tick_t2 s clocks).via.t1l = s.via.t1l ∧
    (via_tick_t2 s clocks).via.ifr &&& 0x40 = s.via.ifr &&& 0x40 := by
  have a : ∀ x : Nat, (x ||| 32) &&& 64 = x &&& 64 := fun x =>
    KZ80.or_and_disjoint x 32 64 (by decide)
  have r := via_recalc_frame (s.mod (fun v => { v with ifr := v.ifr ||| 0x20 }))
  simp only [via_tick_t2]
  split_ifs <;> simp [r.1, r.2.1, r.2.2.2.1, r.2.2.2.2.2, a]

/-- Timer 2 expiring in interval mode: the flag is set, and the counter goes on from 0
by the clocks of the tick. -/
theorem via_tick_t2_expire (s : ViaSys) (clocks : Nat) (h2 : s.via.t2 ≠ 0)
    (hacr : s.via.acr &&& 0x20 = 0) (hge : s.via.t2 ≤ clocks) (hpos : 0 < clocks)
    (hlt : clocks < 65536) :
    (via_tick_t2 s clocks).via.ifr &&& 0x20 ≠ 0 ∧
    (via_tick_t2 s clocks).via.t2 = 65536 - clocks := by
  have r := via_recalc_frame (s.mod (fun v => { v with ifr := v.ifr ||| 0x20 }))
  have hc : (clocks : Int) ≥ (s.via.t2 : Int) := by exact_mod_cast hge
  have e : ((((0 : Nat) : Int) - (clocks : Int)) % 65536).toNat = 65536 - clocks := by
    omega
  simp only [via_tick_t2, h2, hacr, hc, ne_eq, not_false_eq_true, and_self, if_true,
    via_mod_via, r.2.2.2.2.1, e]
  exact ⟨KZ80.or_and_self_ne_zero _ 32 (by decide), trivial⟩

/-- Timer 2 not yet expiring: it is decreased by the clocks and the flag is left. -/
theorem via_tick_t2_count (s : ViaSys) (clocks : Nat) (h2 : s.via.t2 ≠ 0)
    (hacr : s.via.acr &&& 0x20 = 0) (hlt : clocks < s.via.t2) (h16 : s.via.t2 < 65536) :
    (via_tick_t2 s clocks).via.ifr &&& 0x20 = s.via.ifr &&& 0x20 ∧
    (via_tick_t2 s clocks).via.t2 = s.via.t2 - clocks := by
  have hc : ¬ ((clocks : Int) ≥ (s.via.t2 : Int)) := by
    intro h
    have : s.via.t2 ≤ clocks := by exact_mod_cast h
    omega
  have e : (((s.via.t2 : Int) - (clocks : Int)) % 65536).toNat = s.via.t2 - clocks := by
    omega
  simp only [via_tick_t2, h2, hacr, hc, ne_eq, not_false_eq_true, and_self, if_true,
    if_false, via_mod_via, e]

/-- C33: in `via_tick` the statement `via.t2 -= clocks` that ends the timer 2 block is
not in an `else` (the timer 1 block above it has one), so on expiry `via.t2 = 0` is
followed by the subtraction: with ACR bit 5 clear, T2 running and `T2 ≤ clocks`, IFR
bit 5 is set but T2 is `65536 - clocks` after the tick, not 0, and it counts on.  With
T2 started at 100, `via_tick(200)` leaves T2 at 65336; and after `via_tick(40000)` and a
read of register 8, which clears the flag, a second `via_tick(40000)` sets IFR bit 5
again although register 9 was not rewritten.  The other half is as claimed: with
`clocks < T2` the tick decreases T2 by `clocks` and leaves IFR bit 5 as it was. -/
theorem c33_t2_counts_on_after_expiry :
    (∀ (s : ViaSys) (clocks : Nat), s.via.t2 ≠ 0 → s.via.acr &&& 0x20 = 0 →
      s.via.t2 ≤ clocks → 0 < clocks → clocks < 65536 →
      (via_tick s clocks).via.ifr &&& 0x20 ≠ 0 ∧
      (via_tick s clocks).via.t2 = 65536 - clocks ∧ (via_tick s clocks).via.t2 ≠ 0) ∧
    (∀ (s : ViaSys) (clocks : Nat), s.via.t2 ≠ 0 → s.via.acr &&& 0x20 = 0 →
      clocks < s.via.t2 → s.via.t2 < 65536 →
      (via_tick s clocks).via.ifr &&& 0x20 = s.via.ifr &&& 0x20 ∧
      (via_tick s clocks).via.t2 = s.via.t2 - clocks) ∧
    (st_via_t2.via.t2, st_via_t2.via.acr &&& 0x20, (via_tick st_via_t2 200).via.ifr &&& 0x20,
      (via_tick st_via_t2 200).via.t2) = (100, 0, 0x20, 65336) ∧
    ((via_run st_via_t2 [ViaOp.tick 40000, ViaOp.read 8]).via.ifr &&& 0x20,
      (via_run st_via_t2 [ViaOp.tick 40000, ViaOp.read 8]).via.t2,
      (via_run st_via_t2 [ViaOp.tick 40000, ViaOp.read 8, ViaOp.tick 40000]).via.ifr &&& 0x20)
      = (0, 25536, 0x20) := by
  refine ⟨?_, ?_, by decide, by decide⟩
  · intro s clocks h2 hacr hge hpos hlt
    have f := via_tick_t1_frame s clocks
    have e := via_tick_t2_expire (via_tick_t1 s clocks) clocks (by rw [f.1]; exact h2)
      (by rw [f.2.1]; exact hacr) (by rw [f.1]; exact hge) hpos hlt
    refine ⟨e.1, e.2, ?_⟩
    show (via_tick_t2 (via_tick_t1 s clocks) clocks).via.t2 ≠ 0
    rw [e.2]
    omega
  · intro s clocks h2 hacr hlt h16
    have f := via_tick_t1_frame s clocks
    have e := via_tick_t2_count (via_tick_t1 s clocks) clocks (by rw [f.1]; exact h2)
      (by rw [f.2.1]; exact hacr) (by rw [f.1]; exact hlt) (by rw [f.1]; exact h16)
    refine ⟨?_, ?_⟩
    · show (via_tick_t2 (via_tick_t1 s clocks) clocks).via.ifr &&& 0x20 = _
      rw [e.1, f.2.2.2]
    · show (via_tick_t2 (via_tick_t1 s clocks) clocks).via.t2 = _
      rw [e.2, f.1]

/-- Timer 1 expiring in continuous mode: the flag is set and the counter is reloaded
with the latch plus one, as a `uint16_t`. -/
theorem via_tick_t1_expire (s : ViaSys) (clocks : Nat) (h1 : s.via.t1 ≠ 0)
    (hacr : s.via.acr &&& 0x40 ≠ 0) (hge : s.via.t1 ≤ clocks) :
    (via_tick_t1 s clocks).via.ifr &&& 0x40 ≠ 0 ∧
    (via_tick_t1 s clocks).via.t1 = (s.via.t1l + 1) % 65536 := by
  have r := via_recalc_frame (s.mod (fun v => { v with ifr := v.ifr ||| 0x40 }))
  have hc : (clocks : Int) ≥ (s.via.t1 : Int) := by exact_mod_cast hge
  have hacr1 : (via_recalc_irq (s.mod (fun v => { v with ifr := v.ifr ||| 0x40 }))).via.acr
      &&& 0x40 ≠ 0 := by
    rw [r.2.2.2.1]
    exact hacr
  simp only [via_tick_t1, h1, hc, hacr1, ne_eq, not_false_eq_true, if_true, via_mod_via,
    r.2.2.2.2.2, r.2.1]
  exact ⟨KZ80.or_and_self_ne_zero _ 64 (by decide), trivial⟩

/-- Timer 1 expiring in continuous mode with a latch below `0xFFFF`: the counter is
reloaded with latch + 1, which is not 0, so the timer keeps running and a later tick of
at least that many clocks sets IFR bit 6 again. -/
theorem via_t1_continuous_reloads (s : ViaSys) (clocks : Nat) (h1 : s.via.t1 ≠ 0)
    (hacr : s.via.acr &&& 0x40 ≠ 0) (hge : s.via.t1 ≤ clocks) (hl : s.via.t1l < 0xFFFF) :
    (via_tick s clocks).via.ifr &&& 0x40 ≠ 0 ∧
    (via_tick s clocks).via.t1 = s.via.t1l + 1 ∧ (via_tick s clocks).via.t1 ≠ 0 ∧
    (via_tick s clocks).via.acr &&& 0x40 ≠ 0 ∧ (via_tick s clocks).via.t1l = s.via.t1l ∧
    ∀ later : Nat, s.via.t1l + 1 ≤ later →
      (via_tick ((via_read (via_tick s clocks) 4).2) later).via.ifr &&& 0x40 ≠ 0 := by
  have e := via_tick_t1_expire s clocks h1 hacr hge
  have f1 := via_tick_t1_frame s clocks
  have f2 := via_tick_t2_frame (via_tick_t1 s clocks) clocks
  have hm : (s.via.t1l + 1) % 65536 = s.via.t1l + 1 := Nat.mod_eq_of_lt (by omega)
  have ht1 : (via_tick s clocks).via.t1 = s.via.t1l + 1 := by
    show (via_tick_t2 (via_tick_t1 s clocks) clocks).via.t1 = _
    rw [f2.1, e.2, hm]
  have hacr2 : (via_tick s clocks).via.acr &&& 0x40 ≠ 0 := by
    show (via_tick_t2 (via_tick_t1 s clocks) clocks).via.acr &&& 0x40 ≠ 0
    rw [f2.2.1, f1.2.1]
    exact hacr
  have htl : (via_tick s clocks).via.t1l = s.via.t1l := by
    show (via_tick_t2 (via_tick_t1 s clocks) clocks).via.t1l = _
    rw [f2.2.2.1, f1.2.2.1]
  refine ⟨?_, ht1, by rw [ht1]; omega, hacr2, htl, ?_⟩
  · show (via_tick_t2 (via_tick_t1 s clocks) clocks).via.ifr &&& 0x40 ≠ 0
    rw [f2.2.2.2]
    exact e.1
  · intro later hlater
    have hr : via_read (via_tick s clocks) 4
        = (((via_recalc_irq ((via_tick s clocks).mod
              (fun v => { v with ifr := v.ifr &&& (0xFF ^^^ 0x40) }))).via.t1 % 256),
            via_recalc_irq ((via_tick s clocks).mod
              (fun v => { v with ifr := v.ifr &&& (0xFF ^^^ 0x40) }))) := rfl
    have r := via_recalc_frame ((via_tick s clocks).mod
      (fun v => { v with ifr := v.ifr &&& (0xFF ^^^ 0x40) }))
    rw [hr]
    have e2 := via_tick_t1_expire (via_recalc_irq ((via_tick s clocks).mod
      (fun v => { v with ifr := v.ifr &&& (0xFF ^^^ 0x40) }))) later
      (by rw [r.1]; show (via_tick s clocks).via.t1 ≠ 0; rw [ht1]; omega)
      (by rw [r.2.2.2.1]; exact hacr2)
      (by rw [r.1]; show (via_tick s clocks).via.t1 ≤ later; rw [ht1]; exact hlater)
    have f3 := via_tick_t2_frame (via_tick_t1 (via_recalc_irq ((via_tick s clocks).mod
      (fun v => { v with ifr := v.ifr &&& (0xFF ^^^ 0x40) }))) later) later
    show (via_tick_t2 (via_tick_t1 _ later) later).via.ifr &&& 0x40 ≠ 0
    rw [f3.2.2.2]
    exact e2.1

/-- Timer 1 expiring in continuous mode with the latch at `0xFFFF`: the reload
`via.t1l + 1` is 0 in the `uint16_t` counter, the value of a stopped timer, and once the
flag has been cleared by a read of register 4 no later tick sets IFR bit 6 again. -/
theorem via_t1_latch_top_stops (s : ViaSys) (clocks : Nat) (h1 : s.via.t1 ≠ 0)
    (hacr : s.via.acr &&& 0x40 ≠ 0) (hge : s.via.t1 ≤ clocks) (hl : s.via.t1l = 0xFFFF) :
    (via_tick s clocks).via.ifr &&& 0x40 ≠ 0 ∧ (via_tick s clocks).via.t1 = 0 ∧
    ∀ later : Int,
      (via_tick ((via_read (via_tick s clocks) 4).2) later).via.ifr &&& 0x40 = 0 ∧
      (via_tick ((via_read (via_tick s clocks) 4).2) later).via.t1 = 0 := by
  have e := via_tick_t1_expire s clocks h1 hacr hge
  have f2 := via_tick_t2_frame (via_tick_t1 s clocks) clocks
  have hm : (s.via.t1l + 1) % 65536 = 0 := by
    rw [hl]
  have ht1 : (via_tick s clocks).via.t1 = 0 := by
    show (via_tick_t2 (via_tick_t1 s clocks) clocks).via.t1 = _
    rw [f2.1, e.2, hm]
  refine ⟨?_, ht1, ?_⟩
  · show (via_tick_t2 (via_tick_t1 s clocks) clocks).via.ifr &&& 0x40 ≠ 0
    rw [f2.2.2.2]
    exact e.1
  · intro later
    have hr : via_read (via_tick s clocks) 4
        = (((via_recalc_irq ((via_tick s clocks).mod
              (fun v => { v with ifr := v.ifr &&& (0xFF ^^^ 0x40) }))).via.t1 % 256),
            via_recalc_irq ((via_tick s clocks).mod
              (fun v => { v with ifr := v.ifr &&& (0xFF ^^^ 0x40) }))) := rfl
    have r := via_recalc_frame ((via_tick s clocks).mod
      (fun v => { v with ifr := v.ifr &&& (0xFF ^^^ 0x40) }))
    rw [hr]
    have hu1 : (via_recalc_irq ((via_tick s clocks).mod
        (fun v => { v with ifr := v.ifr &&& (0xFF ^^^ 0x40) }))).via.t1 = 0 := by
      rw [r.1]
      exact ht1
    have hu2 : (via_recalc_irq ((via_tick s clocks).mod
        (fun v => { v with ifr := v.ifr &&& (0xFF ^^^ 0x40) }))).via.ifr &&& 0x40 = 0 := by
      rw [r.2.2.2.2.2]
      show ((via_tick s clocks).via.ifr &&& (0xFF ^^^ 0x40)) &&& 0x40 = 0
      rw [KZ80.and_and_lit _ (0xFF ^^^ 0x40) 0x40 0 (by decide), Nat.and_zero]
    have hstop : via_tick_t1 (via_recalc_irq ((via_tick s clocks).mod
        (fun v => { v with ifr := v.ifr &&& (0xFF ^^^ 0x40) }))) later
        = via_recalc_irq ((via_tick s clocks).mod
            (fun v => { v with ifr := v.ifr &&& (0xFF ^^^ 0x40) })) := by
      simp only [via_tick_t1, hu1, ne_eq, not_true_eq_false, if_false]
    have f3 := via_tick_t2_frame (via_recalc_irq ((via_tick s clocks).mod
      (fun v => { v with ifr := v.ifr &&& (0xFF ^^^ 0x40) }))) later
    show (via_tick_t2 (via_tick_t1 _ later) later).via.ifr &&& 0x40 = 0 ∧
      (via_tick_t2 (via_tick_t1 _ later) later).via.t1 = 0
    rw [hstop, f3.2.2.2, f3.1]
    exact ⟨hu2, hu1⟩

/-- C39: the reload of the continuous timer 1, `via.t1 = via.t1l + 1` under the comment
`+1 or + 2 ??`, is taken in the `uint16_t` counter: with the latch at `0xFFFF` it is 0,
the value `via_tick` treats as a stopped timer (`if (via.t1)`).  In continuous mode
with T1 running and the latch at `0xFFFF`, the tick on which T1 expires sets IFR bit 6
and leaves T1 at 0, and once the flag has been cleared by a read of register 4 no later
tick sets it again.  The guest reaches this by writing ACR = `0x40`, starting T1 at 16
(registers 4 and 5) and setting the latch to `0xFFFF` (registers 6 and 7): the next
`via_tick(tstate_steps)` expires T1 and stops it.  For every latch below `0xFFFF` the
reload is latch + 1, not 0, and a later tick of at least that many clocks sets IFR bit 6
again. -/
theorem c39_latch_ffff_stops_timer_1 :
    (∀ (s : ViaSys) (clocks : Nat), s.via.t1 ≠ 0 → s.via.acr &&& 0x40 ≠ 0 →
      s.via.t1 ≤ clocks → s.via.t1l = 0xFFFF →
      (via_tick s clocks).via.ifr &&& 0x40 ≠ 0 ∧ (via_tick s clocks).via.t1 = 0 ∧
      ∀ later : Int,
        (via_tick ((via_read (via_tick s clocks) 4).2) later).via.ifr &&& 0x40 = 0 ∧
        (via_tick ((via_read (via_tick s clocks) 4).2) later).via.t1 = 0) ∧
    (∀ (s : ViaSys) (clocks : Nat), s.via.t1 ≠ 0 → s.via.acr &&& 0x40 ≠ 0 →
      s.via.t1 ≤ clocks → s.via.t1l < 0xFFFF →
      (via_tick s clocks).via.ifr &&& 0x40 ≠ 0 ∧
      (via_tick s clocks).via.t1 = s.via.t1l + 1 ∧ (via_tick s clocks).via.t1 ≠ 0 ∧
      ∀ later : Nat, s.via.t1l + 1 ≤ later →
        (via_tick ((via_read (via_tick s clocks) 4).2) later).via.ifr &&& 0x40 ≠ 0) ∧
    (st_via_t1_top.via.acr &&& 0x40, st_via_t1_top.via.t1l, st_via_t1_top.via.t1)
      = (0x40, 0xFFFF, 16) ∧
    ((via_run st_via_t1_top [ViaOp.tick tstate_steps]).via.ifr &&& 0x40,
      (via_run st_via_t1_top [ViaOp.tick tstate_steps]).via.t1) = (0x40, 0) ∧
    ((via_run st_via_t1_top
        [ViaOp.tick tstate_steps, ViaOp.read 4, ViaOp.tick tstate_steps]).via.ifr &&& 0x40,
      (via_run st_via_t1_top
        [ViaOp.tick tstate_steps, ViaOp.read 4, ViaOp.tick tstate_steps]).via.t1)
      = (0, 0) := by
  refine ⟨fun s clocks h1 hacr hge hl => via_t1_latch_top_stops s clocks h1 hacr hge hl,
    fun s clocks h1 hacr hge hl => ?_, by decide, by decide, by decide⟩
  have h := via_t1_continuous_reloads s clocks h1 hacr hge hl
  exact ⟨h.1, h.2.1, h.2.2.1, h.2.2.2.2.2⟩

end RC2014

/-! ## Theorems: reads and writes of the real time clock of `rc2014-6502.c` -/

namespace RC2014

/-- The test `rtcst & 0x30` looks at CE (bit 4) and the direction bit (bit 5). -/
theorem rtcst_gate (x : Nat) : x &&& 0x30 ≠ 0 ↔ (x &&& 0x10 ≠ 0 ∨ x &&& 0x20 ≠ 0) := by
  have h : (0x30 : Nat) = 0x10 ||| 0x20 := by decide
  rw [h, Nat.and_or_distrib_left, ne_eq, KZ80.or_eq_zero_iff]
  tauto

/-- C34, as stated, fails: after power-on the port write `0x20` leaves CE (status bit 4)
clear with the direction bit (bit 5) set, and `rtc_read` returns bit 0 of the shift
register, 0, not `0xFF`. -/
theorem c34_read_with_ce_clear_returns_bit :
    (rtc_write rtc_power_on 0x20 tm_example).map
        (fun t => (t.rtcst &&& 0x10, t.rtcst &&& 0x20, t.rtcr &&& 0x01, rtc_read t))
      = some (0, 0x20, 0, 0) := by
  decide

/-- C34 (amended): for every RTC state, `rtc_read` returns bit 0 of the read-shift
register (0 or 1) when CE (status bit 4) or the direction bit (status bit 5) is set, and
returns `0xFF` when both are clear. -/
theorem c34_read_gated_by_ce_or_direction (s : Rtc) :
    ((s.rtcst &&& 0x10 ≠ 0 ∨ s.rtcst &&& 0x20 ≠ 0) →
      rtc_read s = s.rtcr &&& 0x01 ∧ rtc_read s ≤ 1) ∧
    ((s.rtcst &&& 0x10 = 0 ∧ s.rtcst &&& 0x20 = 0) → rtc_read s = 0xFF) := by
  have hb : s.rtcr &&& 1 = 0 ∨ s.rtcr &&& 1 = 1 := by
    rw [Nat.and_one_is_mod]
    omega
  refine ⟨fun h => ?_, fun h => ?_⟩
  · have g := (rtcst_gate s.rtcst).2 h
    rw [rtc_read, if_pos g]
    rcases hb with h0 | h1
    · rw [if_neg (not_not.mpr h0), h0]
      exact ⟨rfl, Nat.zero_le 1⟩
    · rw [if_pos (by rw [h1]; decide), h1]
      exact ⟨rfl, Nat.le_refl 1⟩
  · have g : ¬ (s.rtcst &&& 0x30 ≠ 0) := by
      rw [rtcst_gate]
      intro hh
      rcases hh with a | a
      · exact a h.1
      · exact a h.2
    rw [rtc_read, if_neg g]

/-- C34 (amended) at concrete states: CE clear with direction read after the port
write `0x20`, and the power-on state with both bits clear. -/
theorem c34_read_gated_by_ce_or_direction_witness :
    ({ rtc_power_on with rtcst := 0x20, rtcr := 1 }.rtcst &&& 0x20 ≠ 0 ∧
      rtc_read { rtc_power_on with rtcst := 0x20, rtcr := 1 } = 1) ∧
    ((rtc_power_on.rtcst &&& 0x10 = 0 ∧ rtc_power_on.rtcst &&& 0x20 = 0) ∧
      rtc_read rtc_power_on = 0xFF) :=
  ⟨⟨by decide,
    ((c34_read_gated_by_ce_or_direction { rtc_power_on with rtcst := 0x20, rtcr := 1 }).1
      (Or.inr (by decide))).1⟩,
   ⟨⟨by decide, by decide⟩,
    (c34_read_gated_by_ce_or_direction rtc_power_on).2 ⟨by decide, by decide⟩⟩⟩

/-- A rising clock edge in write direction once more than 8 bits have been counted:
the bit enters `rtcw`, `rtccnt` goes up, and `rtcop` is not called. -/
theorem rtc_rise_write_past (s : Rtc) (now : Tm) (b : Nat) (hb : b = 0 ∨ b = 1)
    (hst : s.rtcst = 0x10) (h8 : 8 ≤ s.rtccnt) (h255 : s.rtccnt < 255) :
    rtc_write s (0x50 ||| (b <<< 7)) now
      = some { s with rtcw := (s.rtcw >>> 1) ||| (b <<< 7), rtccnt := s.rtccnt + 1,
                      rtcst := 0x50 ||| (b <<< 7) } := by
  have h1 : (s.rtccnt + 1) % 256 = s.rtccnt + 1 := Nat.mod_eq_of_lt (by omega)
  have h2 : s.rtccnt + 1 ≠ 8 := by omega
  have e1 : (80 &&& 128 : Nat) = 0 := by decide
  have e2 : (208 &&& 128 : Nat) = 128 := by decide
  rcases hb with rfl | rfl
  · simp +decide [rtc_write, rtc_write_clock, hst, h1, h2, e1]
  · simp +decide [rtc_write, rtc_write_clock, hst, h1, h2, e2]

/-- One clock pulse in write direction once more than 8 bits have been counted. -/
theorem rtc_send_bit_past (s : Rtc) (now : Tm) (b : Nat) (hb : b = 0 ∨ b = 1)
    (hst : s.rtcst = 0x10) (h8 : 8 ≤ s.rtccnt) (h255 : s.rtccnt < 255) (hbp : s.rtcbp = 0) :
    rtc_send_bit s b now
      = some { s with rtcw := (s.rtcw >>> 1) ||| (b <<< 7), rtccnt := s.rtccnt + 1,
                      rtcr := s.rtcr >>> 1, rtcbc := (s.rtcbc + 1) % 256, rtcst := 0x10 } := by
  have hf := rtc_fall
    { s with rtcw := (s.rtcw >>> 1) ||| (b <<< 7), rtccnt := s.rtccnt + 1,
             rtcst := 0x50 ||| (b <<< 7) }
    now 0x10 (by rcases hb with rfl | rfl <;> simp) hbp
  simp only [rtc_send_bit, rtc_rise_write_past s now b hb hst h8 h255, hf]

/-- Bits clocked in after the eighth never reach `rtcop`: the NVRAM, the flags and the
state machine are left as they were. -/
theorem rtc_send_bits_past (byte : Nat) (now : Tm) (n : Nat) : ∀ (s : Rtc) (i : Nat),
    s.rtcst = 0x10 → s.rtcbp = 0 → 8 ≤ s.rtccnt → s.rtccnt + n ≤ 255 →
    ∃ t, rtc_send_bits s byte now i n = some t ∧ t.rtcst = 0x10 ∧ t.rtcbp = 0 ∧
      t.rtccnt = s.rtccnt + n ∧ t.rtcram = s.rtcram ∧ t.rtcstate = s.rtcstate ∧
      t.rtcwp = s.rtcwp ∧ t.rtc24 = s.rtc24 ∧ t.rtcreg = s.rtcreg := by
  induction n with
  | zero =>
    intro s i hst hbp _ _
    exact ⟨s, rfl, hst, hbp, rfl, rfl, rfl, rfl, rfl, rfl⟩
  | succ n ih =>
    intro s i hst hbp h8 hcnt
    have hb : (byte >>> i) &&& 1 = 0 ∨ (byte >>> i) &&& 1 = 1 := by
      rw [Nat.and_one_is_mod]
      omega
    have h1 := rtc_send_bit_past s now ((byte >>> i) &&& 1) hb hst h8 (by omega) hbp
    obtain ⟨t, ht, h2, h3, h4, h5, h6, h7, h9, h10⟩ := ih
      { s with rtcw := (s.rtcw >>> 1) ||| (((byte >>> i) &&& 1) <<< 7),
               rtccnt := s.rtccnt + 1, rtcr := s.rtcr >>> 1,
               rtcbc := (s.rtcbc + 1) % 256, rtcst := 0x10 }
      (i + 1) rfl hbp (by show 8 ≤ s.rtccnt + 1; omega)
      (by show s.rtccnt + 1 + n ≤ 255; omega)
    refine ⟨t, ?_, h2, h3, ?_, h5, h6, h7, h9, h10⟩
    · rw [rtc_send_bits, h1]
      exact ht
    · rw [h4]
      show s.rtccnt + 1 + n = s.rtccnt + (n + 1)
      omega

/-- With CE held the byte that follows a command byte is not handed to `rtcop`, which
is called only when `rtccnt == 8` while `rtccnt` is reset only when CE drops: from every
state left by a command byte (clock low in write direction, `rtccnt` 8) clocking in 8
more bits leaves the NVRAM and the state machine as they were, with `rtccnt` at 16.
From power-on, CE raised, the command `0xC0` (write NVRAM location 0) leaves the state
machine in state 2 with `rtcreg` `0x20`; the byte `0x5A` then leaves NVRAM location 0
at 0 and the state machine still in state 2. -/
theorem rtc_data_byte_past_rtcop :
    (∀ (s : Rtc) (v : Nat) (now : Tm), s.rtcst = 0x10 → s.rtcbp = 0 → s.rtccnt = 8 →
      ∃ t, rtc_send_bits s v now 0 8 = some t ∧ t.rtcram = s.rtcram ∧
        t.rtcstate = s.rtcstate ∧ t.rtccnt = 16) ∧
    ((rtc_write rtc_power_on 0x10 tm_example).bind
        (fun s1 => rtc_send_bits s1 0xC0 tm_example 0 8)).map
        (fun t => (t.rtcst, t.rtcbp, t.rtccnt, t.rtcstate, t.rtcreg, t.rtcwp))
      = some (0x10, 0, 8, 2, 0x20, 0x80) ∧
    (rtc_write_from rtc_power_on 0xC0 0x5A tm_example).map
        (fun t => (t.rtcram 0, t.rtcstate, t.rtccnt, t.rtcreg, t.rtcwp))
      = some (0, 2, 16, 0x20, 0x80) := by
  refine ⟨?_, by decide, by decide⟩
  intro s v now hst hbp hcnt
  obtain ⟨t, ht, _, _, h4, h5, h6, _, _, _⟩ :=
    rtc_send_bits_past v now 8 s 0 hst hbp (by omega) (by omega)
  exact ⟨t, ht, h5, h6, by rw [h4, hcnt]⟩

/-- The data-byte block of `rtcop` assigns `rtcwp` only under `if (!rtcwp)`: a set
write-protect flag is left as it is. -/
theorem rtcop_data_keeps_protect (s : Rtc) (h : s.rtcwp ≠ 0) :
    (rtcop_data s).rtcwp = s.rtcwp := by
  simp only [rtcop_data, if_neg h]
  split_ifs <;> rfl

/-- The function `rtcop` leaves a set write-protect flag as it is. -/
theorem rtcop_keeps_protect (s t : Rtc) (h : s.rtcwp ≠ 0) (ht : rtcop s = some t) :
    t.rtcwp = s.rtcwp := by
  have hd := rtcop_data_keeps_protect s h
  simp only [rtcop] at ht
  generalize rtcop_data s = u at ht hd
  split_ifs at ht
  · cases ht
    exact hd
  · generalize hx : rtcregread _ _ = x at ht
    cases x with
    | none => simp at ht
    | some v =>
      cases ht
      exact hd
  · cases ht
    exact hd
  · cases ht
    exact hd
  · cases ht
    exact hd
  · generalize hx : rtcregread _ _ = x at ht
    cases x with
    | none => simp at ht
    | some v =>
      cases ht
      exact hd

/-- The clock part of `rtc_write` leaves a set write-protect flag as it is. -/
theorem rtc_write_clock_keeps_protect (s t : Rtc) (val : Nat) (h : s.rtcwp ≠ 0)
    (ht : rtc_write_clock s val = some t) : t.rtcwp = s.rtcwp := by
  simp only [rtc_write_clock] at ht
  split_ifs at ht <;>
    first
    | (have hk := rtcop_keeps_protect _ t (by exact h) ht
       exact hk)
    | (cases ht
       rfl)
    | (generalize hx : rtcregread _ _ = x at ht
       cases x with
       | none => simp at ht
       | some v =>
         cases ht
         rfl)

/-- The function `rtc_write` leaves a set write-protect flag as it is. -/
theorem rtc_write_keeps_protect (s t : Rtc) (val : Nat) (now : Tm) (h : s.rtcwp ≠ 0)
    (ht : rtc_write s val now = some t) : t.rtcwp = s.rtcwp := by
  simp only [rtc_write] at ht
  generalize hx : (if (val % 256 ^^^ s.rtcst) &&& 0x40 ≠ 0 then rtc_write_clock s (val % 256)
    else some s) = x at ht
  cases x with
  | none => simp at ht
  | some s1 =>
    have h1 : s1.rtcwp = s.rtcwp := by
      split_ifs at hx
      · exact rtc_write_clock_keeps_protect s s1 _ h hx
      · cases hx
        rfl
    simp only [Option.some.injEq] at ht
    rw [← ht, ← h1]
    split_ifs <;> rfl

/-- The write-protect flag is never cleared: it is set at power-on, and its only
assignment is inside `if (!rtcwp)`, so after every sequence of calls of `rtc_write` it
is still `0x80`. -/
theorem rtc_protect_never_clears (now : Tm) (vals : List Nat) : ∀ (s t : Rtc),
    s.rtcwp ≠ 0 → rtc_writes now s vals = some t → t.rtcwp = s.rtcwp := by
  induction vals with
  | nil =>
    intro s t _ ht
    cases ht
    rfl
  | cons v rest ih =>
    intro s t h ht
    simp only [rtc_writes] at ht
    generalize hx : rtc_write s v now = x at ht
    cases x with
    | none => simp at ht
    | some s1 =>
      have h1 := rtc_write_keeps_protect s s1 v now h hx
      have h2 := ih s1 t (by rw [h1]; exact h) ht
      rw [h2, h1]

/-- From power-on the write-protect flag is `0x80` after every sequence of calls of
`rtc_write`. -/
theorem rtc_protect_from_power_on (now : Tm) (vals : List Nat) (t : Rtc)
    (ht : rtc_writes now rtc_power_on vals = some t) : t.rtcwp = 0x80 :=
  rtc_protect_never_clears now vals rtc_power_on t (by decide) ht

/-- What the data-byte block of `rtcop` leaves alone, and the state it ends in. -/
theorem rtcop_data_frame (s : Rtc) (h : s.rtcstate = 2) :
    (rtcop_data s).rtcw = s.rtcw ∧ (rtcop_data s).rtc_tm = s.rtc_tm ∧
    (rtcop_data s).rtcstate = 0 := by
  simp only [rtcop_data, h, if_true]
  split_ifs <;> simp

/-- With a latched time `rtcregread` returns. -/
theorem rtcregread_ne_none (s : Rtc) (reg : Nat) (tm : Tm) (h : s.rtc_tm = some tm) :
    rtcregread s reg ≠ none := by
  simp only [rtcregread, h]
  split_ifs <;> simp

/-- C40: the data-byte block of `rtcop` does not return, so the byte is decoded as a
command as well.  For every state awaiting a data byte (state 2) with a latched time,
`rtcop` returns and leaves the state machine idle exactly when bit 7 of the byte is
clear; a data byte with bit 7 set starts a read (`0x81`: state 1, `rtcr` loaded with the
seconds), a clock burst (`0xBF`: state 3) or a new write request (`0x80`: state 2 again).
A data byte with bit 7 clear (`0x05`) is stored and then takes the broken-request
return, which sets `rtcr` to `0x1FF`. -/
theorem c40_data_byte_decoded_as_command :
    (∀ (s : Rtc) (tm : Tm), s.rtcstate = 2 → s.rtc_tm = some tm →
      ∃ t, rtcop s = some t ∧ (t.rtcstate = 0 ↔ s.rtcw &&& 0x80 = 0)) ∧
    (rtcop (st_rtc_data 0x81)).map (fun t => (t.rtcram 0, t.rtcstate, t.rtcr))
      = some (0x81, 1, 0x84) ∧
    (rtcop (st_rtc_data 0xBF)).map (fun t => (t.rtcram 0, t.rtcstate, t.rtcbp))
      = some (0xBF, 3, 1) ∧
    (rtcop (st_rtc_data 0x80)).map (fun t => (t.rtcram 0, t.rtcstate, t.rtcreg))
      = some (0x80, 2, 0) ∧
    (rtcop (st_rtc_data 0x05)).map (fun t => (t.rtcram 0, t.rtcstate, t.rtcr))
      = some (0x05, 0, 0x1FF) := by
  refine ⟨?_, by decide, by decide, by decide, by decide⟩
  intro s tm hstate htm
  obtain ⟨hw, ht, h0⟩ := rtcop_data_frame s hstate
  have htm2 : (rtcop_data s).rtc_tm = some tm := by rw [ht, htm]
  unfold rtcop
  simp only [hw]
  by_cases h7 : s.rtcw &&& 0x80 = 0
  · exact ⟨_, by rw [if_pos h7], by simp [h7]⟩
  · rw [if_neg h7]
    by_cases hbf : s.rtcw = 0xBF
    · rw [if_pos hbf]
      generalize hx : rtcregread _ _ = x
      cases x with
      | none => exact absurd hx (rtcregread_ne_none _ _ tm htm2)
      | some v => exact ⟨_, rfl, by simp [h7]⟩
    · rw [if_neg hbf]
      by_cases h1 : s.rtcw &&& 0x01 = 0
      · rw [if_pos h1]
        exact ⟨_, rfl, by simp [h7]⟩
      · rw [if_neg h1]
        by_cases h6 : s.rtcw &&& 0x40 ≠ 0
        · rw [if_pos h6]
          split_ifs
          · exact ⟨_, rfl, by simp [h7]⟩
          · exact ⟨_, rfl, by simp [h7]⟩
        · rw [if_neg h6]
          generalize hx : rtcregread _ _ = x
          cases x with
          | none => exact absurd hx (rtcregread_ne_none _ _ tm htm2)
          | some v => exact ⟨_, rfl, by simp [h7]⟩

end RC2014

/-! ## Theorems: the receive FIFO of the SIO/2 of `kz80.c` -/

namespace KZ80

/-- An accepted byte goes to the slot the FIFO pointer names and sets RR0 bit 0. -/
theorem queue_push (s : Machine) (c : Chan) (b : Nat) (hb : b < 256)
    (hrx : (s.chan c).wr 3 &&& 1 ≠ 0) (hd : (s.chan c).dptr < 2) :
    ((sio2_queue s c b).chan c).data = upd (s.chan c).data (s.chan c).dptr b ∧
    ((sio2_queue s c b).chan c).dptr = (s.chan c).dptr + 1 ∧
    ((sio2_queue s c b).chan c).rr 0 = (s.chan c).rr 0 ||| 1 ∧
    ((sio2_queue s c b).chan c).wr = (s.chan c).wr := by
  have hne : (s.chan c).dptr ≠ 2 := by omega
  have hm : ((s.chan c).dptr + 1) % 256 = (s.chan c).dptr + 1 := Nat.mod_eq_of_lt (by omega)
  have hbm : b % 256 = b := Nat.mod_eq_of_lt hb
  cases c <;> simp only [chan_A, chan_B] at hrx hne hm <;>
    simp only [sio2_queue, chan_A, chan_B, hrx, hne, hbm, if_false] <;>
    split_ifs <;>
    simp [upd, raise_int_frame, hm, -Nat.and_one_is_mod]

/-- A data read returns the head of the FIFO and moves the rest up. -/
theorem read_data_pop (s : Machine) (c : Chan) :
    (sio2_read_data s c).1 = (s.chan c).data 0 ∧
    ((sio2_read_data s c).2.chan c).data
      = upd (upd (s.chan c).data 0 ((s.chan c).data 1)) 1 ((s.chan c).data 2) ∧
    ((sio2_read_data s c).2.chan c).dptr = (s.chan c).dptr - 1 ∧
    ((sio2_read_data s c).2.chan c).rr 0
      = (if (s.chan c).dptr - 1 = 0 then (s.chan c).rr 0 &&& 0xFE else (s.chan c).rr 0)
          &&& 0x3F ∧
    ((sio2_read_data s c).2.chan c).wr = (s.chan c).wr := by
  cases c <;> simp only [sio2_read_data, chan_A, chan_B] <;>
    split_ifs <;>
    simp_all [upd, raise_int_frame, clear_int_frame, -Nat.and_one_is_mod]

/-- C36: for an SIO channel with receive enabled and an empty FIFO, enqueuing byte `a`
and then byte `b` with `sio2_queue` and then performing two data reads on that channel
(`sio2_read` at an odd port address of the channel) returns `a` and then `b`, with RR0
bit 0 still set after the first read and clear after the second. -/
theorem c36_fifo_returns_bytes_in_order (s : Machine) (addr a b : Nat) (haddr : addr < 65536)
    (hodd : addr &&& 1 ≠ 0) (ha : a < 256) (hb : b < 256)
    (hrx : (s.chan (chan_of addr)).wr 3 &&& 1 ≠ 0) (hempty : (s.chan (chan_of addr)).dptr = 0) :
    (sio2_read (sio2_queue (sio2_queue s (chan_of addr) a) (chan_of addr) b) addr).1 = a ∧
    (sio2_read (sio2_read (sio2_queue (sio2_queue s (chan_of addr) a) (chan_of addr) b)
        addr).2 addr).1 = b ∧
    ((sio2_read (sio2_queue (sio2_queue s (chan_of addr) a) (chan_of addr) b)
        addr).2.chan (chan_of addr)).rr 0 &&& 1 ≠ 0 ∧
    ((sio2_read (sio2_read (sio2_queue (sio2_queue s (chan_of addr) a) (chan_of addr) b)
        addr).2 addr).2.chan (chan_of addr)).rr 0 &&& 1 = 0 := by
  have hr : ∀ t : Machine, sio2_read t addr = sio2_read_data t (chan_of addr) := by
    intro t
    simp only [sio2_read, Nat.mod_eq_of_lt haddr, if_neg hodd]
  generalize chan_of addr = c at hrx hempty hr
  obtain ⟨q1, q2, q3, q4⟩ := queue_push s c a ha hrx (by omega)
  obtain ⟨p1, p2, p3, p4⟩ := queue_push (sio2_queue s c a) c b hb (by rw [q4]; exact hrx)
    (by rw [q2, hempty]; decide)
  obtain ⟨r1, r2, r3, r4, r5⟩ := read_data_pop (sio2_queue (sio2_queue s c a) c b) c
  obtain ⟨u1, u2, u3, u4, _⟩ :=
    read_data_pop (sio2_read_data (sio2_queue (sio2_queue s c a) c b) c).2 c
  rw [hr, hr]
  have d2 : ((sio2_queue (sio2_queue s c a) c b).chan c).dptr = 2 := by
    rw [p2, q2, hempty]
  refine ⟨?_, ?_, ?_, ?_⟩
  · rw [r1, p1, q1, q2, hempty]
    simp [upd]
  · rw [u1, r2, p1, q1, q2, hempty]
    simp [upd]
  · rw [r4, d2, p3, q3]
    simp only [Nat.reduceSub, one_ne_zero, if_false]
    rw [b0_and_3F]
    exact or_and_self_ne_zero _ 1 (by decide)
  · rw [u4, r3, d2]
    simp only [Nat.reduceSub, if_true]
    rw [b0_and_3F, b0_and_FE]

/-- C36 at a concrete input: receive enabled on channel A after power-on, bytes `0x41`
and `0x42` queued and read back at port 1. -/
theorem c36_fifo_returns_bytes_in_order_witness :
    ((1 : Nat) < 65536 ∧ (1 &&& 1 : Nat) ≠ 0 ∧ (0x41 : Nat) < 256 ∧ (0x42 : Nat) < 256 ∧
      (st_rx_enabled.chan (chan_of 1)).wr 3 &&& 1 ≠ 0 ∧
      (st_rx_enabled.chan (chan_of 1)).dptr = 0) ∧
    (sio2_read (sio2_queue (sio2_queue st_rx_enabled (chan_of 1) 0x41) (chan_of 1) 0x42) 1).1
      = 0x41 :=
  ⟨⟨by decide, by decide, by decide, by decide, by decide, by decide⟩,
   (c36_fifo_returns_bytes_in_order st_rx_enabled 1 0x41 0x42 (by decide) (by decide)
      (by decide) (by decide) (by decide) (by decide)).1⟩

end KZ80

/-! ## Theorems: bounds of the backing store and counter mode of the CTC of
`rc2014-6502.c` -/

namespace RC2014

/-- Every call of `write6502` returns and keeps the bank registers within 6 bits. -/
theorem write6502_keeps_bounds (cfg : Config) (s : Fabric) (addr val : Nat)
    (h : ∀ b < 4, s.bankreg b ≤ 63) :
    ∃ t, write6502 cfg s addr val = some t ∧ ∀ b < 4, t.bankreg b ≤ 63 := by
  have hidx := bank_index_lt s addr (h _ (bank_of_lt s addr))
  unfold bank_of at hidx
  unfold offset_of at hidx
  have h63 : ∀ x : Nat, x &&& 0x3F ≤ 63 := fun x => Nat.and_le_right
  simp only [write6502]
  split_ifs with h1 h2 h3
  · refine ⟨_, rfl, ?_⟩
    simp only [mmio_write_6502]
    split_ifs
    all_goals first
      | exact h
      | (intro b hb
         show (if b = _ then _ else s.bankreg b) ≤ 63
         split_ifs
         · exact h63 _
         · exact h b hb)
  · simp only [CArray.store, if_pos hidx]
    exact ⟨_, rfl, h⟩
  · exact ⟨_, rfl, h⟩
  · exact ⟨_, rfl, h⟩

/-- Every run of `write6502` calls returns and keeps the bank registers within 6 bits. -/
theorem write6502_run_keeps_bounds (cfg : Config) (writes : List (Nat × Nat)) :
    ∀ s : Fabric, (∀ b < 4, s.bankreg b ≤ 63) →
    ∃ t, write6502_run cfg s writes = some t ∧ ∀ b < 4, t.bankreg b ≤ 63 := by
  induction writes with
  | nil =>
    intro s h
    exact ⟨s, rfl, h⟩
  | cons w rest ih =>
    intro s h
    obtain ⟨addr, val⟩ := w
    obtain ⟨s1, h1, h2⟩ := write6502_keeps_bounds cfg s addr val h
    obtain ⟨t, h3, h4⟩ := ih s1 h2
    exact ⟨t, by simp only [write6502_run, h1, h3], h4⟩

/-- C37: in every 6502-profile state reached through calls of `write6502` (port writes
and memory writes) from a state whose bank registers are at most 63, such as power-on,
the calls all return, each bank register is still at most 63, and for every address the
backing-store index that `do_6502_read` (called by `read6502`) and `write6502` compute
is less than 1048576: the read returns the byte at that index and the write returns. -/
theorem c37_index_within_backing_store (cfg : Config) (s0 : Fabric)
    (writes : List (Nat × Nat)) (h0 : ∀ b < 4, s0.bankreg b ≤ 63) :
    ∃ t, write6502_run cfg s0 writes = some t ∧ (∀ b < 4, t.bankreg b ≤ 63) ∧
      ∀ addr : Nat,
        bank_index (t.bankreg (bank_of t addr)) (offset_of t addr) < 1048576 ∧
        offset_of t addr < 1048576 ∧
        do_6502_read t addr
          = some (t.ramrom (if t.bankenable ≠ 0
              then bank_index (t.bankreg (bank_of t addr)) (offset_of t addr)
              else offset_of t addr)) ∧
        ∀ v : Nat, ∃ u, write6502 cfg t addr v = some u := by
  obtain ⟨t, h1, h2⟩ := write6502_run_keeps_bounds cfg writes s0 h0
  refine ⟨t, h1, h2, fun addr => ?_⟩
  have hidx := bank_index_lt t addr (h2 _ (bank_of_lt t addr))
  have hoff : offset_of t addr < RAMROM_SIZE := by
    have := and_3fff_lt (((addr % 65536) ^^^ t.addrinvert) % 65536)
    unfold offset_of RAMROM_SIZE
    omega
  refine ⟨hidx, hoff, ?_, fun v => ?_⟩
  · unfold bank_of offset_of at *
    simp only [do_6502_read, CArray.load]
    split_ifs <;> rfl
  · obtain ⟨u, hu, _⟩ := write6502_keeps_bounds cfg t addr v h2
    exact ⟨u, hu⟩

/-- C37 at a concrete run: from power-on, bank register 3 set to 63 and banking
enabled, then a store to the top address. -/
theorem c37_index_within_backing_store_witness :
    (∀ b < 4, (fabric_power_on (fun _ => 0) 0).bankreg b ≤ 63) ∧
    (write6502_run cfg_default (fabric_power_on (fun _ => 0) 0)
        [(0xC07B, 0xFF), (0xC07C, 1), (0xFFFF, 0xAA)]).bind
        (fun t => (do_6502_read t 0xFFFF).map
          (fun r => (t.bankreg 3, bank_index (t.bankreg (bank_of t 0xFFFF)) (offset_of t 0xFFFF), r)))
      = some (63, 1048575, 0xAA) ∧
    ∃ t, write6502_run cfg_default (fabric_power_on (fun _ => 0) 0)
        [(0xC07B, 0xFF), (0xC07C, 1), (0xFFFF, 0xAA)] = some t ∧
      ∀ b < 4, t.bankreg b ≤ 63 :=
  ⟨fun _ _ => Nat.zero_le 63, by decide,
   (c37_index_within_backing_store cfg_default (fabric_power_on (fun _ => 0) 0)
      [(0xC07B, 0xFF), (0xC07C, 1), (0xFFFF, 0xAA)] (fun _ _ => Nat.zero_le 63)).elim
     (fun t h => ⟨t, h.1, h.2.1⟩)⟩

end RC2014

namespace RC2014

/-- A counting channel with interrupts enabled and reload 0 whose count is 0 or `0x100`
fires on the pulse and is reloaded with 0. -/
theorem pulse_fires_reload_0 (s : CtcSys) (i : Nat)
    (hc : (s.ctc i).ctrl &&& CTC_COUNTER ≠ 0) (hq : (s.ctc i).ctrl &&& CTC_IRQ ≠ 0)
    (hs : ¬ CTC_STOPPED (s.ctc i)) (hr : (s.ctc i).reload = 0)
    (hcount : (s.ctc i).count = 0 ∨ (s.ctc i).count = 0x100) :
    ((ctc_receive_pulse s i).ctc i).ctrl = (s.ctc i).ctrl ∧
    ((ctc_receive_pulse s i).ctc i).reload = 0 ∧
    ((ctc_receive_pulse s i).ctc i).count = 0 ∧
    (ctc_receive_pulse s i).irq_log.count i = s.irq_log.count i + 1 ∧
    (ctc_receive_pulse s i).pulse_log.count i = s.pulse_log.count i + 1 := by
  have hlog : ∀ t : CtcSys, (t.ctc i).ctrl &&& CTC_IRQ ≠ 0 →
      (ctc_interrupt t i).irq_log.count i = t.irq_log.count i + 1 := by
    intro t ht
    rw [(ctc_interrupt_frame t i).2.2.2.1, if_pos ht, List.count_append]
    simp
  rcases hcount with h0 | h0
  · have hp := ctc_pulse_self (ctc_interrupt s i) i
    have hf := ctc_interrupt_frame s i
    rw [ctc_receive_pulse, body_fires_at_0 _ _ _ hc hs h0]
    simp only [ctc_mod_ctc, ctc_mod_irq_log, ctc_mod_pulse_log, if_true, hp.1, hp.2.1,
      hp.2.2.1, hf.1, hf.2.1, hlog s hq, hr]
    exact ⟨trivial, trivial, rfl, trivial, trivial⟩
  · have hq1 : ((s.mod i (fun c => { c with count := c.count - 0x100 })).ctc i).ctrl
        &&& CTC_IRQ ≠ 0 := by simpa using hq
    have hp := ctc_pulse_self
      (ctc_interrupt (s.mod i (fun c => { c with count := c.count - 0x100 })) i) i
    have hf := ctc_interrupt_frame (s.mod i (fun c => { c with count := c.count - 0x100 })) i
    rw [ctc_receive_pulse, body_fires_at_100 _ _ _ hc hs h0]
    simp only [ctc_mod_ctc, ctc_mod_irq_log, ctc_mod_pulse_log, if_true, hp.1, hp.2.1,
      hp.2.2.1, hf.1, hf.2.1, hlog _ hq1, hr]
    exact ⟨trivial, trivial, rfl, trivial, trivial⟩

/-- Along `n` pulses such a channel fires `n` times. -/
theorem pulses_fire_reload_0 (s : CtcSys) (i : Nat)
    (hc : (s.ctc i).ctrl &&& CTC_COUNTER ≠ 0) (hq : (s.ctc i).ctrl &&& CTC_IRQ ≠ 0)
    (hs : ¬ CTC_STOPPED (s.ctc i)) (hr : (s.ctc i).reload = 0)
    (hcount : (s.ctc i).count = 0 ∨ (s.ctc i).count = 0x100) (n : Nat) :
    ((ctc_pulses s i n).ctc i).ctrl = (s.ctc i).ctrl ∧
    ((ctc_pulses s i n).ctc i).reload = 0 ∧
    (((ctc_pulses s i n).ctc i).count = 0 ∨ ((ctc_pulses s i n).ctc i).count = 0x100) ∧
    (ctc_pulses s i n).irq_log.count i = s.irq_log.count i + n ∧
    (ctc_pulses s i n).pulse_log.count i = s.pulse_log.count i + n := by
  induction n with
  | zero => exact ⟨rfl, hr, hcount, rfl, rfl⟩
  | succ n ih =>
    obtain ⟨h1, h2, h3, h4, h5⟩ := ih
    have hstop : ¬ CTC_STOPPED ((ctc_pulses s i n).ctc i) := by
      unfold CTC_STOPPED at hs ⊢
      rw [h1]
      exact hs
    have := pulse_fires_reload_0 (ctc_pulses s i n) i (by rw [h1]; exact hc)
      (by rw [h1]; exact hq) hstop h2 h3
    simp only [ctc_pulses]
    refine ⟨this.1.trans h1, this.2.1, Or.inl this.2.2.1, ?_, ?_⟩
    · rw [this.2.2.2.1, h4, Nat.add_assoc]
    · rw [this.2.2.2.2, h5, Nat.add_assoc]

set_option maxRecDepth 100000 in
/-- A count of `k * 256` with `k` in `1..255` has a nonzero high byte. -/
theorem count_high_byte : ∀ k < 256, 1 ≤ k → (k * 256) &&& 0xFF00 ≠ 0 := by
  decide

/-- A counting channel whose count is `k * 256` with `k ≥ 2` only counts down on the
pulse. -/
theorem pulse_counts_down (s : CtcSys) (i k : Nat)
    (hc : (s.ctc i).ctrl &&& CTC_COUNTER ≠ 0) (hs : ¬ CTC_STOPPED (s.ctc i))
    (hk : 2 ≤ k) (hk2 : k < 256) (hcount : (s.ctc i).count = k * 256) :
    ctc_receive_pulse s i = s.mod i (fun c => { c with count := c.count - 0x100 }) := by
  have h1 : (s.ctc i).count ≥ 0x0100 := by omega
  have h2 : ((s.ctc i).count - 0x100) &&& 0xFF00 ≠ 0 := by
    have e : (s.ctc i).count - 0x100 = (k - 1) * 256 := by omega
    rw [e]
    exact count_high_byte (k - 1) (by omega) (by omega)
  simp only [ctc_receive_pulse, ctc_receive_pulse_body, hc, hs, h1, ne_eq,
    not_false_eq_true, if_true, if_false, ctc_mod_ctc, h2]

/-- Along `j` pulses a counting channel whose count is `k * 256` with `j < k` counts
down to `(k - j) * 256` and does not fire. -/
theorem pulses_count_down (s : CtcSys) (i k : Nat)
    (hc : (s.ctc i).ctrl &&& CTC_COUNTER ≠ 0) (hs : ¬ CTC_STOPPED (s.ctc i))
    (hk2 : k < 256) (hcount : (s.ctc i).count = k * 256) (j : Nat) (hj : j < k) :
    ((ctc_pulses s i j).ctc i).ctrl = (s.ctc i).ctrl ∧
    ((ctc_pulses s i j).ctc i).reload = (s.ctc i).reload ∧
    ((ctc_pulses s i j).ctc i).count = (k - j) * 256 ∧
    (ctc_pulses s i j).irq_log = s.irq_log ∧
    (ctc_pulses s i j).pulse_log = s.pulse_log := by
  induction j with
  | zero => exact ⟨rfl, rfl, hcount, rfl, rfl⟩
  | succ j ih =>
    obtain ⟨h1, h2, h3, h4, h5⟩ := ih (by omega)
    have hstop : ¬ CTC_STOPPED ((ctc_pulses s i j).ctc i) := by
      unfold CTC_STOPPED at hs ⊢
      rw [h1]
      exact hs
    have e := pulse_counts_down (ctc_pulses s i j) i (k - j) (by rw [h1]; exact hc) hstop
      (by omega) (by omega) h3
    simp only [ctc_pulses]
    rw [e]
    simp only [ctc_mod_ctc, ctc_mod_irq_log, ctc_mod_pulse_log, if_true, h1, h2, h3, h4, h5]
    refine ⟨trivial, trivial, ?_, trivial, trivial⟩
    omega

/-- Pulses after pulses. -/
theorem ctc_pulses_add (s : CtcSys) (i a n : Nat) :
    ctc_pulses s i (a + n) = ctc_pulses (ctc_pulses s i a) i n := by
  induction n with
  | zero => rfl
  | succ n ih =>
    show ctc_receive_pulse (ctc_pulses s i (a + n)) i = ctc_receive_pulse _ i
    rw [ih]

/-- The channel of the scenario as programmed: counter mode, interrupts enabled, not
stopped, reload 0, count `0xFF00`, nothing logged. -/
theorem ctc_counter_zero_start :
    (st_ctc_counter_zero.ctc 1).ctrl &&& CTC_COUNTER ≠ 0 ∧
    (st_ctc_counter_zero.ctc 1).ctrl &&& CTC_IRQ ≠ 0 ∧
    ¬ CTC_STOPPED (st_ctc_counter_zero.ctc 1) ∧
    (st_ctc_counter_zero.ctc 1).reload = 0 ∧
    (st_ctc_counter_zero.ctc 1).count = 255 * 256 ∧
    st_ctc_counter_zero.irq_log.count 1 = 0 ∧
    st_ctc_counter_zero.pulse_log.count 1 = 0 := by
  decide

/-- C38: `ctc_receive_pulse` reloads `count` with `reload << 8`, which is 0 for time
constant 0, where `ctc_tick` handles `reload == 0` as 256.  A channel programmed in
counter mode (control word `0xC7`) with time constant 0 starts at count `0xFF00`, does
not fire during the first 254 pulses, fires on the 255th, and from then on fires on
every pulse: after `255 + n` pulses it has requested `1 + n` interrupts and sent `1 + n`
outbound pulses (2 after 256 pulses, 258 after 512). -/
theorem c38_reload_zero_fires_on_every_pulse :
    ((st_ctc_counter_zero.ctc 1).ctrl &&& CTC_COUNTER ≠ 0 ∧
      (st_ctc_counter_zero.ctc 1).reload = 0 ∧ (st_ctc_counter_zero.ctc 1).count = 0xFF00) ∧
    ((ctc_pulses st_ctc_counter_zero 1 254).irq_log.count 1 = 0 ∧
      (ctc_pulses st_ctc_counter_zero 1 254).pulse_log.count 1 = 0) ∧
    (∀ n : Nat,
      (ctc_pulses st_ctc_counter_zero 1 (255 + n)).irq_log.count 1 = 1 + n ∧
      (ctc_pulses st_ctc_counter_zero 1 (255 + n)).pulse_log.count 1 = 1 + n) ∧
    ((ctc_pulses st_ctc_counter_zero 1 256).irq_log.count 1 = 2 ∧
      (ctc_pulses st_ctc_counter_zero 1 512).irq_log.count 1 = 258) := by
  obtain ⟨hc, hq, hs, hr, hcount, hi, hp⟩ := ctc_counter_zero_start
  obtain ⟨d1, d2, d3, d4, d5⟩ :=
    pulses_count_down st_ctc_counter_zero 1 255 hc hs (by decide) hcount 254 (by decide)
  have hstop : ¬ CTC_STOPPED ((ctc_pulses st_ctc_counter_zero 1 254).ctc 1) := by
    unfold CTC_STOPPED at hs ⊢
    rw [d1]
    exact hs
  have hall : ∀ n : Nat,
      (ctc_pulses st_ctc_counter_zero 1 (255 + n)).irq_log.count 1 = 1 + n ∧
      (ctc_pulses st_ctc_counter_zero 1 (255 + n)).pulse_log.count 1 = 1 + n := by
    intro n
    have f := pulses_fire_reload_0 (ctc_pulses st_ctc_counter_zero 1 254) 1
      (by rw [d1]; exact hc) (by rw [d1]; exact hq) hstop (by rw [d2]; exact hr)
      (Or.inr (by rw [d3])) (1 + n)
    have e : 255 + n = 254 + (1 + n) := by omega
    rw [e, ctc_pulses_add, f.2.2.2.1, f.2.2.2.2, d4, d5, hi, hp]
    omega
  refine ⟨⟨hc, hr, hcount⟩, ⟨by rw [d4]; exact hi, by rw [d5]; exact hp⟩, hall,
    (hall 1).1, (hall 257).1⟩

end RC2014
